import Mathlib

/-!
# RiiVerse realtime registry and fan-out: a shallow embedding of `handlers.go`

The Go file keeps one process-wide map `clients` from websocket connections to
session objects and walks it in every handler that pushes an event.  This file
embeds that map, the per-handler fan-out loops and the three phases of
`handleConnections` (handshake, read loop, teardown) as pure functions on an
explicit `World`, and proves properties of those functions.  The polling
fallback of `getNotificationCounts` is embedded on the two columns of `users`
it reads and writes (`PollDb`).

Modelling conventions

* A `*websocket.Conn` is a `Handle` (its identity).  The session object a handle
  points to lives in `World.sess`; the map `clients` is the list of its keys in
  one possible iteration order.  Go leaves the order of `range` over a map
  unspecified, so every theorem quantifies over all lists.
* `for client := range clients` visits the keys that were present when the loop
  started and skips a key that has been deleted before it is reached.
* The outcome of a frame write is not determined by the program; it is an
  argument `fails : Handle → Bool` of every pass.
* Effects on transports, on the database and on the `Send` channels are
  recorded in log fields of the `World`.
* `close` of a nil or closed channel panics.  A panic ends the running handler:
  the rest of its loop is skipped, `panicked` is set, and the deferred
  `ws.Close()` of `handleConnections` still runs.
* Of the send worker goroutine the first statement, which makes the `Send`
  channel, is part of the handshake; it runs right after the registration.  The
  loop of the worker is embedded on `Sys`, the process state that adds the
  `Send` buffers and the control state of each worker to the `World`.
* `Mutex.Lock`/`Unlock` pairs are not tracked; execution is sequential at the
  granularity of one loop pass or one read step.
-/

namespace RiiVerse

/-! ## Data model -/

/-- Identity of a `*websocket.Conn`, the key type of the map `clients`. -/
abbrev Handle := Nat

/-- State of a Go channel value: `nil`, made, or closed. -/
inductive ChanState where
  | unmade
  | ready
  | shut
deriving DecidableEq, Repr

/-- The `wsMessage` struct: `ID`, `Type` (here `Typ`) and `Content`. -/
structure wsMessage where
  ID : String
  Typ : String
  Content : String
deriving DecidableEq, Repr

/-- The `wsSession` struct as far as `handlers.go` reads and writes it. -/
structure wsSession where
  Connected : Bool
  UserID : Int
  Level : Int
  OnPage : String
  Send : ChanState
deriving DecidableEq, Repr

/-- The fields of the `user` struct that the modelled code reads. -/
structure user where
  ID : Int
  Level : Int
  Username : String
  Nickname : String
deriving DecidableEq, Repr

/-- SQL statements that change rows and are issued by the modelled code. -/
inductive DbWrite where
  | usersSetOnline (id : Int) (online : Bool)
  | messagesMarkRead (conversation : String) (createdBy : Int)
  | groupMembersClearUnread (conversation : String) (member : Int)
deriving DecidableEq, Repr

/-- Process state seen by the handlers.
`sess` holds the session object of every handle, `clients` the keys of the
map, `closed` the transports on which `Close()` was called, `wsCalls` the
calls of `writeWs`, `frames` the direct `WriteJSON` calls of
`handleConnections`, `db` the SQL writes, `passes` the presence announce loops
that were entered (message type and user id), and `panicked` whether the
handler that ran the last loop panicked in it. -/
structure World where
  sess : Handle → wsSession
  clients : List Handle
  closed : List Handle
  wsCalls : List (Handle × wsMessage)
  frames : List (Handle × wsMessage)
  db : List DbWrite
  passes : List (String × Int)
  panicked : Bool

/-! ## Primitive operations -/

/-- Go `delete(clients, client)`. -/
def delClient (client : Handle) (w : World) : World :=
  { w with clients := w.clients.filter (fun k => k != client) }

/-- Go `clients[ws] = &client`: the key is added when absent; the value is the
pointer to the session object of `ws`, which `sess` already holds. -/
def putClient (ws : Handle) (w : World) : World :=
  { w with clients := if ws ∈ w.clients then w.clients else w.clients ++ [ws] }

/-- Go `conn.Close()` on a transport. -/
def connClose (conn : Handle) (w : World) : World :=
  { w with closed := w.closed ++ [conn] }

/-- Assignment to fields of the session object of `h`. -/
def setSess (h : Handle) (s : wsSession) (w : World) : World :=
  { w with sess := fun k => if k = h then s else w.sess k }

/-- Go `db.Exec` of a statement that changes rows. -/
def dbExec (q : DbWrite) (w : World) : World :=
  { w with db := w.db ++ [q] }

/-- Modelled from the spec: `writeWs(session, conn, msg)` is defined outside
handlers.go; the spec describes it as the per-connection write-frame primitive
that reports success or failure.  The call is logged and the error result is
taken from `fails`. -/
def writeWs (fails : Handle → Bool) (conn : Handle) (msg : wsMessage) (w : World) :
    Bool × World :=
  (fails conn, { w with wsCalls := w.wsCalls ++ [(conn, msg)] })

/-- Go `for client := range clients { body }` from the keys still to visit. -/
def rangeFrom (body : Handle → World → World) : List Handle → World → World
  | [], w => w
  | client :: rest, w =>
    if w.panicked then w
    else if client ∈ w.clients then rangeFrom body rest (body client w)
    else rangeFrom body rest w

/-- Go `for client := range clients { body }` in a running handler. -/
def rangeClients (body : Handle → World → World) (w : World) : World :=
  rangeFrom body w.clients { w with panicked := false }

/-! ## Handler fan-out loops -/

/-- The statement sequence
`err := writeWs(clients[client], client, msg); if err != nil { client.Close(); delete(clients, client) }`. -/
def sendOrPrune (fails : Handle → Bool) (msg : wsMessage) (client : Handle) (w : World) : World :=
  let r := writeWs fails client msg w
  if r.1 then delClient client (connClose client r.2) else r.2

/-- Loop body `if cond(clients[client]) { sendOrPrune }`. -/
def fanBody (cond : wsSession → Bool) (fails : Handle → Bool) (msg : wsMessage)
    (client : Handle) (w : World) : World :=
  if cond (w.sess client) then sendOrPrune fails msg client w else w

/-- The common shape of the handler loops: one condition, one message. -/
def fanoutIf (cond : wsSession → Bool) (fails : Handle → Bool) (msg : wsMessage) (w : World) :
    World :=
  rangeClients (fanBody cond fails msg) w

/-- Fan-out loop of `adminBanUser` (lines 215-225). -/
def adminBanUser_fanout (fails : Handle → Bool) (userID : Int) (w : World) : World :=
  fanoutIf (fun s => s.UserID == userID) fails ⟨"", "refresh", ""⟩ w

/-- Fan-out loop of `blockUser` (lines 432-443). -/
def blockUser_fanout (fails : Handle → Bool) (CurrentUser : user) (user_id : Int) (w : World) :
    World :=
  fanoutIf (fun s => s.UserID == user_id) fails ⟨"", "block", CurrentUser.Username⟩ w

/-- Fan-out loop of `unblockUser` (lines 5772-5783). -/
def unblockUser_fanout (fails : Handle → Bool) (CurrentUser : user) (user_id : Int) (w : World) :
    World :=
  fanoutIf (fun s => s.UserID == user_id) fails ⟨"", "unblock", CurrentUser.Username⟩ w

/-- Fan-out loop of `newFriendRequest` (lines 2584-2599); the two counts are
the results of the two `SELECT COUNT(*)` queries. -/
def newFriendRequest_fanout (fails : Handle → Bool) (user_id : Int)
    (notifCount friendRequests : Int) (w : World) : World :=
  fanoutIf (fun s => s.UserID == user_id) fails
    ⟨"", "notif", toString (notifCount + friendRequests)⟩ w

/-- Fan-out loop of `editComment` (lines 1583-1597). -/
def editComment_fanout (fails : Handle → Bool) (comment_id post_id content : String)
    (w : World) : World :=
  fanoutIf (fun s => s.OnPage == "/posts/" ++ post_id || s.OnPage == "/comments/" ++ comment_id)
    fails ⟨comment_id, "commentEdit", content⟩ w

/-- Force-logout loop of `logout` (lines 2395-2403).  `userID` is the
`interface{}` value `session.Get("user_id")`: `none` stands for `nil`, which is
equal to no `int`.  The error of `writeWs` is dropped; the transport is closed
and the entry deleted for every match. -/
def logout_fanout (fails : Handle → Bool) (userID : Option Int) (w : World) : World :=
  rangeClients
    (fun client st =>
      if some (st.sess client).UserID == userID then
        delClient client (connClose client (writeWs fails client ⟨"", "refresh", ""⟩ st).2)
      else st) w

/-- Force-logout loop of `resetPassword` (lines 2883-2891); `userID` is an `int`. -/
def resetPassword_fanout (fails : Handle → Bool) (userID : Int) (w : World) : World :=
  rangeClients
    (fun client st =>
      if (st.sess client).UserID == userID then
        delClient client (connClose client (writeWs fails client ⟨"", "refresh", ""⟩ st).2)
      else st) w

/-- Inputs of the fan-out loop of `sendMessage` that come from the request,
the database and the templates: `target` and `otherUserID` of the conversation
row, the rendered message `rendered` (`msgTpl.String()`), `escapedUsername`
(`url.PathEscape(CurrentUser.Username)`), `members` (the rows of
`SELECT user FROM group_members WHERE conversation = ? AND user != ?`),
`preview` (the marshalled `messagePreview` for a recipient user id),
`queryFails` (whether the nickname query returns an error while the given
connection is visited), and the two unread counts. -/
structure SendCtx where
  CurrentUser : user
  conversation_id : String
  target : Int
  otherUserID : Int
  rendered : String
  escapedUsername : String
  members : List Int
  preview : Int → String
  queryFails : Handle → Bool
  unread : Int
  groupUnread : Int

/-- Fan-out loop of `sendMessage` (lines 3104-3185) from the keys still to
visit; `msg` is the loop-carried variable `msg`, and the `return` after
`http.Error` ends the loop. -/
def sendMessage_from (c : SendCtx) (fails : Handle → Bool) :
    List Handle → wsMessage → World → World
  | [], _, w => w
  | client :: rest, msg, w =>
    if client ∈ w.clients then
      let s := w.sess client
      let qualifies :=
        if c.target = 0 then
          s.OnPage == "/conversations/" ++ c.conversation_id && s.UserID != c.CurrentUser.ID
        else
          s.OnPage == "/messages/" ++ c.escapedUsername && s.UserID == c.otherUserID
      if qualifies then
        let w1 := (writeWs fails client msg w).2
        let w2 := dbExec (.messagesMarkRead c.conversation_id c.CurrentUser.ID) w1
        let w3 :=
          if c.target = 0 then
            dbExec (.groupMembersClearUnread c.conversation_id c.CurrentUser.ID) w2
          else w2
        sendMessage_from c fails rest msg w3
      else if s.UserID == c.otherUserID || c.target == 0 then
        if c.target = 0 ∧ ¬ s.UserID ∈ c.members then
          sendMessage_from c fails rest msg w
        else if s.OnPage = "/messages" then
          if c.target = 0 ∧ c.queryFails client = true then w
          else
            let msg1 : wsMessage := ⟨msg.ID, "messagePreview", c.preview s.UserID⟩
            sendMessage_from c fails rest msg1 (sendOrPrune fails msg1 client w)
        else
          let msg1 : wsMessage := ⟨msg.ID, "messageNotif", toString (c.unread + c.groupUnread)⟩
          sendMessage_from c fails rest msg1 (sendOrPrune fails msg1 client w)
      else sendMessage_from c fails rest msg w
    else sendMessage_from c fails rest msg w

/-- Fan-out loop of `sendMessage` with `msg` initialised as in lines 3104-3106. -/
def sendMessage_fanout (c : SendCtx) (fails : Handle → Bool) (w : World) : World :=
  sendMessage_from c fails w.clients ⟨"", "message", c.rendered⟩ w

/-! ## The remaining handler loops -/

/-- Loop over the registry whose body first assigns locals and chooses a
message (`pick`, with `none` for `continue` or no branch taken) and then runs
the write-or-prune sequence; `st` holds the locals that the body assigns and
that live across iterations (the variable `msg`, for `deleteMessage` also
`otherUserID`). -/
def rangeSel {σ : Type} (pick : σ → wsSession → σ × Option wsMessage) (fails : Handle → Bool) :
    List Handle → σ → World → World
  | [], _, w => w
  | client :: rest, st, w =>
    if client ∈ w.clients then
      match pick st (w.sess client) with
      | (st1, some msg) => rangeSel pick fails rest st1 (sendOrPrune fails msg client w)
      | (st1, none) => rangeSel pick fails rest st1 w
    else rangeSel pick fails rest st w

/-- Inputs of the loop of `createComment` (lines 641-667); `blocked` and
`forbidden` are the results of `checkIfEitherBlocked(UserID, comments.CreatedBy)`
and `inForbiddenKeywords(body, UserID)`, which are defined outside handlers.go. -/
structure CommentCtx where
  CreatedBy : Int
  post_id : String
  community_id : String
  is_spoiler : String
  commentTpl : String
  commentPreviewTpl : String
  blocked : Int → Bool
  forbidden : Int → Bool

/-- Branches of the loop body of `createComment`. -/
def createComment_pick (c : CommentCtx) (msg : wsMessage) (s : wsSession) :
    wsMessage × Option wsMessage :=
  if (!c.blocked s.UserID || decide (s.Level > 0)) && !c.forbidden s.UserID then
    if s.OnPage == "/posts/" ++ c.post_id && s.UserID != c.CreatedBy then
      (⟨msg.ID, "comment", c.commentTpl⟩, some ⟨msg.ID, "comment", c.commentTpl⟩)
    else if s.OnPage == "/communities/" ++ c.community_id && c.is_spoiler == "0" then
      (⟨c.post_id, "commentPreview", c.commentPreviewTpl⟩,
        some ⟨c.post_id, "commentPreview", c.commentPreviewTpl⟩)
    else (msg, none)
  else (msg, none)

/-- Fan-out loop of `createComment` (lines 641-667). -/
def createComment_fanout (c : CommentCtx) (fails : Handle → Bool) (w : World) : World :=
  rangeSel (createComment_pick c) fails w.clients ⟨"", "", ""⟩ w

/-- Fan-out loop of `createCommentYeah` (lines 704-730). -/
def createCommentYeah_fanout (fails : Handle → Bool) (user_id : Int)
    (comment_id post_id content : String) (w : World) : World :=
  fanoutIf
    (fun s => (s.OnPage == "/posts/" ++ post_id || s.OnPage == "/comments/" ++ comment_id) &&
      s.UserID != user_id)
    fails ⟨comment_id, "commentYeah", content⟩ w

/-- Go `strings.HasPrefix(s, p)`. -/
def hasPrefix (s p : String) : Bool :=
  p.data.isPrefixOf s.data

/-- Fan-out loop of `createFollow` (lines 774-785). -/
def createFollow_fanout (fails : Handle → Bool) (username : String) (w : World) : World :=
  fanoutIf (fun s => hasPrefix s.OnPage ("/users/" ++ username)) fails ⟨"", "follow", ""⟩ w

/-- Fan-out loop of `deleteFollow` (lines 1281-1292). -/
def deleteFollow_fanout (fails : Handle → Bool) (username : String) (w : World) : World :=
  fanoutIf (fun s => hasPrefix s.OnPage ("/users/" ++ username)) fails ⟨"", "unfollow", ""⟩ w

/-- Inputs of the loop of `createPost` (lines 1055-1083); `blocked` and
`forbidden` as in `CommentCtx`. -/
structure PostCtx where
  CurrentUser : user
  CreatedBy : Int
  Privacy : Int
  community_id : String
  CommunityPostTpl : String
  UserPostTpl : String
  blocked : Int → Bool
  forbidden : Int → Bool

/-- Branches of the loop body of `createPost`. -/
def createPost_pick (c : PostCtx) (msg : wsMessage) (s : wsSession) :
    wsMessage × Option wsMessage :=
  if s.OnPage == "/communities/" ++ c.community_id && s.UserID != c.CreatedBy &&
      (!c.blocked s.UserID || decide (s.Level > 0)) && !c.forbidden s.UserID &&
      c.Privacy == 0 then
    (⟨msg.ID, msg.Typ, c.CommunityPostTpl⟩, some ⟨msg.ID, msg.Typ, c.CommunityPostTpl⟩)
  else if s.OnPage == "/users/" ++ c.CurrentUser.Username ++ "/posts" &&
      (!c.blocked s.UserID || decide (s.Level > 0)) && !c.forbidden s.UserID &&
      c.Privacy == 0 then
    (⟨msg.ID, msg.Typ, c.UserPostTpl⟩, some ⟨msg.ID, msg.Typ, c.UserPostTpl⟩)
  else (msg, none)

/-- Fan-out loop of `createPost` (lines 1055-1083). -/
def createPost_fanout (c : PostCtx) (fails : Handle → Bool) (w : World) : World :=
  rangeSel (createPost_pick c) fails w.clients ⟨"", "post", c.CommunityPostTpl⟩ w

/-- Fan-out loop of `createPostYeah` (lines 1122-1148). -/
def createPostYeah_fanout (fails : Handle → Bool) (user_id : Int)
    (community_id post_id content : String) (w : World) : World :=
  fanoutIf
    (fun s => (s.OnPage == "/communities/" ++ community_id || s.OnPage == "/posts/" ++ post_id) &&
      s.UserID != user_id)
    fails ⟨post_id, "postYeah", content⟩ w

/-- Branches of the loop body of `deleteComment` (lines 1190-1197); `commentID`
is the `int` read from the column `post`. -/
def deleteComment_pick (CurrentUser : user) (comment_id : String) (commentID : Int)
    (msg : wsMessage) (s : wsSession) : wsMessage × Option wsMessage :=
  if s.OnPage == "/posts/" ++ toString commentID then
    (⟨msg.ID, "delete", msg.Content⟩, some ⟨msg.ID, "delete", msg.Content⟩)
  else if s.OnPage == "/comments/" ++ comment_id && s.UserID != CurrentUser.ID then
    (⟨msg.ID, "refresh", msg.Content⟩, some ⟨msg.ID, "refresh", msg.Content⟩)
  else (msg, none)

/-- Fan-out loop of `deleteComment` (lines 1188-1203). -/
def deleteComment_fanout (fails : Handle → Bool) (CurrentUser : user) (comment_id : String)
    (commentID : Int) (w : World) : World :=
  rangeSel (deleteComment_pick CurrentUser comment_id commentID) fails w.clients
    ⟨comment_id, "", ""⟩ w

/-- Fan-out loop of `deleteCommentYeah` (lines 1222-1235). -/
def deleteCommentYeah_fanout (fails : Handle → Bool) (user_id : Int)
    (comment_id post_id yeah_id : String) (w : World) : World :=
  fanoutIf
    (fun s => (s.OnPage == "/posts/" ++ post_id || s.OnPage == "/comments/" ++ comment_id) &&
      s.UserID != user_id)
    fails ⟨comment_id, "commentUnyeah", yeah_id⟩ w

/-- Inputs of the loop of `deleteMessage` (lines 1372-1405): `otherUserID` is
the value read before the loop, `memberCount` the result of
`SELECT COUNT(*) FROM group_members WHERE user = ? AND conversation = ?` for a
user id. -/
structure DeleteMessageCtx where
  escapedUsername : String
  message_id : String
  conversationID : String
  otherUserID : Int
  memberCount : Int → Int

/-- Branches of the loop body of `deleteMessage`; the locals are `msg` and
`otherUserID`, which the `Scan` of the member count overwrites. -/
def deleteMessage_pick (c : DeleteMessageCtx) (st : wsMessage × Int) (s : wsSession) :
    (wsMessage × Int) × Option wsMessage :=
  if st.2 > 0 then
    if s.OnPage == "/messages/" ++ c.escapedUsername && s.UserID == st.2 then
      ((⟨st.1.ID, "delete", st.1.Content⟩, st.2), some ⟨st.1.ID, "delete", st.1.Content⟩)
    else (st, none)
  else if s.OnPage == "/conversations/" ++ c.conversationID then
    if c.memberCount s.UserID = 0 then ((st.1, c.memberCount s.UserID), none)
    else
      ((⟨st.1.ID, "delete", st.1.Content⟩, c.memberCount s.UserID),
        some ⟨st.1.ID, "delete", st.1.Content⟩)
  else (st, none)

/-- Fan-out loop of `deleteMessage` (lines 1380-1405). -/
def deleteMessage_fanout (c : DeleteMessageCtx) (fails : Handle → Bool) (w : World) : World :=
  rangeSel (deleteMessage_pick c) fails w.clients (⟨c.message_id, "", ""⟩, c.otherUserID) w

/-- Branches of the loop body of `deletePost` (lines 1459-1466). -/
def deletePost_pick (CurrentUser : user) (post_id : String) (community_id : Int)
    (msg : wsMessage) (s : wsSession) : wsMessage × Option wsMessage :=
  if s.OnPage == "/communities/" ++ toString community_id then
    (⟨msg.ID, "delete", msg.Content⟩, some ⟨msg.ID, "delete", msg.Content⟩)
  else if s.OnPage == "/posts/" ++ post_id && s.UserID != CurrentUser.ID then
    (⟨msg.ID, "refresh", msg.Content⟩, some ⟨msg.ID, "refresh", msg.Content⟩)
  else (msg, none)

/-- Fan-out loop of `deletePost` (lines 1457-1472). -/
def deletePost_fanout (fails : Handle → Bool) (CurrentUser : user) (post_id : String)
    (community_id : Int) (w : World) : World :=
  rangeSel (deletePost_pick CurrentUser post_id community_id) fails w.clients
    ⟨post_id, "", ""⟩ w

/-- Fan-out loop of `deletePostYeah` (lines 1491-1504). -/
def deletePostYeah_fanout (fails : Handle → Bool) (user_id : Int)
    (community_id post_id yeah_id : String) (w : World) : World :=
  fanoutIf
    (fun s => (s.OnPage == "/communities/" ++ community_id || s.OnPage == "/posts/" ++ post_id) &&
      s.UserID != user_id)
    fails ⟨post_id, "postUnyeah", yeah_id⟩ w

/-- Branches of the loop body of `editPost` (lines 1711-1718); `parsed` and
`parsedBreaks` are `parseBody(body, ...)` and `parseBodyWithLineBreaks(body, ...)`. -/
def editPost_pick (post_id community_id parsed parsedBreaks : String)
    (msg : wsMessage) (s : wsSession) : wsMessage × Option wsMessage :=
  if s.OnPage == "/posts/" ++ post_id then
    (⟨msg.ID, msg.Typ, parsed⟩, some ⟨msg.ID, msg.Typ, parsed⟩)
  else if s.OnPage == "/communities/" ++ community_id then
    (⟨msg.ID, msg.Typ, parsedBreaks⟩, some ⟨msg.ID, msg.Typ, parsedBreaks⟩)
  else (msg, none)

/-- Fan-out loop of `editPost` (lines 1706-1724). -/
def editPost_fanout (fails : Handle → Bool) (post_id community_id parsed parsedBreaks : String)
    (w : World) : World :=
  rangeSel (editPost_pick post_id community_id parsed parsedBreaks) fails w.clients
    ⟨post_id, "postEdit", ""⟩ w

/-- Fan-out loop of `showConversation` (lines 3958-3974); `unread` and
`groupUnread` are the two counts read before the loop. -/
def showConversation_fanout (fails : Handle → Bool) (CurrentUser : user)
    (unread groupUnread : Int) (w : World) : World :=
  fanoutIf (fun s => s.UserID == CurrentUser.ID) fails
    ⟨"", "messageNotif", toString (unread + groupUnread)⟩ w

/-- Fan-out loop of `showFriendRequests` (lines 4316-4327); `count` is the
value scanned into `msg.Content`. -/
def showFriendRequests_fanout (fails : Handle → Bool) (CurrentUser : user) (count : String)
    (w : World) : World :=
  fanoutIf (fun s => s.UserID == CurrentUser.ID) fails ⟨"", "notif", count⟩ w

/-- Fan-out loop of `showGroupChat` (lines 4507-4521): the two counts are read
but `msg.Content` is never assigned. -/
def showGroupChat_fanout (fails : Handle → Bool) (CurrentUser : user) (w : World) : World :=
  fanoutIf (fun s => s.UserID == CurrentUser.ID) fails ⟨"", "messageNotif", ""⟩ w

/-- Fan-out loop of `showNotifications` (lines 4705-4716); `count` is the value
scanned into `msg.Content`. -/
def showNotifications_fanout (fails : Handle → Bool) (CurrentUser : user) (count : String)
    (w : World) : World :=
  fanoutIf (fun s => s.UserID == CurrentUser.ID) fails ⟨"", "notif", count⟩ w

/-- Fan-out loop of `voteOnPoll` (lines 6050-6058); `msg` is built before the
loop. -/
def voteOnPoll_fanout (fails : Handle → Bool) (CurrentUser : user) (msg : wsMessage)
    (w : World) : World :=
  fanoutIf (fun s => s.UserID != CurrentUser.ID) fails msg w

/-- The fan-out loops of the handlers other than `sendMessage`, each with the
inputs it takes from the request and the database. -/
inductive HandlerLoop where
  | adminBanUser (userID : Int)
  | blockUser (CurrentUser : user) (user_id : Int)
  | createComment (c : CommentCtx)
  | createCommentYeah (user_id : Int) (comment_id post_id content : String)
  | createFollow (username : String)
  | createPost (c : PostCtx)
  | createPostYeah (user_id : Int) (community_id post_id content : String)
  | deleteComment (CurrentUser : user) (comment_id : String) (commentID : Int)
  | deleteCommentYeah (user_id : Int) (comment_id post_id yeah_id : String)
  | deleteFollow (username : String)
  | deleteMessage (c : DeleteMessageCtx)
  | deletePost (CurrentUser : user) (post_id : String) (community_id : Int)
  | deletePostYeah (user_id : Int) (community_id post_id yeah_id : String)
  | editComment (comment_id post_id content : String)
  | editPost (post_id community_id parsed parsedBreaks : String)
  | logout (userID : Option Int)
  | newFriendRequest (user_id notifCount friendRequests : Int)
  | resetPassword (userID : Int)
  | showConversation (CurrentUser : user) (unread groupUnread : Int)
  | showFriendRequests (CurrentUser : user) (count : String)
  | showGroupChat (CurrentUser : user)
  | showNotifications (CurrentUser : user) (count : String)
  | unblockUser (CurrentUser : user) (user_id : Int)
  | voteOnPoll (CurrentUser : user) (msg : wsMessage)

/-- The loop that a `HandlerLoop` names. -/
def HandlerLoop.run (fails : Handle → Bool) (w : World) : HandlerLoop → World
  | .adminBanUser userID => adminBanUser_fanout fails userID w
  | .blockUser CurrentUser user_id => blockUser_fanout fails CurrentUser user_id w
  | .createComment c => createComment_fanout c fails w
  | .createCommentYeah user_id comment_id post_id content =>
    createCommentYeah_fanout fails user_id comment_id post_id content w
  | .createFollow username => createFollow_fanout fails username w
  | .createPost c => createPost_fanout c fails w
  | .createPostYeah user_id community_id post_id content =>
    createPostYeah_fanout fails user_id community_id post_id content w
  | .deleteComment CurrentUser comment_id commentID =>
    deleteComment_fanout fails CurrentUser comment_id commentID w
  | .deleteCommentYeah user_id comment_id post_id yeah_id =>
    deleteCommentYeah_fanout fails user_id comment_id post_id yeah_id w
  | .deleteFollow username => deleteFollow_fanout fails username w
  | .deleteMessage c => deleteMessage_fanout c fails w
  | .deletePost CurrentUser post_id community_id =>
    deletePost_fanout fails CurrentUser post_id community_id w
  | .deletePostYeah user_id community_id post_id yeah_id =>
    deletePostYeah_fanout fails user_id community_id post_id yeah_id w
  | .editComment comment_id post_id content =>
    editComment_fanout fails comment_id post_id content w
  | .editPost post_id community_id parsed parsedBreaks =>
    editPost_fanout fails post_id community_id parsed parsedBreaks w
  | .logout userID => logout_fanout fails userID w
  | .newFriendRequest user_id notifCount friendRequests =>
    newFriendRequest_fanout fails user_id notifCount friendRequests w
  | .resetPassword userID => resetPassword_fanout fails userID w
  | .showConversation CurrentUser unread groupUnread =>
    showConversation_fanout fails CurrentUser unread groupUnread w
  | .showFriendRequests CurrentUser count => showFriendRequests_fanout fails CurrentUser count w
  | .showGroupChat CurrentUser => showGroupChat_fanout fails CurrentUser w
  | .showNotifications CurrentUser count => showNotifications_fanout fails CurrentUser count w
  | .unblockUser CurrentUser user_id => unblockUser_fanout fails CurrentUser user_id w
  | .voteOnPoll CurrentUser msg => voteOnPoll_fanout fails CurrentUser msg w

/-- Test `qualifies` of the loop of `sendMessage` (lines 3109-3114). -/
def sendQualifies (c : SendCtx) (s : wsSession) : Bool :=
  if c.target = 0 then
    s.OnPage == "/conversations/" ++ c.conversation_id && s.UserID != c.CurrentUser.ID
  else
    s.OnPage == "/messages/" ++ c.escapedUsername && s.UserID == c.otherUserID

/-- The SQL writes that the loop of `sendMessage` issues for one connection
that qualifies (lines 3117-3120). -/
def sendWrites (c : SendCtx) : List DbWrite :=
  DbWrite.messagesMarkRead c.conversation_id c.CurrentUser.ID ::
    (if c.target = 0 then [DbWrite.groupMembersClearUnread c.conversation_id c.CurrentUser.ID]
      else [])

/-- The SQL writes of the loop of `sendMessage` over the given keys when no
query inside the loop returns an error. -/
def sendDbLog (c : SendCtx) (sess : Handle → wsSession) : List Handle → List DbWrite
  | [] => []
  | h :: rest =>
    (if sendQualifies c (sess h) then sendWrites c else []) ++ sendDbLog c sess rest

/-- Whether the iteration of the loop of `sendMessage` on the key `k` returns
out of the loop: the connection is a member of the group conversation that does
not qualify as a live viewer, is on "/messages", and the nickname query made
for it returns an error (lines 3143-3147). -/
def sendStopsAt (c : SendCtx) (s : wsSession) (k : Handle) : Bool :=
  decide (c.target = 0) && !sendQualifies c s && decide (s.UserID ∈ c.members) &&
    (s.OnPage == "/messages") && c.queryFails k

/-- The keys that the loop of `sendMessage` visits to the end of their
iteration: all keys before the first one at which the loop returns. -/
def sendVisited (c : SendCtx) (sess : Handle → wsSession) : List Handle → List Handle
  | [] => []
  | k :: ks => if sendStopsAt c (sess k) k then [] else k :: sendVisited c sess ks

/-- The `writeWs` calls of the loop of `sendMessage` over the given keys as a
function of the sessions alone: the branches of lines 3109-3178 without the
effects, `msg` being the loop-carried variable. -/
def sendCallsLog (c : SendCtx) (sess : Handle → wsSession) :
    List Handle → wsMessage → List (Handle × wsMessage)
  | [], _ => []
  | k :: ks, msg =>
    if sendQualifies c (sess k) = true then (k, msg) :: sendCallsLog c sess ks msg
    else if ((sess k).UserID == c.otherUserID || c.target == 0) = true then
      if c.target = 0 ∧ ¬ (sess k).UserID ∈ c.members then sendCallsLog c sess ks msg
      else if (sess k).OnPage = "/messages" then
        if c.target = 0 ∧ c.queryFails k = true then []
        else
          (k, ⟨msg.ID, "messagePreview", c.preview (sess k).UserID⟩) ::
            sendCallsLog c sess ks ⟨msg.ID, "messagePreview", c.preview (sess k).UserID⟩
      else
        (k, ⟨msg.ID, "messageNotif", toString (c.unread + c.groupUnread)⟩) ::
          sendCallsLog c sess ks ⟨msg.ID, "messageNotif", toString (c.unread + c.groupUnread)⟩
    else sendCallsLog c sess ks msg

/-- The `writeWs` calls of a selecting loop over the given keys as a function
of the sessions alone. -/
def selCalls {σ : Type} (pick : σ → wsSession → σ × Option wsMessage)
    (sess : Handle → wsSession) : List Handle → σ → List (Handle × wsMessage)
  | [], _ => []
  | k :: ks, st =>
    match pick st (sess k) with
    | (st1, some msg) => (k, msg) :: selCalls pick sess ks st1
    | (st1, none) => selCalls pick sess ks st1

/-- Whether the loop closes and deletes every connection it calls, whatever
the write result: the force-logout loops of `logout` and `resetPassword`. -/
def HandlerLoop.forces : HandlerLoop → Bool
  | .logout _ => true
  | .resetPassword _ => true
  | _ => false

/-! ## `handleConnections` -/

/-- Registration of the new session (lines 2065-2075): the zero-valued
`wsSession` gets `Connected`, `UserID` and `Level`, is stored under `ws`, and
the user row is marked online. -/
def register (ws : Handle) (CurrentUser : user) (w : World) : World :=
  dbExec (.usersSetOnline CurrentUser.ID true)
    (putClient ws (setSess ws ⟨true, CurrentUser.ID, CurrentUser.Level, "", .unmade⟩ w))

/-- First statement of the send worker goroutine (line 2090):
`client.Send = make(chan wsMessage, 1)`. -/
def startSendWorker (ws : Handle) (w : World) : World :=
  setSess ws { w.sess ws with Send := .ready } w

/-- Go `close(clients[client].Send)`: closing a nil or an already closed
channel panics. -/
def closeSend (client : Handle) (w : World) : World :=
  match (w.sess client).Send with
  | .ready => setSess client { w.sess client with Send := .shut } w
  | _ => { w with panicked := true }

/-- The write of one presence frame and its error branch (lines 2115-2124 and
2158-2167): `client.WriteJSON(msg)`; on error `close(clients[client].Send)`,
`ws.Close()` on the transport of the running handler, `delete(clients, client)`. -/
def announceWrite (fails : Handle → Bool) (ws : Handle) (msg : wsMessage) (client : Handle)
    (w : World) : World :=
  let w1 := { w with frames := w.frames ++ [(client, msg)] }
  if fails client then
    let w2 := closeSend client w1
    if w2.panicked then w2 else delClient client (connClose ws w2)
  else w1

/-- Body of the handshake announce loop (lines 2109-2125). -/
def onlineBody (fails : Handle → Bool) (ws : Handle) (CurrentUser : user) (hideOnline : Bool)
    (msg : wsMessage) (client : Handle) (w : World) : World :=
  if hideOnline && (w.sess client).UserID != CurrentUser.ID then w
  else announceWrite fails ws msg client w

/-- The presence message built at lines 2081-2087. -/
def presenceMsg (username : String) (hideOnline : Bool) : wsMessage :=
  ⟨"", if !hideOnline then "online" else "ping", username⟩

/-- Handshake of `handleConnections` after a successful upgrade (lines
2065-2125): registration, start of the send worker, announce loop.  `username`
and `hideOnline` are the row read from `users`.  A panic in the loop ends the
handler, whose deferred `ws.Close()` then runs. -/
def handshake (fails : Handle → Bool) (ws : Handle) (CurrentUser : user) (username : String)
    (hideOnline : Bool) (w : World) : World :=
  let w1 := startSendWorker ws (register ws CurrentUser w)
  let msg := presenceMsg username hideOnline
  let w2 := rangeClients (onlineBody fails ws CurrentUser hideOnline msg)
    { w1 with passes := w1.passes ++ [(msg.Typ, CurrentUser.ID)] }
  if w2.panicked then connClose ws w2 else w2

/-- One turn of the read loop (lines 2127-2140): `none` is a read error, which
deletes the own entry and leaves the loop; an "onPage" message sets `OnPage`
and stores the session under `ws` again. -/
def readStep (ws : Handle) (input : Option wsMessage) (w : World) : World :=
  match input with
  | none => delClient ws w
  | some msg =>
    if msg.Typ = "onPage" then
      putClient ws (setSess ws { w.sess ws with OnPage := msg.Content } w)
    else w

/-- Teardown after the read loop (lines 2142-2171), followed by the deferred
`ws.Close()`. -/
def teardown (fails : Handle → Bool) (ws : Handle) (username : String) (hideOnline : Bool)
    (w : World) : World :=
  let client := w.sess ws
  let isntOnAnotherSocket := !(w.clients.any (fun i => (w.sess i).UserID == client.UserID))
  let w3 :=
    if isntOnAnotherSocket then
      let w1 := dbExec (.usersSetOnline client.UserID false) w
      if !hideOnline then
        rangeClients (announceWrite fails ws ⟨"", "offline", username⟩)
          { w1 with passes := w1.passes ++ [("offline", client.UserID)] }
      else w1
    else w
  connClose ws w3

/-- The read loop ends with a read error and the handler runs to its end. -/
def readLoopEnds (fails : Handle → Bool) (ws : Handle) (username : String) (hideOnline : Bool)
    (w : World) : World :=
  teardown fails ws username hideOnline (readStep ws none w)

/-- The read loop on a list of inbound messages followed by a read error. -/
def readLoop (ws : Handle) (inputs : List wsMessage) (w : World) : World :=
  readStep ws none (inputs.foldl (fun st m => readStep ws (some m) st) w)

/-- The world in which the handshake announce loop starts: the new session is
stored under `ws` with its `Send` queue made, the user row is marked online and
the pass is logged. -/
def announceStart (ws : Handle) (CurrentUser : user) (username : String) (hideOnline : Bool)
    (w : World) : World :=
  { sess := fun k =>
      if k = ws then ⟨true, CurrentUser.ID, CurrentUser.Level, "", .ready⟩ else w.sess k
    clients := if ws ∈ w.clients then w.clients else w.clients ++ [ws]
    closed := w.closed
    wsCalls := w.wsCalls
    frames := w.frames
    db := w.db ++ [.usersSetOnline CurrentUser.ID true]
    passes := w.passes ++ [((presenceMsg username hideOnline).Typ, CurrentUser.ID)]
    panicked := false }

/-- The read loops of the listed connections of one user end one after the
other, each with its own write outcomes. -/
def endAll (username : String) (hideOnline : Bool) :
    List (Handle × (Handle → Bool)) → World → World
  | [], w => w
  | step :: rest, w =>
    endAll username hideOnline rest (readLoopEnds step.2 step.1 username hideOnline w)

/-- The handler `handleConnections` run without interference (lines
2054-2172): `upgrade` is the result of `upgrader.Upgrade`, `none` for an error,
after which `http.Error` answers the request and the handler returns; `inputs`
are the messages read before the read error. -/
def handleConnections (upgrade : Option Handle) (fails fails2 : Handle → Bool)
    (CurrentUser : user) (username : String) (hideOnline : Bool) (inputs : List wsMessage)
    (w : World) : World :=
  match upgrade with
  | none => w
  | some ws =>
    let w1 := handshake fails ws CurrentUser username hideOnline w
    if w1.panicked then w1
    else teardown fails2 ws username hideOnline (readLoop ws inputs w1)

/-! ## The send worker goroutines -/

/-- Control state of the goroutine started at line 2089 for a connection:
not started, in its `for`/`select` loop, returned, or ended by a panic. -/
inductive WorkerState where
  | notStarted
  | waiting
  | returned
  | crashed
deriving DecidableEq, Repr

/-- The process state with the send workers: the `World` of the handlers, the
messages buffered in each `Send` channel, the control state of each worker, and
the frames the workers wrote with `ws.WriteJSON`.  No statement of handlers.go
sends on a `Send` channel, so the buffers are filled from outside. -/
structure Sys where
  world : World
  sendq : Handle → List wsMessage
  worker : Handle → WorkerState
  workerFrames : List (Handle × wsMessage)

/-- Go `msg := <-client.Send`: a buffered value is received, also from a closed
channel; a closed and drained channel yields the zero value at once; otherwise
the receive blocks (`none`). -/
def recvSend (st : ChanState) (q : List wsMessage) : Option (wsMessage × List wsMessage) :=
  match st, q with
  | .unmade, _ => none
  | _, m :: rest => some (m, rest)
  | .shut, [] => some (⟨"", "", ""⟩, [])
  | .ready, [] => none

/-- One turn of the loop of the send worker of `ws` (lines 2091-2105): receive,
`ws.WriteJSON(msg)`, and on error `close(client.Send)`, `ws.Close()`,
`delete(clients, ws)`, `return`.  A blocked receive leaves the state as it is;
`close` of a closed channel panics in the goroutine. -/
def workerTurn (fails : Handle → Bool) (ws : Handle) (s : Sys) : Sys :=
  match s.worker ws with
  | .waiting =>
    match recvSend (s.world.sess ws).Send (s.sendq ws) with
    | none => s
    | some (msg, rest) =>
      let s1 : Sys :=
        { s with
          sendq := fun h => if h = ws then rest else s.sendq h
          workerFrames := s.workerFrames ++ [(ws, msg)] }
      if fails ws then
        match (s.world.sess ws).Send with
        | .ready =>
          { s1 with
            world := delClient ws (connClose ws
              (setSess ws { s.world.sess ws with Send := .shut } s.world))
            worker := fun h => if h = ws then .returned else s.worker h }
        | _ => { s1 with worker := fun h => if h = ws then .crashed else s.worker h }
      else s1
  | _ => s

/-- The handshake with its `go func()` statement: the worker of `ws` is
started with an empty `Send` buffer. -/
def sysHandshake (fails : Handle → Bool) (ws : Handle) (CurrentUser : user) (username : String)
    (hideOnline : Bool) (s : Sys) : Sys :=
  { s with
    world := handshake fails ws CurrentUser username hideOnline s.world
    sendq := fun h => if h = ws then [] else s.sendq h
    worker := fun h => if h = ws then .waiting else s.worker h }

/-- One turn of the read loop in the process state; lines 2127-2140 have no
statement on a `Send` channel or a worker. -/
def sysReadStep (ws : Handle) (input : Option wsMessage) (s : Sys) : Sys :=
  { s with world := readStep ws input s.world }

/-- The end of the read loop and the teardown in the process state; lines
2127-2171 have no statement on a `Send` channel of the own session or on its
worker. -/
def sysReadLoopEnds (fails : Handle → Bool) (ws : Handle) (username : String)
    (hideOnline : Bool) (s : Sys) : Sys :=
  { s with world := readLoopEnds fails ws username hideOnline s.world }

/-- The frames written by send workers between `s` and `s2`. -/
def newWorkerFrames (s s2 : Sys) : List (Handle × wsMessage) :=
  s2.workerFrames.drop s.workerFrames.length

/-! ## Sequences of steps -/

/-- The steps that act on the registry after a connection was registered: an
inbound signal or read error of some connection, a pass of a handler fan-out
loop, a pass of the loop of `sendMessage`, the handshake of a connection, and
the end of the read loop of a connection. -/
inductive Step where
  | signal (ws : Handle) (input : Option wsMessage)
  | loop (l : HandlerLoop) (fails : Handle → Bool)
  | send (c : SendCtx) (fails : Handle → Bool)
  | connect (ws : Handle) (CurrentUser : user) (username : String) (hideOnline : Bool)
      (fails : Handle → Bool)
  | disconnect (ws : Handle) (username : String) (hideOnline : Bool) (fails : Handle → Bool)

/-- The effect of one step. -/
def Step.run : Step → World → World
  | .signal ws input, w => readStep ws input w
  | .loop l fails, w => l.run fails w
  | .send c fails, w => sendMessage_fanout c fails w
  | .connect ws CurrentUser username hideOnline fails, w =>
    handshake fails ws CurrentUser username hideOnline w
  | .disconnect ws username hideOnline fails, w => readLoopEnds fails ws username hideOnline w

/-- Whether the step is a handshake on the handle `h`. -/
def Step.registers (h : Handle) : Step → Bool
  | .connect ws _ _ _ _ => ws == h
  | _ => false

/-- The steps of a list run one after the other. -/
def runSteps : List Step → World → World
  | [], w => w
  | s :: rest, w => runSteps rest (s.run w)

/-- The two fields of a session that the handshake copies from `CurrentUser`. -/
def ownerOf (s : wsSession) : Int × Int :=
  (s.UserID, s.Level)

/-! ## The polling fallback of `getNotificationCounts` -/

/-- One second as a `time.Duration`, in nanoseconds. -/
def second : Int := 1000000000

/-- The columns `online` and `last_seen` of the table `users` by user id, with
the re-checks scheduled by `time.AfterFunc` (due time and user id).  Times are
nanoseconds on the one clock that `NOW()` and `time.Now()` read. -/
structure PollDb where
  online : Int → Bool
  last_seen : Int → Int
  scheduled : List (Int × Int)

/-- The heartbeat of `getNotificationCounts` (lines 1979-1981) at time `now`
for the user `id`; `WebsocketsEnabled` is `CurrentUser.WebsocketsEnabled`. -/
def getNotificationCounts_heartbeat (WebsocketsEnabled : Bool) (id now : Int) (db : PollDb) :
    PollDb :=
  if !WebsocketsEnabled then
    { online := fun u => if u = id then true else db.online u
      last_seen := fun u => if u = id then now else db.last_seen u
      scheduled := db.scheduled ++ [(now + 50 * second, id)] }
  else db

/-- The function passed to `time.AfterFunc` (lines 1982-1989) run at time
`now`.  `time.Now().Sub(lastSeen).Seconds() > 45` holds exactly when the
difference exceeds 45 seconds counted in nanoseconds. -/
def recheck (id now : Int) (db : PollDb) : PollDb :=
  if db.online id = true ∧ now - db.last_seen id > 45 * second then
    { db with online := fun u => if u = id then false else db.online u }
  else db

/-! ## Concrete scenarios -/

/-- A session object with open `Send` queue. -/
def liveSess (userID : Int) (onPage : String) : wsSession :=
  ⟨true, userID, 0, onPage, .ready⟩

/-- User 1 has tab 10 on "/posts/42" and tab 11 on "/users/alice"; user 2 has
connection 20 on "/communities/3". -/
def tabsWorld : World :=
  { sess := fun h =>
      if h = 10 then liveSess 1 "/posts/42"
      else if h = 11 then liveSess 1 "/users/alice"
      else if h = 20 then liveSess 2 "/communities/3"
      else ⟨false, 0, 0, "", .unmade⟩
    clients := [10, 11, 20]
    closed := []
    wsCalls := []
    frames := []
    db := []
    passes := []
    panicked := false }

/-- The user record of user 1. -/
def alice : user := ⟨1, 0, "alice", "Alice"⟩

/-- A group conversation "5" in which user 1 (alice) posts; user 2 is the other
member. -/
def groupCtx : SendCtx :=
  { CurrentUser := alice
    conversation_id := "5"
    target := 0
    otherUserID := 0
    rendered := "<li>hello</li>"
    escapedUsername := "alice"
    members := [2]
    preview := fun _ => "preview"
    queryFails := fun _ => false
    unread := 0
    groupUnread := 1 }

/-- User 2 has the one registered connection 20 and is viewing conversation "5". -/
def convWorld : World :=
  { sess := fun h =>
      if h = 20 then liveSess 2 "/conversations/5" else ⟨false, 0, 0, "", .unmade⟩
    clients := [20]
    closed := []
    wsCalls := []
    frames := []
    db := []
    passes := []
    panicked := false }

/-- The bob of the scenarios: user 3. -/
def bob : user := ⟨3, 0, "bob", "Bob"⟩

/-- The process of `tabsWorld`: every registered connection has its worker
waiting on an empty `Send` buffer. -/
def tabsSys : Sys :=
  { world := tabsWorld
    sendq := fun _ => []
    worker := fun h => if h = 10 ∨ h = 11 ∨ h = 20 then .waiting else .notStarted
    workerFrames := [] }

/-- The process of `convWorld` with one message buffered for connection 20. -/
def convSys : Sys :=
  { world := convWorld
    sendq := fun h => if h = 20 then [⟨"", "notif", "1"⟩] else []
    worker := fun h => if h = 20 then .waiting else .notStarted
    workerFrames := [] }

/-- The inbound signal "onPage" for the page "/posts/7". -/
def onPage7 : wsMessage := ⟨"", "onPage", "/posts/7"⟩

/-- Connections 20 (user 2) and 30 (user 3), both viewing conversation "5",
registered in the given order. -/
def viewersWorld (order : List Handle) : World :=
  { sess := fun h =>
      if h = 20 then liveSess 2 "/conversations/5"
      else if h = 30 then liveSess 3 "/conversations/5"
      else ⟨false, 0, 0, "", .unmade⟩
    clients := order
    closed := []
    wsCalls := []
    frames := []
    db := []
    passes := []
    panicked := false }

/-- The deletion of message "77" of group conversation "5", whose members are
users 1, 2 and 3; the other-user id read before the loop is 0. -/
def groupDelete : DeleteMessageCtx :=
  { escapedUsername := "alice"
    message_id := "77"
    conversationID := "5"
    otherUserID := 0
    memberCount := fun u => if u = 1 ∨ u = 2 ∨ u = 3 then 1 else 0 }

/-- Connection 30 of user 3 is on the front page and is visited first;
connection 20 of user 2 is viewing conversation "5". -/
def mixedWorld : World :=
  { sess := fun h =>
      if h = 20 then liveSess 2 "/conversations/5"
      else if h = 30 then liveSess 3 "/"
      else ⟨false, 0, 0, "", .unmade⟩
    clients := [30, 20]
    closed := []
    wsCalls := []
    frames := []
    db := []
    passes := []
    panicked := false }

/-- User 1 (alice) posts in group conversation "5" with the other members 2
and 3. -/
def chatCtx : SendCtx :=
  { CurrentUser := alice
    conversation_id := "5"
    target := 0
    otherUserID := 0
    rendered := "<li>hello</li>"
    escapedUsername := "alice"
    members := [2, 3]
    preview := fun _ => "preview"
    queryFails := fun _ => false
    unread := 0
    groupUnread := 1 }

/-- Connection 40 of user 4 is viewing the profile of user "bobby"; connection
11 of user 1 (alice) is viewing her own posts. -/
def profileWorld : World :=
  { sess := fun h =>
      if h = 40 then liveSess 4 "/users/bobby"
      else if h = 11 then liveSess 1 "/users/alice/posts"
      else ⟨false, 0, 0, "", .unmade⟩
    clients := [40, 11]
    closed := []
    wsCalls := []
    frames := []
    db := []
    passes := []
    panicked := false }

/-- A public post of user 1 (alice) in community "3"; nobody is blocked and no
keyword is forbidden. -/
def alicePost : PostCtx :=
  { CurrentUser := alice
    CreatedBy := 1
    Privacy := 0
    community_id := "3"
    CommunityPostTpl := "<div>community</div>"
    UserPostTpl := "<div>profile</div>"
    blocked := fun _ => false
    forbidden := fun _ => false }

/-- A comment of user 1 (alice) on post "42" of community "3"; user 2 is in a
block relation with her. -/
def aliceComment : CommentCtx :=
  { CreatedBy := 1
    post_id := "42"
    community_id := "3"
    is_spoiler := "0"
    commentTpl := "<li>comment</li>"
    commentPreviewTpl := "<li>preview</li>"
    blocked := fun u => decide (u = 2)
    forbidden := fun _ => false }

/-- The post `alicePost` when user 2 is in a block relation with alice. -/
def blockedPost : PostCtx :=
  { alicePost with blocked := fun u => decide (u = 2) }

/-- The table `users` with every user offline and never seen, no re-check
scheduled. -/
def idleDb : PollDb :=
  { online := fun _ => false
    last_seen := fun _ => 0
    scheduled := [] }

/-- The process after these steps on `convSys`: user 1 connects on 12 and the
write of "online" to connection 20 fails, so the announce pass closes the Send
queue of 20 and deletes 20; the client of 20 sends an "onPage" signal, which
stores 20 again.  The worker of 20 is still in its loop and the message
buffered for 20 is still in the queue. -/
def staleSys : Sys :=
  sysReadStep 20 (some onPage7) (sysHandshake (fun h => h == 20) 12 alice "alice" false convSys)

/-! ## Observations on two worlds -/

/-- The `writeWs` calls made between `w` and `w2`. -/
def newCalls (w w2 : World) : List (Handle × wsMessage) :=
  w2.wsCalls.drop w.wsCalls.length

/-- Number of `writeWs` calls on the handle `h` made between `w` and `w2`. -/
def callsTo (h : Handle) (w w2 : World) : Nat :=
  ((newCalls w w2).map Prod.fst).count h

/-- The transports closed between `w` and `w2`. -/
def newClosed (w w2 : World) : List Handle :=
  w2.closed.drop w.closed.length

/-- The frames written directly by `handleConnections` between `w` and `w2`. -/
def newFrames (w w2 : World) : List (Handle × wsMessage) :=
  w2.frames.drop w.frames.length

/-- The SQL writes issued between `w` and `w2`. -/
def newDb (w w2 : World) : List DbWrite :=
  w2.db.drop w.db.length

/-- The presence announce loops entered between `w` and `w2`. -/
def newPasses (w w2 : World) : List (String × Int) :=
  w2.passes.drop w.passes.length

/-- Frame of a fan-out loop from `w` to `w2`: no database write, no change of
a session object, no frame written by `handleConnections`, no presence pass,
and no handle added to the registry; what may differ are the `writeWs` calls,
the closed transports and the handles removed. -/
def OnlyCallsAndPrunes (w w2 : World) : Prop :=
  w2.db = w.db ∧ w2.sess = w.sess ∧ w2.frames = w.frames ∧ w2.passes = w.passes ∧
    w2.panicked = w.panicked ∧ ∀ h ∈ w2.clients, h ∈ w.clients

/-- Outcome of a force-logout loop for user `U` from `w` to `w2`: no registered
connection of `U` is left; every connection that `U` had was sent exactly one
call, the "refresh" event, and had its transport closed; every connection of
another user is still registered with the same session fields. -/
def ForcedOut (U : Int) (w w2 : World) : Prop :=
  (∀ h ∈ w2.clients, (w2.sess h).UserID ≠ U) ∧
  (∀ h ∈ w.clients, (w.sess h).UserID = U →
    (newCalls w w2).filter (fun c => c.1 == h) = [(h, ⟨"", "refresh", ""⟩)] ∧
      h ∈ newClosed w w2) ∧
  (∀ h ∈ w.clients, (w.sess h).UserID ≠ U → h ∈ w2.clients ∧ w2.sess h = w.sess h)


/-- Body of a presence announce loop with the skip test written on the user
id: the handshake loop skips by `hideOnline && UserID != CurrentUser.ID`, the
teardown loop skips nothing. -/
def annBody (skipU : Int → Bool) (fails : Handle → Bool) (ws : Handle) (msg : wsMessage)
    (client : Handle) (w : World) : World :=
  if skipU (w.sess client).UserID then w else announceWrite fails ws msg client w

/-- Loop body used to state the effect of the handler loops: on a match the
call is logged, and the connection is closed and deleted when `drop` says so. -/
def visit (cond : wsSession → Bool) (drop : Handle → Bool) (msg : wsMessage)
    (client : Handle) (w : World) : World :=
  if cond (w.sess client) then
    if drop client then
      { w with
        clients := w.clients.filter (fun k => k != client)
        closed := w.closed ++ [client]
        wsCalls := w.wsCalls ++ [(client, msg)] }
    else { w with wsCalls := w.wsCalls ++ [(client, msg)] }
  else w

/-- The world after a loop of `visit` bodies over all keys. -/
def visited (cond : wsSession → Bool) (drop : Handle → Bool) (msg : wsMessage) (w : World) :
    World :=
  { w with
    clients := w.clients.filter (fun h => !(cond (w.sess h) && drop h))
    closed := w.closed ++ w.clients.filter (fun h => cond (w.sess h) && drop h)
    wsCalls := w.wsCalls ++ (w.clients.filter (fun h => cond (w.sess h))).map (fun h => (h, msg))
    panicked := false }


/-- Failure locality of a loop over the registry, `run` giving the world after
the loop as a function of the write outcomes: the `writeWs` calls are the same
under all write outcomes; no handle is called twice and every called handle was
registered; a handle is registered afterwards exactly when it was registered
before and was not both called and dropped (its write failed, or the loop is a
force-logout loop, `forces`); the transports closed are those of the handles
dropped; no session object changes; and the loop raises no panic. -/
def LocalFailures (forces : Bool) (w : World) (run : (Handle → Bool) → World) : Prop :=
  ∀ fails : Handle → Bool,
    (∀ fails2 : Handle → Bool, newCalls w (run fails2) = newCalls w (run fails)) ∧
    ((newCalls w (run fails)).map Prod.fst).Nodup ∧
    (∀ h ∈ (newCalls w (run fails)).map Prod.fst, h ∈ w.clients) ∧
    (∀ h, h ∈ (run fails).clients ↔
      (h ∈ w.clients ∧ ¬ (h ∈ (newCalls w (run fails)).map Prod.fst ∧
        (fails h = true ∨ forces = true)))) ∧
    (∀ h, h ∈ newClosed w (run fails) ↔
      (h ∈ (newCalls w (run fails)).map Prod.fst ∧ (fails h = true ∨ forces = true))) ∧
    (run fails).sess = w.sess ∧
    (w.panicked = false → (run fails).panicked = false)

/-! ## Lemmas on the fan-out loop -/

theorem rangeFrom_visit (cond : wsSession → Bool) (drop : Handle → Bool) (msg : wsMessage) :
    ∀ (ks : List Handle) (w : World), ks.Nodup → (∀ k ∈ ks, k ∈ w.clients) →
      w.panicked = false →
      rangeFrom (visit cond drop msg) ks w =
        { w with
          clients := w.clients.filter
            (fun h => !(decide (h ∈ ks) && (cond (w.sess h) && drop h)))
          closed := w.closed ++ ks.filter (fun h => cond (w.sess h) && drop h)
          wsCalls := w.wsCalls ++ (ks.filter (fun h => cond (w.sess h))).map (fun h => (h, msg)) } := by
  intro ks
  induction ks with
  | nil =>
    intro w _ _ _
    cases w
    simp [rangeFrom]
  | cons k ks ih =>
    intro w hnd hmem hp
    have hk : k ∈ w.clients := hmem k (List.mem_cons_self _ _)
    have hknot : k ∉ ks := (List.nodup_cons.mp hnd).1
    have hnd2 : ks.Nodup := (List.nodup_cons.mp hnd).2
    have hmem2 : ∀ k2 ∈ ks, k2 ∈ w.clients := fun k2 h2 => hmem k2 (List.mem_cons_of_mem _ h2)
    have hne : ∀ k2 ∈ ks, k2 ≠ k := fun k2 h2 e => hknot (e ▸ h2)
    rw [rangeFrom]
    simp only [hp, hk, if_true, Bool.false_eq_true, if_false]
    by_cases hc : cond (w.sess k) = true
    · by_cases hf : drop k = true
      · have hb : visit cond drop msg k w =
            { w with
              clients := w.clients.filter (fun x => x != k)
              closed := w.closed ++ [k]
              wsCalls := w.wsCalls ++ [(k, msg)] } := by
          simp [visit, hc, hf]
        rw [hb, ih _ hnd2 (by
          intro k2 h2
          simp only [List.mem_filter, bne_iff_ne, ne_eq]
          exact ⟨hmem2 k2 h2, hne k2 h2⟩) (by simpa using hp)]
        cases w
        simp only at hp
        subst hp
        simp only [World.mk.injEq, true_and, and_true, List.filter_filter]
        refine ⟨?_, ?_, ?_⟩
        · apply List.filter_congr
          intro x _
          by_cases hx : x = k
          · subst hx; simp [hc, hf]
          · simp [hx]
        · simp [List.filter_cons, hc, hf]
        · simp [List.filter_cons, hc]
      · have hf2 : drop k = false := by simpa using hf
        have hb : visit cond drop msg k w =
            { w with wsCalls := w.wsCalls ++ [(k, msg)] } := by
          simp [visit, hc, hf2]
        rw [hb, ih _ hnd2 (by simpa using hmem2) (by simpa using hp)]
        cases w
        simp only at hp
        subst hp
        simp only [World.mk.injEq, true_and, and_true]
        refine ⟨?_, ?_, ?_⟩
        · apply List.filter_congr
          intro x _
          by_cases hx : x = k
          · subst hx; simp [hf2]
          · simp [hx]
        · simp [List.filter_cons, hc, hf2]
        · simp [List.filter_cons, hc]
    · have hc2 : cond (w.sess k) = false := by simpa using hc
      have hb : visit cond drop msg k w = w := by
        simp [visit, hc2]
      rw [hb, ih _ hnd2 hmem2 hp]
      cases w
      simp only at hp
      subst hp
      simp only [World.mk.injEq, true_and, and_true]
      refine ⟨?_, ?_, ?_⟩
      · apply List.filter_congr
        intro x _
        by_cases hx : x = k
        · subst hx; simp [hc2]
        · simp [hx]
      · simp [List.filter_cons, hc2]
      · simp [List.filter_cons, hc2]

theorem rangeClients_visit (cond : wsSession → Bool) (drop : Handle → Bool) (msg : wsMessage)
    (w : World) (hnd : w.clients.Nodup) :
    rangeClients (visit cond drop msg) w = visited cond drop msg w := by
  unfold rangeClients
  have h := rangeFrom_visit cond drop msg w.clients { w with panicked := false } hnd
    (fun k hk => hk) rfl
  rw [h]
  cases w
  simp only [visited, World.mk.injEq, true_and, and_true]
  apply List.filter_congr
  intro x hx
  simp [hx]

theorem fanBody_eq_visit (cond : wsSession → Bool) (fails : Handle → Bool) (msg : wsMessage) :
    fanBody cond fails msg = visit cond fails msg := by
  funext client w
  unfold fanBody visit sendOrPrune writeWs delClient connClose
  by_cases hc : cond (w.sess client) = true <;> by_cases hf : fails client = true <;>
    simp [hc, hf]

theorem fanoutIf_eq (cond : wsSession → Bool) (fails : Handle → Bool) (msg : wsMessage)
    (w : World) (hnd : w.clients.Nodup) :
    fanoutIf cond fails msg w = visited cond fails msg w := by
  unfold fanoutIf
  rw [fanBody_eq_visit, rangeClients_visit cond fails msg w hnd]

theorem newCalls_visited (cond : wsSession → Bool) (drop : Handle → Bool) (msg : wsMessage)
    (w : World) :
    newCalls w (visited cond drop msg w) =
      (w.clients.filter (fun h => cond (w.sess h))).map (fun h => (h, msg)) := by
  simp [newCalls, visited]

theorem newClosed_visited (cond : wsSession → Bool) (drop : Handle → Bool) (msg : wsMessage)
    (w : World) :
    newClosed w (visited cond drop msg w) =
      w.clients.filter (fun h => cond (w.sess h) && drop h) := by
  simp [newClosed, visited]

theorem callsTo_visited (cond : wsSession → Bool) (drop : Handle → Bool) (msg : wsMessage)
    (w : World) (hnd : w.clients.Nodup) (h : Handle) :
    callsTo h w (visited cond drop msg w) =
      if h ∈ w.clients ∧ cond (w.sess h) = true then 1 else 0 := by
  unfold callsTo
  rw [newCalls_visited, List.map_map]
  have hid : (Prod.fst ∘ fun h => (h, msg)) = (id : Handle → Handle) := by
    funext x; rfl
  rw [hid, List.map_id, List.count_eq_of_nodup (hnd.filter _)]
  simp [List.mem_filter]

theorem logout_fanout_eq (fails : Handle → Bool) (userID : Option Int) (w : World)
    (hnd : w.clients.Nodup) :
    logout_fanout fails userID w =
      visited (fun s => some s.UserID == userID) (fun _ => true) ⟨"", "refresh", ""⟩ w := by
  rw [← rangeClients_visit _ _ _ w hnd]
  unfold logout_fanout
  rfl

theorem resetPassword_fanout_eq (fails : Handle → Bool) (userID : Int) (w : World)
    (hnd : w.clients.Nodup) :
    resetPassword_fanout fails userID w =
      visited (fun s => s.UserID == userID) (fun _ => true) ⟨"", "refresh", ""⟩ w := by
  rw [← rangeClients_visit _ _ _ w hnd]
  unfold resetPassword_fanout
  rfl

theorem forcedOut_visited (cond : wsSession → Bool) (U : Int)
    (hcond : ∀ s : wsSession, cond s = true ↔ s.UserID = U) (w : World)
    (hnd : w.clients.Nodup) :
    ForcedOut U w (visited cond (fun _ => true) ⟨"", "refresh", ""⟩ w) := by
  refine ⟨?_, ?_, ?_⟩
  · intro h hh
    simp only [visited, List.mem_filter, Bool.and_true, Bool.not_eq_true'] at hh
    intro hU
    have := (hcond (w.sess h)).mpr hU
    simp [visited] at hU
    rw [hh.2] at this
    exact Bool.noConfusion this
  · intro h hh hU
    have hc : cond (w.sess h) = true := (hcond _).mpr hU
    refine ⟨?_, ?_⟩
    · rw [newCalls_visited, List.filter_map]
      have hf : List.filter ((fun c : Handle × wsMessage => c.1 == h) ∘
          fun h => (h, (⟨"", "refresh", ""⟩ : wsMessage)))
          (List.filter (fun h => cond (w.sess h)) w.clients) = [h] := by
        rw [List.filter_filter]
        have hcount := List.count_eq_of_nodup (a := h) hnd
        rw [if_pos hh] at hcount
        have hrep : List.filter (fun x => x == h) w.clients = [h] := by
          have := List.filter_beq (l := w.clients) h
          rw [this, hcount]
          rfl
        rw [← hrep]
        apply List.filter_congr
        intro x _
        by_cases hx : x = h
        · subst hx; simp [hc]
        · simp [hx]
      rw [hf]
      rfl
    · rw [newClosed_visited]
      simp [List.mem_filter, hh, hc]
  · intro h hh hU
    refine ⟨?_, rfl⟩
    simp only [visited, List.mem_filter, Bool.and_true, Bool.not_eq_true']
    refine ⟨hh, ?_⟩
    cases hc : cond (w.sess h)
    · rfl
    · exact absurd ((hcond _).mp hc) hU

/-! ## Lemmas on the presence announce loops -/

theorem onlineBody_eq_annBody (fails : Handle → Bool) (ws : Handle) (CurrentUser : user)
    (hideOnline : Bool) (msg : wsMessage) :
    onlineBody fails ws CurrentUser hideOnline msg =
      annBody (fun u => hideOnline && u != CurrentUser.ID) fails ws msg := rfl

theorem announceWrite_eq_annBody (fails : Handle → Bool) (ws : Handle) (msg : wsMessage) :
    announceWrite fails ws msg = annBody (fun _ => false) fails ws msg := rfl

theorem annBody_skip (skipU : Int → Bool) (fails : Handle → Bool) (ws : Handle)
    (msg : wsMessage) (k : Handle) (w : World) (hs : skipU (w.sess k).UserID = true) :
    annBody skipU fails ws msg k w = w := by
  simp [annBody, hs]

theorem annBody_ok (skipU : Int → Bool) (fails : Handle → Bool) (ws : Handle)
    (msg : wsMessage) (k : Handle) (w : World) (hs : skipU (w.sess k).UserID = false)
    (hf : fails k = false) :
    annBody skipU fails ws msg k w = { w with frames := w.frames ++ [(k, msg)] } := by
  simp [annBody, announceWrite, hs, hf]

theorem annBody_prune (skipU : Int → Bool) (fails : Handle → Bool) (ws : Handle)
    (msg : wsMessage) (k : Handle) (w : World) (hs : skipU (w.sess k).UserID = false)
    (hf : fails k = true) (hsend : (w.sess k).Send = .ready) (hp : w.panicked = false) :
    annBody skipU fails ws msg k w =
      { w with
        sess := fun h => if h = k then { w.sess k with Send := .shut } else w.sess h
        clients := w.clients.filter (fun h => h != k)
        closed := w.closed ++ [ws]
        frames := w.frames ++ [(k, msg)] } := by
  simp [annBody, announceWrite, closeSend, setSess, delClient, connClose, hs, hf, hsend, hp]

theorem annBody_panic (skipU : Int → Bool) (fails : Handle → Bool) (ws : Handle)
    (msg : wsMessage) (k : Handle) (w : World) (hs : skipU (w.sess k).UserID = false)
    (hf : fails k = true) (hsend : (w.sess k).Send ≠ .ready) :
    annBody skipU fails ws msg k w =
      { w with frames := w.frames ++ [(k, msg)], panicked := true } := by
  unfold annBody announceWrite closeSend
  cases hc : (w.sess k).Send <;> simp_all

theorem rangeFrom_ann_ok (skipU : Int → Bool) (fails : Handle → Bool) (ws : Handle)
    (msg : wsMessage) (uid : Handle → Int) :
    ∀ (ks : List Handle) (w : World), ks.Nodup → (∀ k ∈ ks, k ∈ w.clients) →
      w.panicked = false → (∀ h, (w.sess h).UserID = uid h) →
      (∀ k ∈ ks, skipU (uid k) = false → fails k = true → (w.sess k).Send = .ready) →
      (rangeFrom (annBody skipU fails ws msg) ks w).panicked = false ∧
      (rangeFrom (annBody skipU fails ws msg) ks w).frames =
        w.frames ++ (ks.filter (fun h => !skipU (uid h))).map (fun h => (h, msg)) ∧
      (rangeFrom (annBody skipU fails ws msg) ks w).clients =
        w.clients.filter (fun h => !(decide (h ∈ ks) && (!skipU (uid h) && fails h))) ∧
      (rangeFrom (annBody skipU fails ws msg) ks w).closed =
        w.closed ++ (ks.filter (fun h => !skipU (uid h) && fails h)).map (fun _ => ws) ∧
      (∀ h, ((rangeFrom (annBody skipU fails ws msg) ks w).sess h).UserID = uid h) ∧
      (∀ h, h ∉ ks → (rangeFrom (annBody skipU fails ws msg) ks w).sess h = w.sess h) := by
  intro ks
  induction ks with
  | nil =>
    intro w _ _ hp hu _
    simp [rangeFrom, hp, hu]
  | cons k ks ih =>
    intro w hnd hmem hp hu hsend
    have hk : k ∈ w.clients := hmem k (List.mem_cons_self _ _)
    have hknot : k ∉ ks := (List.nodup_cons.mp hnd).1
    have hnd2 : ks.Nodup := (List.nodup_cons.mp hnd).2
    have hmem2 : ∀ k2 ∈ ks, k2 ∈ w.clients := fun k2 h2 => hmem k2 (List.mem_cons_of_mem _ h2)
    have hne : ∀ k2 ∈ ks, k2 ≠ k := fun k2 h2 e => hknot (e ▸ h2)
    have hsend2 : ∀ k2 ∈ ks, skipU (uid k2) = false → fails k2 = true →
        (w.sess k2).Send = .ready :=
      fun k2 h2 => hsend k2 (List.mem_cons_of_mem _ h2)
    rw [rangeFrom]
    simp only [hp, hk, if_true, Bool.false_eq_true, if_false]
    cases hs : skipU (uid k)
    · cases hf : fails k
      · rw [annBody_ok skipU fails ws msg k w (by rw [hu]; exact hs) hf]
        obtain ⟨i1, i2, i3, i4, i5, i6⟩ := ih { w with frames := w.frames ++ [(k, msg)] }
          hnd2 hmem2 hp hu hsend2
        refine ⟨i1, ?_, ?_, ?_, i5, ?_⟩
        · rw [i2]; simp [List.filter_cons, hs]
        · rw [i3]
          apply List.filter_congr
          intro x _
          by_cases hx : x = k
          · subst hx; simp [hf]
          · simp [hx]
        · rw [i4]; simp [List.filter_cons, hs, hf]
        · intro h hh
          rw [i6 h (fun hin => hh (List.mem_cons_of_mem _ hin))]
      · have hready := hsend k (List.mem_cons_self _ _) hs hf
        rw [annBody_prune skipU fails ws msg k w (by rw [hu]; exact hs) hf hready hp]
        obtain ⟨i1, i2, i3, i4, i5, i6⟩ := ih
          { w with
            sess := fun h => if h = k then { w.sess k with Send := .shut } else w.sess h
            clients := w.clients.filter (fun h => h != k)
            closed := w.closed ++ [ws]
            frames := w.frames ++ [(k, msg)] }
          hnd2
          (by
            intro k2 h2
            simp only [List.mem_filter, bne_iff_ne, ne_eq]
            exact ⟨hmem2 k2 h2, hne k2 h2⟩)
          hp
          (by
            intro h
            by_cases hx : h = k
            · subst hx; simp [hu]
            · simp [hx, hu])
          (by
            intro k2 h2 a b
            simp only [hne k2 h2, if_false]
            exact hsend2 k2 h2 a b)
        refine ⟨i1, ?_, ?_, ?_, i5, ?_⟩
        · rw [i2]; simp [List.filter_cons, hs]
        · rw [i3, List.filter_filter]
          apply List.filter_congr
          intro x _
          by_cases hx : x = k
          · subst hx; simp [hs, hf]
          · simp [hx]
        · rw [i4]; simp [List.filter_cons, hs, hf]
        · intro h hh
          rw [i6 h (fun hin => hh (List.mem_cons_of_mem _ hin))]
          have hx : h ≠ k := fun e => hh (e ▸ List.mem_cons_self _ _)
          simp [hx]
    · rw [annBody_skip skipU fails ws msg k w (by rw [hu]; exact hs)]
      obtain ⟨i1, i2, i3, i4, i5, i6⟩ := ih w hnd2 hmem2 hp hu hsend2
      refine ⟨i1, ?_, ?_, ?_, i5, ?_⟩
      · rw [i2]; simp [List.filter_cons, hs]
      · rw [i3]
        apply List.filter_congr
        intro x _
        by_cases hx : x = k
        · subst hx; simp [hs]
        · simp [hx]
      · rw [i4]; simp [List.filter_cons, hs]
      · intro h hh
        rw [i6 h (fun hin => hh (List.mem_cons_of_mem _ hin))]

theorem annBody_frame (skipU : Int → Bool) (fails : Handle → Bool) (ws : Handle)
    (msg : wsMessage) (k : Handle) (w : World) :
    (annBody skipU fails ws msg k w).passes = w.passes ∧
    (annBody skipU fails ws msg k w).db = w.db ∧
    (annBody skipU fails ws msg k w).wsCalls = w.wsCalls ∧
    (∀ h, ((annBody skipU fails ws msg k w).sess h).UserID = (w.sess h).UserID) ∧
    (annBody skipU fails ws msg k w).frames =
      w.frames ++ (if skipU (w.sess k).UserID then [] else [(k, msg)]) := by
  cases hs : skipU (w.sess k).UserID
  · cases hf : fails k
    · rw [annBody_ok skipU fails ws msg k w hs hf]
      simp
    · by_cases hsend : (w.sess k).Send = .ready
      · unfold annBody announceWrite closeSend
        simp only [hs, hf, hsend, if_true, Bool.false_eq_true, if_false]
        cases hp : w.panicked <;> simp [setSess, delClient, connClose] <;>
        · intro h
          by_cases hx : h = k
          · subst hx; simp
          · simp [hx]
      · rw [annBody_panic skipU fails ws msg k w hs hf hsend]
        simp
  · rw [annBody_skip skipU fails ws msg k w hs]
    simp

theorem rangeFrom_ann_frames (skipU : Int → Bool) (fails : Handle → Bool) (ws : Handle)
    (msg : wsMessage) (uid : Handle → Int) :
    ∀ (ks : List Handle) (w : World), (∀ h, (w.sess h).UserID = uid h) →
      (rangeFrom (annBody skipU fails ws msg) ks w).passes = w.passes ∧
      (rangeFrom (annBody skipU fails ws msg) ks w).db = w.db ∧
      (rangeFrom (annBody skipU fails ws msg) ks w).wsCalls = w.wsCalls ∧
      (∀ h, ((rangeFrom (annBody skipU fails ws msg) ks w).sess h).UserID = uid h) ∧
      ∃ L : List Handle,
        (rangeFrom (annBody skipU fails ws msg) ks w).frames =
          w.frames ++ L.map (fun h => (h, msg)) ∧
        ∀ h ∈ L, h ∈ ks ∧ skipU (uid h) = false := by
  intro ks
  induction ks with
  | nil =>
    intro w hu
    exact ⟨rfl, rfl, rfl, hu, [], by simp [rangeFrom], by simp⟩
  | cons k ks ih =>
    intro w hu
    by_cases hp : w.panicked = true
    · have hr : rangeFrom (annBody skipU fails ws msg) (k :: ks) w = w := by
        rw [rangeFrom]; simp [hp]
      rw [hr]
      exact ⟨rfl, rfl, rfl, hu, [], by simp, by simp⟩
    · by_cases hk : k ∈ w.clients
      · have hr : rangeFrom (annBody skipU fails ws msg) (k :: ks) w =
            rangeFrom (annBody skipU fails ws msg) ks (annBody skipU fails ws msg k w) := by
          rw [rangeFrom]; simp [hp, hk]
        rw [hr]
        obtain ⟨s1, s2, s3, s4, s5⟩ := annBody_frame skipU fails ws msg k w
        obtain ⟨i1, i2, i3, i4, L, i5, i6⟩ := ih (annBody skipU fails ws msg k w)
          (fun h => by rw [s4 h, hu h])
        refine ⟨i1.trans s1, i2.trans s2, i3.trans s3, i4, ?_⟩
        cases hs : skipU (uid k)
        · refine ⟨k :: L, ?_, ?_⟩
          · rw [i5, s5, hu k, hs]
            simp
          · intro h hh
            rcases List.mem_cons.mp hh with rfl | hh
            · exact ⟨List.mem_cons_self _ _, hs⟩
            · exact ⟨List.mem_cons_of_mem _ (i6 h hh).1, (i6 h hh).2⟩
        · refine ⟨L, ?_, ?_⟩
          · rw [i5, s5, hu k, hs]
            simp
          · intro h hh
            exact ⟨List.mem_cons_of_mem _ (i6 h hh).1, (i6 h hh).2⟩
      · have hr : rangeFrom (annBody skipU fails ws msg) (k :: ks) w =
            rangeFrom (annBody skipU fails ws msg) ks w := by
          rw [rangeFrom]; simp [hp, hk]
        rw [hr]
        obtain ⟨i1, i2, i3, i4, L, i5, i6⟩ := ih w hu
        exact ⟨i1, i2, i3, i4, L, i5, fun h hh =>
          ⟨List.mem_cons_of_mem _ (i6 h hh).1, (i6 h hh).2⟩⟩

theorem newFrames_of_append (w w2 : World) (L : List (Handle × wsMessage))
    (h : w2.frames = w.frames ++ L) : newFrames w w2 = L := by
  unfold newFrames
  rw [h, List.drop_left]

theorem newPasses_of_append (w w2 : World) (L : List (String × Int))
    (h : w2.passes = w.passes ++ L) : newPasses w w2 = L := by
  unfold newPasses
  rw [h, List.drop_left]

theorem newDb_of_append (w w2 : World) (L : List DbWrite)
    (h : w2.db = w.db ++ L) : newDb w w2 = L := by
  unfold newDb
  rw [h, List.drop_left]

/-- The read loop end of a connection whose user has another registered
connection only deletes the own entry and closes the own transport. -/
theorem readLoopEnds_other (fails : Handle → Bool) (ws : Handle) (username : String)
    (hideOnline : Bool) (w : World)
    (hother : ∃ h ∈ w.clients, h ≠ ws ∧ (w.sess h).UserID = (w.sess ws).UserID) :
    readLoopEnds fails ws username hideOnline w = connClose ws (delClient ws w) := by
  obtain ⟨h, hh, hne, hu⟩ := hother
  have hany : ((delClient ws w).clients.any
      (fun i => ((delClient ws w).sess i).UserID == ((delClient ws w).sess ws).UserID)) = true := by
    rw [List.any_eq_true]
    refine ⟨h, ?_, ?_⟩
    · simp [delClient, List.mem_filter, hh, hne]
    · simp [delClient, hu]
  unfold readLoopEnds teardown readStep
  simp only [hany, Bool.not_true, Bool.false_eq_true, if_false]

/-- The read loop end of the last registered connection of a user. -/
theorem readLoopEnds_last (fails : Handle → Bool) (ws : Handle) (username : String)
    (hideOnline : Bool) (w : World)
    (hlast : ∀ h ∈ w.clients, h ≠ ws → (w.sess h).UserID ≠ (w.sess ws).UserID) :
    readLoopEnds fails ws username hideOnline w =
      connClose ws
        (if (!hideOnline) = true then
          rangeClients (announceWrite fails ws ⟨"", "offline", username⟩)
            { dbExec (.usersSetOnline (w.sess ws).UserID false) (delClient ws w) with
              passes := w.passes ++ [("offline", (w.sess ws).UserID)] }
        else dbExec (.usersSetOnline (w.sess ws).UserID false) (delClient ws w)) := by
  have hany : ((delClient ws w).clients.any
      (fun i => ((delClient ws w).sess i).UserID == ((delClient ws w).sess ws).UserID)) = false := by
    rw [List.any_eq_false]
    intro h hh
    simp only [delClient, List.mem_filter, bne_iff_ne, ne_eq] at hh
    simpa [delClient] using hlast h hh.1 hh.2
  unfold readLoopEnds teardown readStep
  simp only [hany, Bool.not_false, if_true]
  rfl

theorem handshake_eq (fails : Handle → Bool) (ws : Handle) (CurrentUser : user)
    (username : String) (hideOnline : Bool) (w : World) :
    handshake fails ws CurrentUser username hideOnline w =
      if (rangeFrom (annBody (fun u => hideOnline && u != CurrentUser.ID) fails ws
            (presenceMsg username hideOnline))
          (announceStart ws CurrentUser username hideOnline w).clients
          (announceStart ws CurrentUser username hideOnline w)).panicked = true then
        connClose ws (rangeFrom (annBody (fun u => hideOnline && u != CurrentUser.ID) fails ws
            (presenceMsg username hideOnline))
          (announceStart ws CurrentUser username hideOnline w).clients
          (announceStart ws CurrentUser username hideOnline w))
      else
        rangeFrom (annBody (fun u => hideOnline && u != CurrentUser.ID) fails ws
            (presenceMsg username hideOnline))
          (announceStart ws CurrentUser username hideOnline w).clients
          (announceStart ws CurrentUser username hideOnline w) := by
  have hstart : ({ startSendWorker ws (register ws CurrentUser w) with
        passes := (startSendWorker ws (register ws CurrentUser w)).passes ++
          [((presenceMsg username hideOnline).Typ, CurrentUser.ID)]
        panicked := false } : World) =
      announceStart ws CurrentUser username hideOnline w := by
    simp only [startSendWorker, register, setSess, dbExec, putClient, announceStart,
      World.mk.injEq, and_true, true_and]
    funext k
    by_cases hk : k = ws
    · subst hk; simp
    · simp [hk]
  have hcl : (startSendWorker ws (register ws CurrentUser w)).clients =
      (announceStart ws CurrentUser username hideOnline w).clients := by
    rw [← hstart]
  unfold handshake rangeClients
  simp only [onlineBody_eq_annBody]
  rw [← hcl, ← hstart]

theorem handshake_log (fails : Handle → Bool) (ws : Handle) (CurrentUser : user)
    (username : String) (hideOnline : Bool) (w : World) :
    (handshake fails ws CurrentUser username hideOnline w).passes =
        w.passes ++ [((presenceMsg username hideOnline).Typ, CurrentUser.ID)] ∧
    (handshake fails ws CurrentUser username hideOnline w).wsCalls = w.wsCalls ∧
    ∃ L : List Handle,
      (handshake fails ws CurrentUser username hideOnline w).frames =
        w.frames ++ L.map (fun h => (h, presenceMsg username hideOnline)) ∧
      ∀ h ∈ L, (h = ws ∨ h ∈ w.clients) ∧
        (hideOnline = true → h = ws ∨ (w.sess h).UserID = CurrentUser.ID) := by
  obtain ⟨i1, _, i3, _, L, i5, i6⟩ :=
    rangeFrom_ann_frames (fun u => hideOnline && u != CurrentUser.ID) fails ws
      (presenceMsg username hideOnline)
      (fun h => if h = ws then CurrentUser.ID else (w.sess h).UserID)
      (announceStart ws CurrentUser username hideOnline w).clients
      (announceStart ws CurrentUser username hideOnline w)
      (by
        intro h
        by_cases hk : h = ws
        · subst hk; simp [announceStart]
        · simp [announceStart, hk])
  have hL : ∀ h ∈ L, (h = ws ∨ h ∈ w.clients) ∧
      (hideOnline = true → h = ws ∨ (w.sess h).UserID = CurrentUser.ID) := by
    intro h hh
    obtain ⟨hin, hskip⟩ := i6 h hh
    refine ⟨?_, ?_⟩
    · by_cases hws : ws ∈ w.clients
      · simp only [announceStart, hws, if_true] at hin
        exact Or.inr hin
      · simp only [announceStart, hws, if_false, List.mem_append, List.mem_singleton] at hin
        exact hin.symm
    · intro hhide
      by_cases hk : h = ws
      · exact Or.inl hk
      · right
        simpa [hk, hhide] using hskip
  rw [handshake_eq]
  split
  · exact ⟨i1, i3, L, i5, hL⟩
  · exact ⟨i1, i3, L, i5, hL⟩

theorem handshake_ok (fails : Handle → Bool) (ws : Handle) (CurrentUser : user)
    (username : String) (hideOnline : Bool) (w : World) (hnd : w.clients.Nodup)
    (hsend : ∀ h ∈ w.clients, h ≠ ws → fails h = true → (w.sess h).Send = .ready) :
    (handshake fails ws CurrentUser username hideOnline w).panicked = false ∧
    (handshake fails ws CurrentUser username hideOnline w).frames =
      w.frames ++ ((register ws CurrentUser w).clients.filter
        (fun h => !(hideOnline &&
          (if h = ws then CurrentUser.ID else (w.sess h).UserID) != CurrentUser.ID))).map
        (fun h => (h, presenceMsg username hideOnline)) := by
  have hok := rangeFrom_ann_ok (fun u => hideOnline && u != CurrentUser.ID) fails ws
      (presenceMsg username hideOnline)
      (fun h => if h = ws then CurrentUser.ID else (w.sess h).UserID)
      (announceStart ws CurrentUser username hideOnline w).clients
      (announceStart ws CurrentUser username hideOnline w)
      (by
        by_cases hws : ws ∈ w.clients
        · simpa [announceStart, hws] using hnd
        · simp only [announceStart, hws, if_false]
          exact List.Nodup.append hnd (List.nodup_singleton ws)
            (by
              intro a ha hb
              simp only [List.mem_singleton] at hb
              exact hws (hb ▸ ha)))
      (fun k hk => hk) rfl
      (by
        intro h
        by_cases hk : h = ws
        · subst hk; simp [announceStart]
        · simp [announceStart, hk])
      (by
        intro k hk _ hf
        by_cases hkw : k = ws
        · subst hkw; simp [announceStart]
        · have hin : k ∈ w.clients := by
            by_cases hws : ws ∈ w.clients
            · simpa [announceStart, hws] using hk
            · simp only [announceStart, hws, if_false, List.mem_append,
                List.mem_singleton] at hk
              exact hk.resolve_right hkw
          simpa [announceStart, hkw] using hsend k hin hkw hf)
  rw [handshake_eq]
  rw [if_neg (by rw [hok.1]; simp)]
  refine ⟨hok.1, ?_⟩
  rw [hok.2.1]
  rfl

/-! ## Claims on the handler fan-out loops -/

/-- C1: in the user-targeted fan-out loops of adminBanUser, blockUser,
unblockUser and newFriendRequest, for every registry, target user id and write
outcomes, `writeWs` is called exactly once on each registered connection whose
UserID equals the target and never on any other handle. -/
theorem user_fanout_calls_each_target_once (fails : Handle → Bool) (CurrentUser : user)
    (userID notifCount friendRequests : Int) (w : World) (hnd : w.clients.Nodup) (h : Handle) :
    callsTo h w (adminBanUser_fanout fails userID w) =
        (if h ∈ w.clients ∧ (w.sess h).UserID = userID then 1 else 0) ∧
    callsTo h w (blockUser_fanout fails CurrentUser userID w) =
        (if h ∈ w.clients ∧ (w.sess h).UserID = userID then 1 else 0) ∧
    callsTo h w (unblockUser_fanout fails CurrentUser userID w) =
        (if h ∈ w.clients ∧ (w.sess h).UserID = userID then 1 else 0) ∧
    callsTo h w (newFriendRequest_fanout fails userID notifCount friendRequests w) =
        (if h ∈ w.clients ∧ (w.sess h).UserID = userID then 1 else 0) := by
  unfold adminBanUser_fanout blockUser_fanout unblockUser_fanout newFriendRequest_fanout
  simp only [fanoutIf_eq _ _ _ w hnd, callsTo_visited _ _ _ w hnd, beq_iff_eq]
  simp

theorem user_fanout_calls_each_target_once_witness :
    tabsWorld.clients.Nodup ∧
      callsTo 10 tabsWorld (adminBanUser_fanout (fun h => h == 10) 1 tabsWorld) = 1 ∧
      callsTo 20 tabsWorld (newFriendRequest_fanout (fun h => h == 10) 1 2 3 tabsWorld) = 0 :=
  ⟨by decide,
    (user_fanout_calls_each_target_once (fun h => h == 10) alice 1 2 3 tabsWorld
      (by decide) 10).1.trans (by decide),
    (user_fanout_calls_each_target_once (fun h => h == 10) alice 1 2 3 tabsWorld
      (by decide) 20).2.2.2.trans (by decide)⟩

/-- C2: editComment calls `writeWs` with its "commentEdit" event on a
registered connection if and only if that connection's OnPage equals
"/posts/"+post_id or "/comments/"+comment_id, and every call it makes carries
that event; so of three connections A (on the page), B and C (on other pages)
only A receives it, whoever owns them. -/
theorem editComment_delivers_iff_on_page (fails : Handle → Bool)
    (comment_id post_id content : String) (w : World) (hnd : w.clients.Nodup) :
    (∀ h ∈ w.clients,
      ((h, (⟨comment_id, "commentEdit", content⟩ : wsMessage)) ∈
          newCalls w (editComment_fanout fails comment_id post_id content w) ↔
        ((w.sess h).OnPage = "/posts/" ++ post_id ∨
          (w.sess h).OnPage = "/comments/" ++ comment_id))) ∧
    (∀ c ∈ newCalls w (editComment_fanout fails comment_id post_id content w),
      c.2 = ⟨comment_id, "commentEdit", content⟩ ∧ c.1 ∈ w.clients) ∧
    (∀ a b c : Handle, a ∈ w.clients →
      ((w.sess a).OnPage = "/posts/" ++ post_id ∨ (w.sess a).OnPage = "/comments/" ++ comment_id) →
      ¬ ((w.sess b).OnPage = "/posts/" ++ post_id ∨ (w.sess b).OnPage = "/comments/" ++ comment_id) →
      ¬ ((w.sess c).OnPage = "/posts/" ++ post_id ∨ (w.sess c).OnPage = "/comments/" ++ comment_id) →
      callsTo a w (editComment_fanout fails comment_id post_id content w) = 1 ∧
      callsTo b w (editComment_fanout fails comment_id post_id content w) = 0 ∧
      callsTo c w (editComment_fanout fails comment_id post_id content w) = 0) := by
  unfold editComment_fanout
  rw [fanoutIf_eq _ _ _ w hnd]
  refine ⟨?_, ?_, ?_⟩
  · intro h hh
    rw [newCalls_visited]
    simp only [List.mem_map, List.mem_filter, Prod.mk.injEq, and_true, Bool.or_eq_true,
      beq_iff_eq]
    constructor
    · rintro ⟨x, ⟨_, hx⟩, rfl⟩
      exact hx
    · intro hx
      exact ⟨h, ⟨hh, hx⟩, rfl⟩
  · intro c hc
    rw [newCalls_visited] at hc
    simp only [List.mem_map, List.mem_filter] at hc
    obtain ⟨x, ⟨hx, _⟩, rfl⟩ := hc
    exact ⟨rfl, hx⟩
  · intro a b c ha hpa hpb hpc
    simp only [callsTo_visited _ _ _ w hnd, Bool.or_eq_true, beq_iff_eq]
    refine ⟨?_, ?_, ?_⟩
    · rw [if_pos ⟨ha, hpa⟩]
    · rw [if_neg (fun hh => hpb hh.2)]
    · rw [if_neg (fun hh => hpc hh.2)]

theorem editComment_delivers_iff_on_page_witness :
    tabsWorld.clients.Nodup ∧
      callsTo 10 tabsWorld (editComment_fanout (fun _ => false) "7" "42" "edited" tabsWorld) = 1 ∧
      callsTo 11 tabsWorld (editComment_fanout (fun _ => false) "7" "42" "edited" tabsWorld) = 0 ∧
      callsTo 20 tabsWorld (editComment_fanout (fun _ => false) "7" "42" "edited" tabsWorld) = 0 :=
  ⟨by decide,
    (editComment_delivers_iff_on_page (fun _ => false) "7" "42" "edited" tabsWorld
      (by decide)).2.2 10 11 20 (by decide) (by decide) (by decide) (by decide)⟩

/-- C3: after the force-logout loop of logout or resetPassword for user U, for
every registry and whatever the write outcomes, no registered connection has
UserID U, every connection that had UserID U was sent one "refresh" event and
had its transport closed, and every connection of another user is still
registered with unchanged fields. -/
theorem force_logout_removes_all_of_user (fails : Handle → Bool) (U : Int) (w : World)
    (hnd : w.clients.Nodup) :
    ForcedOut U w (logout_fanout fails (some U) w) ∧
      ForcedOut U w (resetPassword_fanout fails U w) := by
  rw [logout_fanout_eq fails (some U) w hnd, resetPassword_fanout_eq fails U w hnd]
  exact ⟨forcedOut_visited _ U (fun s => by simp) w hnd,
    forcedOut_visited _ U (fun s => by simp) w hnd⟩

theorem force_logout_removes_all_of_user_witness :
    tabsWorld.clients.Nodup ∧
      ForcedOut 1 tabsWorld (logout_fanout (fun h => h == 11) (some 1) tabsWorld) ∧
      ForcedOut 1 tabsWorld (resetPassword_fanout (fun h => h == 11) 1 tabsWorld) :=
  ⟨by decide, force_logout_removes_all_of_user (fun h => h == 11) 1 tabsWorld (by decide)⟩

/-- Failure locality stated for one failing connection of the loop of
newFriendRequest: when the write to a matching connection x fails, every other
matching connection still gets exactly one `writeWs` call, every other
connection whose own write did not fail stays registered with unchanged
fields, the calls made are the same as under any other write outcomes, and the
loop runs to its end without a panic (it has no error result). -/
theorem newFriendRequest_failure_is_local (fails : Handle → Bool)
    (user_id notifCount friendRequests : Int) (w : World) (hnd : w.clients.Nodup)
    (x : Handle) (hx : x ∈ w.clients) (hxu : (w.sess x).UserID = user_id)
    (hfail : fails x = true) :
    (∀ h ∈ w.clients, h ≠ x → (w.sess h).UserID = user_id →
      callsTo h w (newFriendRequest_fanout fails user_id notifCount friendRequests w) = 1) ∧
    (∀ h ∈ w.clients, h ≠ x → ¬ ((w.sess h).UserID = user_id ∧ fails h = true) →
      h ∈ (newFriendRequest_fanout fails user_id notifCount friendRequests w).clients ∧
      (newFriendRequest_fanout fails user_id notifCount friendRequests w).sess h = w.sess h) ∧
    (∀ fails2 : Handle → Bool,
      newCalls w (newFriendRequest_fanout fails2 user_id notifCount friendRequests w) =
        newCalls w (newFriendRequest_fanout fails user_id notifCount friendRequests w)) ∧
    (newFriendRequest_fanout fails user_id notifCount friendRequests w).panicked = false ∧
    x ∉ (newFriendRequest_fanout fails user_id notifCount friendRequests w).clients ∧
    x ∈ newClosed w (newFriendRequest_fanout fails user_id notifCount friendRequests w) := by
  unfold newFriendRequest_fanout
  refine ⟨?_, ?_, ?_, ?_, ?_, ?_⟩
  · intro h hh _ hu
    rw [fanoutIf_eq _ _ _ w hnd, callsTo_visited _ _ _ w hnd]
    simp [hh, hu]
  · intro h hh _ hno
    rw [fanoutIf_eq _ _ _ w hnd]
    refine ⟨?_, rfl⟩
    simp only [visited, List.mem_filter, Bool.not_eq_true', Bool.and_eq_false_imp, beq_iff_eq]
    refine ⟨hh, fun hu => ?_⟩
    cases hf : fails h
    · rfl
    · exact absurd ⟨hu, hf⟩ hno
  · intro fails2
    rw [fanoutIf_eq _ _ _ w hnd, fanoutIf_eq _ _ _ w hnd, newCalls_visited, newCalls_visited]
  · rw [fanoutIf_eq _ _ _ w hnd]
    rfl
  · rw [fanoutIf_eq _ _ _ w hnd]
    simp [visited, List.mem_filter, hxu, hfail]
  · rw [fanoutIf_eq _ _ _ w hnd, newClosed_visited]
    simp [List.mem_filter, hx, hxu, hfail]

theorem newFriendRequest_failure_is_local_witness :
    tabsWorld.clients.Nodup ∧ (10 : Handle) ∈ tabsWorld.clients ∧
      (tabsWorld.sess 10).UserID = 1 ∧
      callsTo 11 tabsWorld (newFriendRequest_fanout (fun h => h == 10) 1 2 3 tabsWorld) = 1 ∧
      (20 : Handle) ∈ (newFriendRequest_fanout (fun h => h == 10) 1 2 3 tabsWorld).clients :=
  ⟨by decide, by decide, by decide,
    (newFriendRequest_failure_is_local (fun h => h == 10) 1 2 3 tabsWorld (by decide) 10
      (by decide) (by decide) (by decide)).1 11 (by decide) (by decide) (by decide),
    ((newFriendRequest_failure_is_local (fun h => h == 10) 1 2 3 tabsWorld (by decide) 10
      (by decide) (by decide) (by decide)).2.1 20 (by decide) (by decide) (by decide)).1⟩

/-! ## Claims on presence -/

/-- Presence rule of the teardown: when a connection's read loop ends, an
"offline" frame is written or the user's online flag is cleared only if no
other registered connection has the same UserID; if the user still has another
registered connection no frame is written to any connection and no row is
changed; and when the last connection of a non-hidden user ends, the flag is
cleared and, if every failing write of the pass hits a connection whose Send
queue is open, the "offline" event is written once to every remaining
registered connection. -/
theorem offline_only_after_last_connection (fails : Handle → Bool) (ws : Handle)
    (username : String) (hideOnline : Bool) (w : World) (hnd : w.clients.Nodup) :
    (((∃ f ∈ newFrames w (readLoopEnds fails ws username hideOnline w), f.2.Typ = "offline") ∨
        DbWrite.usersSetOnline (w.sess ws).UserID false ∈
          newDb w (readLoopEnds fails ws username hideOnline w)) →
      ∀ h ∈ w.clients, h ≠ ws → (w.sess h).UserID ≠ (w.sess ws).UserID) ∧
    ((∃ h ∈ w.clients, h ≠ ws ∧ (w.sess h).UserID = (w.sess ws).UserID) →
      newFrames w (readLoopEnds fails ws username hideOnline w) = [] ∧
      newDb w (readLoopEnds fails ws username hideOnline w) = [] ∧
      newCalls w (readLoopEnds fails ws username hideOnline w) = []) ∧
    ((∀ h ∈ w.clients, h ≠ ws → (w.sess h).UserID ≠ (w.sess ws).UserID) →
      hideOnline = false →
      (∀ h ∈ w.clients, h ≠ ws → fails h = true → (w.sess h).Send = .ready) →
      newFrames w (readLoopEnds fails ws username hideOnline w) =
        (w.clients.filter (fun h => h != ws)).map (fun h => (h, ⟨"", "offline", username⟩)) ∧
      newDb w (readLoopEnds fails ws username hideOnline w) =
        [DbWrite.usersSetOnline (w.sess ws).UserID false]) := by
  have part2 : (∃ h ∈ w.clients, h ≠ ws ∧ (w.sess h).UserID = (w.sess ws).UserID) →
      newFrames w (readLoopEnds fails ws username hideOnline w) = [] ∧
      newDb w (readLoopEnds fails ws username hideOnline w) = [] ∧
      newCalls w (readLoopEnds fails ws username hideOnline w) = [] := by
    intro hother
    rw [readLoopEnds_other fails ws username hideOnline w hother]
    simp [newFrames, newDb, newCalls, connClose, delClient]
  refine ⟨?_, part2, ?_⟩
  · intro hyp h hh hne hu
    obtain ⟨e1, e2, _⟩ := part2 ⟨h, hh, hne, hu⟩
    rw [e1, e2] at hyp
    simp at hyp
  · intro hlast hhide hsend
    subst hhide
    rw [readLoopEnds_last fails ws username false w hlast]
    simp only [Bool.not_false, if_true, announceWrite_eq_annBody, rangeClients]
    have hok := rangeFrom_ann_ok (fun _ => false) fails ws ⟨"", "offline", username⟩
      (fun h => (w.sess h).UserID) (w.clients.filter (fun h => h != ws))
      { sess := w.sess, clients := w.clients.filter (fun h => h != ws), closed := w.closed,
        wsCalls := w.wsCalls, frames := w.frames,
        db := w.db ++ [DbWrite.usersSetOnline (w.sess ws).UserID false],
        passes := w.passes ++ [("offline", (w.sess ws).UserID)], panicked := false }
      (hnd.filter _) (fun k hk => hk) rfl (fun _ => rfl)
      (by
        intro k hk _ hf
        simp only [List.mem_filter, bne_iff_ne, ne_eq] at hk
        exact hsend k hk.1 hk.2 hf)
    have hfr := rangeFrom_ann_frames (fun _ => false) fails ws ⟨"", "offline", username⟩
      (fun h => (w.sess h).UserID) (w.clients.filter (fun h => h != ws))
      { sess := w.sess, clients := w.clients.filter (fun h => h != ws), closed := w.closed,
        wsCalls := w.wsCalls, frames := w.frames,
        db := w.db ++ [DbWrite.usersSetOnline (w.sess ws).UserID false],
        passes := w.passes ++ [("offline", (w.sess ws).UserID)], panicked := false }
      (fun _ => rfl)
    refine ⟨?_, ?_⟩
    · apply newFrames_of_append
      have := hok.2.1
      simp only [Bool.not_false, List.filter_true] at this
      simpa [connClose, dbExec, delClient] using this
    · apply newDb_of_append
      have := hfr.2.1
      simpa [connClose, dbExec, delClient] using this

theorem offline_only_after_last_connection_witness :
    tabsWorld.clients.Nodup ∧
      newFrames tabsWorld (readLoopEnds (fun _ => false) 10 "alice" false tabsWorld) = [] ∧
      newFrames (readLoopEnds (fun _ => false) 10 "alice" false tabsWorld)
          (readLoopEnds (fun _ => false) 11 "alice" false
            (readLoopEnds (fun _ => false) 10 "alice" false tabsWorld)) =
        [(20, ⟨"", "offline", "alice"⟩)] :=
  ⟨by decide,
    ((offline_only_after_last_connection (fun _ => false) 10 "alice" false tabsWorld
      (by decide)).2.1 ⟨11, by decide, by decide, by decide⟩).1,
    ((offline_only_after_last_connection (fun _ => false) 11 "alice" false
      (readLoopEnds (fun _ => false) 10 "alice" false tabsWorld)
      (by decide)).2.2 (by decide) rfl (by decide)).1⟩

theorem readLoopEnds_passes_last (fails : Handle → Bool) (ws : Handle) (username : String)
    (w : World)
    (hlast : ∀ h ∈ w.clients, h ≠ ws → (w.sess h).UserID ≠ (w.sess ws).UserID) :
    (readLoopEnds fails ws username false w).passes =
      w.passes ++ [("offline", (w.sess ws).UserID)] := by
  rw [readLoopEnds_last fails ws username false w hlast]
  simp only [Bool.not_false, if_true, announceWrite_eq_annBody, rangeClients]
  have hfr := rangeFrom_ann_frames (fun _ => false) fails ws ⟨"", "offline", username⟩
    (fun h => (w.sess h).UserID) (w.clients.filter (fun h => h != ws))
    { sess := w.sess, clients := w.clients.filter (fun h => h != ws), closed := w.closed,
      wsCalls := w.wsCalls, frames := w.frames,
      db := w.db ++ [DbWrite.usersSetOnline (w.sess ws).UserID false],
      passes := w.passes ++ [("offline", (w.sess ws).UserID)], panicked := false }
    (fun _ => rfl)
  have := hfr.1
  simpa [connClose, dbExec, delClient] using this

theorem endAll_passes (username : String) (u : Int) :
    ∀ (steps : List (Handle × (Handle → Bool))) (w : World), w.clients.Nodup →
      (steps.map Prod.fst).Nodup →
      (∀ h, h ∈ steps.map Prod.fst ↔ (h ∈ w.clients ∧ (w.sess h).UserID = u)) →
      steps ≠ [] →
      (endAll username false steps w).passes = w.passes ++ [("offline", u)] := by
  intro steps
  induction steps with
  | nil => intro w _ _ _ hne; exact absurd rfl hne
  | cons s rest ih =>
    intro w hnd hsn hiff _
    have hs : s.1 ∈ w.clients ∧ (w.sess s.1).UserID = u :=
      (hiff s.1).mp (by simp)
    cases rest with
    | nil =>
      have hlast : ∀ h ∈ w.clients, h ≠ s.1 → (w.sess h).UserID ≠ (w.sess s.1).UserID := by
        intro h hh hne hu
        have : h ∈ List.map Prod.fst [s] := (hiff h).mpr ⟨hh, hu.trans hs.2⟩
        simp at this
        exact hne this
      simp only [endAll]
      rw [readLoopEnds_passes_last _ _ _ _ hlast, hs.2]
    | cons s2 rest2 =>
      have hs2 : s2.1 ∈ w.clients ∧ (w.sess s2.1).UserID = u :=
        (hiff s2.1).mp (by simp)
      have hnd1 : s.1 ∉ (s2 :: rest2).map Prod.fst := by
        have := List.nodup_cons.mp (by simpa using hsn : (s.1 :: (s2 :: rest2).map Prod.fst).Nodup)
        exact this.1
      have hne21 : s2.1 ≠ s.1 := by
        intro e
        apply hnd1
        rw [← e]
        simp
      have hother : ∃ h ∈ w.clients, h ≠ s.1 ∧ (w.sess h).UserID = (w.sess s.1).UserID :=
        ⟨s2.1, hs2.1, hne21, hs2.2.trans hs.2.symm⟩
      rw [endAll, readLoopEnds_other _ _ _ _ _ hother]
      have hstep := ih (connClose s.1 (delClient s.1 w)) (by
          simpa [connClose, delClient] using hnd.filter _)
        (by
          have := List.nodup_cons.mp
            (by simpa using hsn : (s.1 :: (s2 :: rest2).map Prod.fst).Nodup)
          exact this.2)
        (by
          intro h
          constructor
          · intro hin
            have hw := (hiff h).mp (by
              simp only [List.map_cons, List.mem_cons] at hin ⊢
              exact Or.inr hin)
            have hne : h ≠ s.1 := fun e => hnd1 (e ▸ hin)
            simpa [connClose, delClient, List.mem_filter, hne] using hw
          · intro hw
            simp only [connClose, delClient, List.mem_filter, bne_iff_ne, ne_eq] at hw
            have hin := (hiff h).mpr ⟨hw.1.1, hw.2⟩
            simp only [List.map_cons, List.mem_cons] at hin ⊢
            rcases hin with e | hin
            · exact absurd e hw.1.2
            · exact hin)
        (by simp)
      rw [hstep]
      simp [connClose, delClient]

/-- C5 as stated fails: user 1 has two registered connections; after the
force-logout loop of logout removed both, each of the two read loops that then
end performs an "offline" pass, so two passes are made for one transition and
the connection of user 2 receives the "offline" event twice. -/
theorem two_offline_passes_after_force_logout :
    newPasses tabsWorld
        (endAll "alice" false [(10, fun _ => false), (11, fun _ => false)]
          (logout_fanout (fun _ => false) (some 1) tabsWorld)) =
      [("offline", 1), ("offline", 1)] ∧
    newFrames tabsWorld
        (endAll "alice" false [(10, fun _ => false), (11, fun _ => false)]
          (logout_fanout (fun _ => false) (some 1) tabsWorld)) =
      [(20, ⟨"", "offline", "alice"⟩), (20, ⟨"", "offline", "alice"⟩)] := by
  decide

/-- C5 amended: for a non-hidden user, the end of a read loop performs an
"offline" pass exactly when no other registered connection of that user is
left, and then exactly one; so when all registered connections of the user end
by read-loop ends one after the other, exactly one pass is performed for the
transition to zero. -/
theorem offline_pass_per_read_loop_end (username : String) (u : Int) (w : World)
    (hnd : w.clients.Nodup) :
    (∀ (fails : Handle → Bool) (ws : Handle),
      ((∃ h ∈ w.clients, h ≠ ws ∧ (w.sess h).UserID = (w.sess ws).UserID) →
        newPasses w (readLoopEnds fails ws username false w) = []) ∧
      ((∀ h ∈ w.clients, h ≠ ws → (w.sess h).UserID ≠ (w.sess ws).UserID) →
        newPasses w (readLoopEnds fails ws username false w) =
          [("offline", (w.sess ws).UserID)])) ∧
    (∀ steps : List (Handle × (Handle → Bool)), (steps.map Prod.fst).Nodup →
      (∀ h, h ∈ steps.map Prod.fst ↔ (h ∈ w.clients ∧ (w.sess h).UserID = u)) →
      steps ≠ [] →
      newPasses w (endAll username false steps w) = [("offline", u)]) := by
  refine ⟨fun fails ws => ⟨?_, ?_⟩, ?_⟩
  · intro hother
    rw [readLoopEnds_other fails ws username false w hother]
    simp [newPasses, connClose, delClient]
  · intro hlast
    exact newPasses_of_append _ _ _ (readLoopEnds_passes_last fails ws username w hlast)
  · intro steps hsn hiff hne
    exact newPasses_of_append _ _ _ (endAll_passes username u steps w hnd hsn hiff hne)

theorem offline_pass_per_read_loop_end_witness :
    tabsWorld.clients.Nodup ∧
      newPasses tabsWorld
        (endAll "alice" false [(11, fun _ => false), (10, fun h => h == 20)] tabsWorld) =
        [("offline", 1)] :=
  ⟨by decide,
    (offline_pass_per_read_loop_end "alice" 1 tabsWorld (by decide)).2
      [(11, fun _ => false), (10, fun h => h == 20)] (by decide)
      (by
        intro h
        simp only [List.map_cons, List.map_nil, List.mem_cons, List.mem_singleton,
          List.not_mem_nil, or_false, tabsWorld]
        constructor
        · rintro (rfl | rfl) <;> decide
        · rintro ⟨hc, hu⟩
          rcases hc with rfl | rfl | rfl
          · exact Or.inr rfl
          · exact Or.inl rfl
          · exact absurd hu (by decide))
      (by simp)⟩

/-- C6 as stated fails: user 1 already has the registered connections 10 and
11; the handshake of a further connection 12 of user 1 writes the "online"
event to every registered connection again. -/
theorem online_announced_again_for_second_connection :
    (∃ h ∈ tabsWorld.clients, (tabsWorld.sess h).UserID = alice.ID) ∧
    newFrames tabsWorld (handshake (fun _ => false) 12 alice "alice" false tabsWorld) =
      [(10, ⟨"", "online", "alice"⟩), (11, ⟨"", "online", "alice"⟩),
        (20, ⟨"", "online", "alice"⟩), (12, ⟨"", "online", "alice"⟩)] := by
  decide

/-- C6 amended: the handshake of a non-hidden user announces "online" on every
registration, whether or not the user had registered connections before:
exactly one announce pass is entered, every frame of the pass is the "online"
event written to the new connection or to a connection registered before, and,
whenever no failing write of the pass hits a connection whose Send queue is not
open, the "online" event is written once to every registered connection, the
new one included. -/
theorem handshake_announces_online_on_every_registration (fails : Handle → Bool) (ws : Handle)
    (CurrentUser : user) (username : String) (w : World) :
    newPasses w (handshake fails ws CurrentUser username false w) =
      [("online", CurrentUser.ID)] ∧
    (∀ f ∈ newFrames w (handshake fails ws CurrentUser username false w),
      f.2 = ⟨"", "online", username⟩ ∧ (f.1 = ws ∨ f.1 ∈ w.clients)) ∧
    ws ∈ (register ws CurrentUser w).clients ∧
    (∀ h ∈ w.clients, h ∈ (register ws CurrentUser w).clients) ∧
    (w.clients.Nodup →
      (∀ h ∈ w.clients, h ≠ ws → fails h = true → (w.sess h).Send = .ready) →
      newFrames w (handshake fails ws CurrentUser username false w) =
        (register ws CurrentUser w).clients.map (fun h => (h, ⟨"", "online", username⟩))) := by
  refine ⟨?_, ?_, ?_, ?_, ?_⟩
  · apply newPasses_of_append
    rw [(handshake_log fails ws CurrentUser username false w).1]
    simp [presenceMsg]
  · obtain ⟨_, _, L, hL, hmem⟩ := handshake_log fails ws CurrentUser username false w
    rw [newFrames_of_append _ _ _ hL]
    intro f hf
    obtain ⟨h, hh, e⟩ := List.mem_map.mp hf
    subst e
    exact ⟨by simp [presenceMsg], (hmem h hh).1⟩
  · by_cases hws : ws ∈ w.clients <;> simp [register, dbExec, putClient, setSess, hws]
  · intro h hh
    by_cases hws : ws ∈ w.clients <;> simp [register, dbExec, putClient, setSess, hws, hh]
  · intro hnd hsend
    apply newFrames_of_append
    rw [(handshake_ok fails ws CurrentUser username false w hnd hsend).2]
    simp [presenceMsg]

theorem handshake_announces_online_on_every_registration_witness :
    newPasses tabsWorld (handshake (fun h => h == 20) 12 alice "alice" false tabsWorld) =
        [("online", 1)] ∧
      newFrames tabsWorld (handshake (fun h => h == 20) 12 alice "alice" false tabsWorld) =
        (register 12 alice tabsWorld).clients.map (fun h => (h, ⟨"", "online", "alice"⟩)) :=
  ⟨(handshake_announces_online_on_every_registration (fun h => h == 20) 12 alice "alice"
      tabsWorld).1,
    (handshake_announces_online_on_every_registration (fun h => h == 20) 12 alice "alice"
      tabsWorld).2.2.2.2 (by decide) (by decide)⟩

theorem readStep_log (ws : Handle) (input : Option wsMessage) (w : World) :
    (readStep ws input w).frames = w.frames ∧ (readStep ws input w).wsCalls = w.wsCalls := by
  unfold readStep
  cases input with
  | none => exact ⟨rfl, rfl⟩
  | some msg =>
    by_cases h : msg.Typ = "onPage"
    · simp [h, putClient, setSess]
    · simp [h]

theorem readLoop_log (ws : Handle) (inputs : List wsMessage) :
    ∀ w : World, (readLoop ws inputs w).frames = w.frames ∧
      (readLoop ws inputs w).wsCalls = w.wsCalls := by
  unfold readLoop
  induction inputs with
  | nil => intro w; exact readStep_log ws none w
  | cons m rest ih =>
    intro w
    rw [List.foldl_cons]
    obtain ⟨a, b⟩ := ih (readStep ws (some m) w)
    obtain ⟨c, d⟩ := readStep_log ws (some m) w
    exact ⟨a.trans c, b.trans d⟩

/-- C7: when a user whose hide_online flag is true connects and later
disconnects, handleConnections writes no frame to a connection of another user:
every frame of the handshake pass is the "ping" event and goes to the new
connection or to a registered connection with the same UserID, the read loop
writes nothing, the teardown writes nothing at all, and no `writeWs` call is
made in any phase; when no failing write hits a closed Send queue, the ping
reaches every own connection, the new one included. -/
theorem hidden_user_presence_is_private (fails fails2 : Handle → Bool) (ws : Handle)
    (CurrentUser : user) (username : String) (inputs : List wsMessage) (w w2 w3 : World) :
    (∀ f ∈ newFrames w (handshake fails ws CurrentUser username true w),
      f.2 = ⟨"", "ping", username⟩ ∧ (f.1 = ws ∨ (w.sess f.1).UserID = CurrentUser.ID)) ∧
    newCalls w (handshake fails ws CurrentUser username true w) = [] ∧
    newFrames w2 (readLoop ws inputs w2) = [] ∧
    newCalls w2 (readLoop ws inputs w2) = [] ∧
    newFrames w3 (teardown fails2 ws username true w3) = [] ∧
    newCalls w3 (teardown fails2 ws username true w3) = [] ∧
    (w.clients.Nodup →
      (∀ h ∈ w.clients, h ≠ ws → fails h = true → (w.sess h).Send = .ready) →
      newFrames w (handshake fails ws CurrentUser username true w) =
        ((register ws CurrentUser w).clients.filter
          (fun h => decide (h = ws ∨ (w.sess h).UserID = CurrentUser.ID))).map
          (fun h => (h, ⟨"", "ping", username⟩))) := by
  obtain ⟨_, hc, L, hL, hmem⟩ := handshake_log fails ws CurrentUser username true w
  refine ⟨?_, ?_, ?_, ?_, ?_, ?_, ?_⟩
  · intro f hf
    rw [newFrames_of_append _ _ _ hL] at hf
    simp only [List.mem_map] at hf
    obtain ⟨h, hh, rfl⟩ := hf
    exact ⟨by simp [presenceMsg], (hmem h hh).2 rfl⟩
  · simp [newCalls, hc]
  · simp [newFrames, (readLoop_log ws inputs w2).1]
  · simp [newCalls, (readLoop_log ws inputs w2).2]
  · unfold teardown
    simp only [Bool.not_true, Bool.false_eq_true, if_false]
    split <;> simp [newFrames, connClose, dbExec]
  · unfold teardown
    simp only [Bool.not_true, Bool.false_eq_true, if_false]
    split <;> simp [newCalls, connClose, dbExec]
  · intro hnd hsend
    apply newFrames_of_append
    rw [(handshake_ok fails ws CurrentUser username true w hnd hsend).2]
    congr 2
    · apply List.filter_congr
      intro h _
      by_cases hk : h = ws
      · simp [hk]
      · by_cases hu : (w.sess h).UserID = CurrentUser.ID <;> simp [hk, hu]

theorem hidden_user_presence_is_private_witness :
    tabsWorld.clients.Nodup ∧
      newFrames tabsWorld (handshake (fun h => h == 20) 12 alice "alice" true tabsWorld) =
        [(10, ⟨"", "ping", "alice"⟩), (11, ⟨"", "ping", "alice"⟩),
          (12, ⟨"", "ping", "alice"⟩)] :=
  ⟨by decide,
    ((hidden_user_presence_is_private (fun h => h == 20) (fun _ => false) 12 alice "alice" []
      tabsWorld tabsWorld tabsWorld).2.2.2.2.2.2 (by decide) (by decide)).trans (by decide)⟩

/-- C8 (the code departs from the claim): in the loop of sendMessage, the
connection 20 of user 2 is on the page of conversation "5" and the write to it
fails; after the loop it is still registered and its transport was not closed,
whereas the loop of adminBanUser closes and deletes it on the same failure. -/
theorem sendMessage_keeps_failed_viewer :
    newCalls convWorld (sendMessage_fanout groupCtx (fun _ => true) convWorld) =
      [(20, ⟨"", "message", "<li>hello</li>"⟩)] ∧
    (sendMessage_fanout groupCtx (fun _ => true) convWorld).clients = [20] ∧
    (sendMessage_fanout groupCtx (fun _ => true) convWorld).closed = [] ∧
    (adminBanUser_fanout (fun _ => true) 2 convWorld).clients = [] ∧
    (adminBanUser_fanout (fun _ => true) 2 convWorld).closed = [20] := by
  decide

/-- C10 (the code departs from the claim): connection 20 of user 2 is
registered and user 1 connects on transport 12; the write of "online" to 20
fails.  The entry of 20 is deleted, but the transport that is closed is 12, the
connecting session's own, and the transport of 20 is never closed.  The same
happens in the offline pass when connection 10 of user 1 ends. -/
theorem announce_failure_closes_own_transport :
    newClosed convWorld (handshake (fun h => h == 20) 12 alice "alice" false convWorld) = [12] ∧
    (handshake (fun h => h == 20) 12 alice "alice" false convWorld).clients = [12] ∧
    20 ∉ (handshake (fun h => h == 20) 12 alice "alice" false convWorld).closed ∧
    newClosed tabsWorld
      (readLoopEnds (fun h => h == 20) 10 "alice" false
        (readLoopEnds (fun _ => false) 11 "alice" false tabsWorld)) = [11, 10, 10] ∧
    20 ∉ (readLoopEnds (fun h => h == 20) 10 "alice" false
        (readLoopEnds (fun _ => false) 11 "alice" false tabsWorld)).closed := by
  decide

/-! ## Lemmas on the effects of the handler loops -/

theorem onlyCallsAndPrunes_refl (w : World) : OnlyCallsAndPrunes w w :=
  ⟨rfl, rfl, rfl, rfl, rfl, fun _ h => h⟩

theorem onlyCallsAndPrunes_trans {w w2 w3 : World} (a : OnlyCallsAndPrunes w w2)
    (b : OnlyCallsAndPrunes w2 w3) : OnlyCallsAndPrunes w w3 :=
  ⟨b.1.trans a.1, b.2.1.trans a.2.1, b.2.2.1.trans a.2.2.1, b.2.2.2.1.trans a.2.2.2.1,
    b.2.2.2.2.1.trans a.2.2.2.2.1, fun h hh => a.2.2.2.2.2 h (b.2.2.2.2.2 h hh)⟩

theorem sendOrPrune_only (fails : Handle → Bool) (msg : wsMessage) (k : Handle) (w : World) :
    OnlyCallsAndPrunes w (sendOrPrune fails msg k w) := by
  unfold sendOrPrune writeWs
  cases hf : fails k
  · exact ⟨rfl, rfl, rfl, rfl, rfl, fun _ h => h⟩
  · refine ⟨rfl, rfl, rfl, rfl, rfl, ?_⟩
    intro h hh
    simp only [delClient, connClose, if_true, List.mem_filter] at hh
    exact hh.1

theorem sendOrPrune_mem (fails : Handle → Bool) (msg : wsMessage) (k h : Handle) (w : World)
    (hne : h ≠ k) (hh : h ∈ w.clients) : h ∈ (sendOrPrune fails msg k w).clients := by
  unfold sendOrPrune writeWs
  cases hf : fails k
  · exact hh
  · simp [delClient, connClose, List.mem_filter, hh, hne]

theorem rangeFrom_only (body : Handle → World → World)
    (hb : ∀ k w, OnlyCallsAndPrunes w (body k w)) :
    ∀ (ks : List Handle) (w : World), OnlyCallsAndPrunes w (rangeFrom body ks w) := by
  intro ks
  induction ks with
  | nil => intro w; exact onlyCallsAndPrunes_refl w
  | cons k ks ih =>
    intro w
    rw [rangeFrom]
    split
    · exact onlyCallsAndPrunes_refl w
    · split
      · exact onlyCallsAndPrunes_trans (hb k w) (ih _)
      · exact ih w

theorem rangeSel_only {σ : Type} (pick : σ → wsSession → σ × Option wsMessage)
    (fails : Handle → Bool) :
    ∀ (ks : List Handle) (st : σ) (w : World),
      OnlyCallsAndPrunes w (rangeSel pick fails ks st w) := by
  intro ks
  induction ks with
  | nil => intro st w; exact onlyCallsAndPrunes_refl w
  | cons k ks ih =>
    intro st w
    rw [rangeSel]
    split
    · split
      · exact onlyCallsAndPrunes_trans (sendOrPrune_only fails _ k w) (ih _ _)
      · exact ih _ _
    · exact ih _ _

/-- The frame of a loop started with `rangeClients`, up to the panic flag,
which the start of a loop clears. -/
theorem rangeClients_only (body : Handle → World → World)
    (hb : ∀ k w, OnlyCallsAndPrunes w (body k w)) (w : World) :
    (rangeClients body w).db = w.db ∧ (rangeClients body w).sess = w.sess ∧
    (rangeClients body w).frames = w.frames ∧ (rangeClients body w).passes = w.passes ∧
    (rangeClients body w).panicked = false ∧
    ∀ h ∈ (rangeClients body w).clients, h ∈ w.clients := by
  obtain ⟨a, b, c, d, e, f⟩ := rangeFrom_only body hb w.clients { w with panicked := false }
  exact ⟨a, b, c, d, e, f⟩

theorem fanBody_only (cond : wsSession → Bool) (fails : Handle → Bool) (msg : wsMessage)
    (k : Handle) (w : World) : OnlyCallsAndPrunes w (fanBody cond fails msg k w) := by
  unfold fanBody
  split
  · exact sendOrPrune_only fails msg k w
  · exact onlyCallsAndPrunes_refl w

theorem fanoutIf_only (cond : wsSession → Bool) (fails : Handle → Bool) (msg : wsMessage)
    (w : World) :
    (fanoutIf cond fails msg w).db = w.db ∧ (fanoutIf cond fails msg w).sess = w.sess ∧
    (fanoutIf cond fails msg w).frames = w.frames ∧
    (fanoutIf cond fails msg w).passes = w.passes ∧
    (fanoutIf cond fails msg w).panicked = false ∧
    ∀ h ∈ (fanoutIf cond fails msg w).clients, h ∈ w.clients :=
  rangeClients_only _ (fanBody_only cond fails msg) w

theorem forceBody_only (cond : wsSession → Bool) (fails : Handle → Bool) (msg : wsMessage)
    (k : Handle) (w : World) :
    OnlyCallsAndPrunes w
      (if cond (w.sess k) then delClient k (connClose k (writeWs fails k msg w).2) else w) := by
  split
  · refine ⟨rfl, rfl, rfl, rfl, rfl, ?_⟩
    intro h hh
    simp only [delClient, connClose, writeWs, List.mem_filter] at hh
    exact hh.1
  · exact onlyCallsAndPrunes_refl w

theorem handlerLoop_only (fails : Handle → Bool) (w : World) (l : HandlerLoop) :
    (l.run fails w).db = w.db ∧ (l.run fails w).sess = w.sess ∧
    (l.run fails w).frames = w.frames ∧ (l.run fails w).passes = w.passes ∧
    ∀ h ∈ (l.run fails w).clients, h ∈ w.clients := by
  have hfan : ∀ (cond : wsSession → Bool) (msg : wsMessage),
      (fanoutIf cond fails msg w).db = w.db ∧ (fanoutIf cond fails msg w).sess = w.sess ∧
      (fanoutIf cond fails msg w).frames = w.frames ∧
      (fanoutIf cond fails msg w).passes = w.passes ∧
      ∀ h ∈ (fanoutIf cond fails msg w).clients, h ∈ w.clients := by
    intro cond msg
    obtain ⟨a, b, c, d, _, f⟩ := fanoutIf_only cond fails msg w
    exact ⟨a, b, c, d, f⟩
  have hsel : ∀ {σ : Type} (pick : σ → wsSession → σ × Option wsMessage) (st : σ),
      (rangeSel pick fails w.clients st w).db = w.db ∧
      (rangeSel pick fails w.clients st w).sess = w.sess ∧
      (rangeSel pick fails w.clients st w).frames = w.frames ∧
      (rangeSel pick fails w.clients st w).passes = w.passes ∧
      ∀ h ∈ (rangeSel pick fails w.clients st w).clients, h ∈ w.clients := by
    intro σ pick st
    obtain ⟨a, b, c, d, _, f⟩ := rangeSel_only pick fails w.clients st w
    exact ⟨a, b, c, d, f⟩
  cases l with
  | logout userID =>
    obtain ⟨a, b, c, d, _, f⟩ := rangeClients_only _
      (fun k st => forceBody_only (fun s => some s.UserID == userID) fails
        ⟨"", "refresh", ""⟩ k st) w
    exact ⟨a, b, c, d, f⟩
  | resetPassword userID =>
    obtain ⟨a, b, c, d, _, f⟩ := rangeClients_only _
      (fun k st => forceBody_only (fun s => s.UserID == userID) fails
        ⟨"", "refresh", ""⟩ k st) w
    exact ⟨a, b, c, d, f⟩
  | createComment c => exact hsel _ _
  | createPost c => exact hsel _ _
  | deleteComment CurrentUser comment_id commentID => exact hsel _ _
  | deleteMessage c => exact hsel _ _
  | deletePost CurrentUser post_id community_id => exact hsel _ _
  | editPost post_id community_id parsed parsedBreaks => exact hsel _ _
  | _ => exact hfan _ _

theorem sendMessage_from_cons (c : SendCtx) (fails : Handle → Bool) (k : Handle)
    (ks : List Handle) (msg : wsMessage) (w : World) :
    sendMessage_from c fails (k :: ks) msg w =
      if k ∈ w.clients then
        if sendQualifies c (w.sess k) = true then
          sendMessage_from c fails ks msg
            (if c.target = 0 then
              dbExec (.groupMembersClearUnread c.conversation_id c.CurrentUser.ID)
                (dbExec (.messagesMarkRead c.conversation_id c.CurrentUser.ID)
                  (writeWs fails k msg w).2)
            else
              dbExec (.messagesMarkRead c.conversation_id c.CurrentUser.ID)
                (writeWs fails k msg w).2)
        else if ((w.sess k).UserID == c.otherUserID || c.target == 0) = true then
          if c.target = 0 ∧ ¬ (w.sess k).UserID ∈ c.members then
            sendMessage_from c fails ks msg w
          else if (w.sess k).OnPage = "/messages" then
            if c.target = 0 ∧ c.queryFails k = true then w
            else
              sendMessage_from c fails ks
                ⟨msg.ID, "messagePreview", c.preview (w.sess k).UserID⟩
                (sendOrPrune fails ⟨msg.ID, "messagePreview", c.preview (w.sess k).UserID⟩ k w)
          else
            sendMessage_from c fails ks
              ⟨msg.ID, "messageNotif", toString (c.unread + c.groupUnread)⟩
              (sendOrPrune fails ⟨msg.ID, "messageNotif", toString (c.unread + c.groupUnread)⟩
                k w)
        else sendMessage_from c fails ks msg w
      else sendMessage_from c fails ks msg w := by
  rw [sendMessage_from]
  rfl

theorem sendMessage_from_db (c : SendCtx) (fails : Handle → Bool)
    (hq : c.target = 0 → ∀ h, c.queryFails h = false) :
    ∀ (ks : List Handle) (msg : wsMessage) (w : World), ks.Nodup →
      (∀ k ∈ ks, k ∈ w.clients) →
      (sendMessage_from c fails ks msg w).db = w.db ++ sendDbLog c w.sess ks := by
  intro ks
  induction ks with
  | nil => intro msg w _ _; simp [sendMessage_from, sendDbLog]
  | cons k ks ih =>
    intro msg w hnd hmem
    have hk : k ∈ w.clients := hmem k (List.mem_cons_self _ _)
    have hknot : k ∉ ks := (List.nodup_cons.mp hnd).1
    have hnd2 : ks.Nodup := (List.nodup_cons.mp hnd).2
    have hmem2 : ∀ k2 ∈ ks, k2 ∈ w.clients := fun k2 h2 => hmem k2 (List.mem_cons_of_mem _ h2)
    have hne : ∀ k2 ∈ ks, k2 ≠ k := fun k2 h2 e => hknot (e ▸ h2)
    have hprune : ∀ m : wsMessage, ∀ k2 ∈ ks, k2 ∈ (sendOrPrune fails m k w).clients :=
      fun m k2 h2 => sendOrPrune_mem fails m k k2 w (hne k2 h2) (hmem2 k2 h2)
    have hstay : ∀ (m m2 : wsMessage),
        (sendMessage_from c fails ks m2 (sendOrPrune fails m k w)).db =
          w.db ++ sendDbLog c w.sess ks := by
      intro m m2
      rw [ih m2 _ hnd2 (hprune m), (sendOrPrune_only fails m k w).1,
        (sendOrPrune_only fails m k w).2.1]
    rw [sendMessage_from_cons, if_pos hk]
    by_cases hqual : sendQualifies c (w.sess k) = true
    · rw [if_pos hqual]
      by_cases ht : c.target = 0
      · rw [if_pos ht, ih msg _ hnd2 (by simpa [dbExec, writeWs] using hmem2)]
        simp [sendDbLog, hqual, sendWrites, ht, dbExec, writeWs]
      · rw [if_neg ht, ih msg _ hnd2 (by simpa [dbExec, writeWs] using hmem2)]
        simp [sendDbLog, hqual, sendWrites, ht, dbExec, writeWs]
    · rw [if_neg hqual]
      have hlog : sendDbLog c w.sess (k :: ks) = sendDbLog c w.sess ks := by
        simp [sendDbLog, hqual]
      rw [hlog]
      split
      · split
        · exact ih msg w hnd2 hmem2
        · split
          · split
            · rename_i hbad
              have := hq hbad.1 k
              rw [hbad.2] at this
              exact Bool.noConfusion this
            · exact hstay _ _
          · exact hstay _ _
      · exact ih msg w hnd2 hmem2

theorem sendMessage_fanout_db (c : SendCtx) (fails : Handle → Bool) (w : World)
    (hnd : w.clients.Nodup) (hq : c.target = 0 → ∀ h, c.queryFails h = false) :
    newDb w (sendMessage_fanout c fails w) = sendDbLog c w.sess w.clients :=
  newDb_of_append _ _ _ (sendMessage_from_db c fails hq w.clients _ w hnd (fun _ h => h))

theorem sendStopsAt_of_qualifies (c : SendCtx) (s : wsSession) (k : Handle)
    (hq : sendQualifies c s = true) : sendStopsAt c s k = false := by
  simp [sendStopsAt, hq]

theorem sendMessage_from_db_visited (c : SendCtx) (fails : Handle → Bool) :
    ∀ (ks : List Handle) (msg : wsMessage) (w : World), ks.Nodup →
      (∀ k ∈ ks, k ∈ w.clients) →
      (sendMessage_from c fails ks msg w).db =
        w.db ++ sendDbLog c w.sess (sendVisited c w.sess ks) := by
  intro ks
  induction ks with
  | nil => intro msg w _ _; simp [sendMessage_from, sendDbLog, sendVisited]
  | cons k ks ih =>
    intro msg w hnd hmem
    have hk : k ∈ w.clients := hmem k (List.mem_cons_self _ _)
    have hknot : k ∉ ks := (List.nodup_cons.mp hnd).1
    have hnd2 : ks.Nodup := (List.nodup_cons.mp hnd).2
    have hmem2 : ∀ k2 ∈ ks, k2 ∈ w.clients := fun k2 h2 => hmem k2 (List.mem_cons_of_mem _ h2)
    have hne : ∀ k2 ∈ ks, k2 ≠ k := fun k2 h2 e => hknot (e ▸ h2)
    have hprune : ∀ m : wsMessage, ∀ k2 ∈ ks, k2 ∈ (sendOrPrune fails m k w).clients :=
      fun m k2 h2 => sendOrPrune_mem fails m k k2 w (hne k2 h2) (hmem2 k2 h2)
    have hstay : ∀ (m m2 : wsMessage),
        (sendMessage_from c fails ks m2 (sendOrPrune fails m k w)).db =
          w.db ++ sendDbLog c w.sess (sendVisited c w.sess ks) := by
      intro m m2
      rw [ih m2 _ hnd2 (hprune m), (sendOrPrune_only fails m k w).1,
        (sendOrPrune_only fails m k w).2.1]
    rw [sendMessage_from_cons, if_pos hk]
    by_cases hqual : sendQualifies c (w.sess k) = true
    · rw [if_pos hqual]
      have hvis : sendVisited c w.sess (k :: ks) = k :: sendVisited c w.sess ks := by
        simp [sendVisited, sendStopsAt_of_qualifies c _ k hqual]
      rw [hvis]
      by_cases ht : c.target = 0
      · rw [if_pos ht, ih msg _ hnd2 (by simpa [dbExec, writeWs] using hmem2)]
        simp [sendDbLog, hqual, sendWrites, ht, dbExec, writeWs]
      · rw [if_neg ht, ih msg _ hnd2 (by simpa [dbExec, writeWs] using hmem2)]
        simp [sendDbLog, hqual, sendWrites, ht, dbExec, writeWs]
    · rw [if_neg hqual]
      have hqf : sendQualifies c (w.sess k) = false := by simpa using hqual
      have hgo : sendStopsAt c (w.sess k) k = false →
          sendDbLog c w.sess (sendVisited c w.sess (k :: ks)) =
            sendDbLog c w.sess (sendVisited c w.sess ks) := by
        intro hs
        simp [sendVisited, hs, sendDbLog, hqf]
      by_cases h2 : ((w.sess k).UserID == c.otherUserID || c.target == 0) = true
      · rw [if_pos h2]
        by_cases h3 : c.target = 0 ∧ ¬ (w.sess k).UserID ∈ c.members
        · rw [if_pos h3, hgo (by simp [sendStopsAt, h3.2]), ih msg w hnd2 hmem2]
        · rw [if_neg h3]
          by_cases h4 : (w.sess k).OnPage = "/messages"
          · rw [if_pos h4]
            by_cases h5 : c.target = 0 ∧ c.queryFails k = true
            · rw [if_pos h5]
              have hm : (w.sess k).UserID ∈ c.members := by
                by_contra hn
                exact h3 ⟨h5.1, hn⟩
              have hs : sendStopsAt c (w.sess k) k = true := by
                simp [sendStopsAt, h5.1, h5.2, hqf, hm, h4]
              simp [sendVisited, hs, sendDbLog]
            · rw [if_neg h5]
              have hs : sendStopsAt c (w.sess k) k = false := by
                by_cases ht : c.target = 0
                · have : c.queryFails k = false := by
                    cases hf : c.queryFails k
                    · rfl
                    · exact absurd ⟨ht, hf⟩ h5
                  simp [sendStopsAt, this]
                · simp [sendStopsAt, ht]
              rw [hgo hs]
              exact hstay _ _
          · rw [if_neg h4, hgo (by simp [sendStopsAt, h4])]
            exact hstay _ _
      · rw [if_neg h2]
        have ht : ¬ c.target = 0 := by
          intro ht
          apply h2
          simp [ht]
        rw [hgo (by simp [sendStopsAt, ht]), ih msg w hnd2 hmem2]

theorem sendMessage_fanout_db_visited (c : SendCtx) (fails : Handle → Bool) (w : World)
    (hnd : w.clients.Nodup) :
    newDb w (sendMessage_fanout c fails w) =
      sendDbLog c w.sess (sendVisited c w.sess w.clients) :=
  newDb_of_append _ _ _ (sendMessage_from_db_visited c fails w.clients _ w hnd (fun _ h => h))

/-! ## Lemmas on the teardown and the send worker -/

theorem annBody_inv (skipU : Int → Bool) (fails : Handle → Bool) (ws : Handle)
    (msg : wsMessage) (k : Handle) (w : World) :
    (∀ h ∈ (annBody skipU fails ws msg k w).clients, h ∈ w.clients) ∧
    (∀ h, h ≠ k → (annBody skipU fails ws msg k w).sess h = w.sess h) ∧
    (∃ X, (annBody skipU fails ws msg k w).closed = w.closed ++ X) := by
  cases hs : skipU (w.sess k).UserID
  · cases hf : fails k
    · rw [annBody_ok skipU fails ws msg k w hs hf]
      exact ⟨fun _ h => h, fun _ _ => rfl, [], by simp⟩
    · by_cases hsend : (w.sess k).Send = .ready
      · unfold annBody announceWrite closeSend
        simp only [hs, hf, hsend, if_true, Bool.false_eq_true, if_false]
        cases hp : w.panicked
        · refine ⟨?_, ?_, [ws], ?_⟩
          · intro h hh
            simp only [setSess, delClient, connClose, hp, Bool.false_eq_true, if_false,
              List.mem_filter] at hh
            exact hh.1
          · intro h hne
            simp [setSess, delClient, connClose, hp, hne]
          · simp [setSess, delClient, connClose, hp]
        · refine ⟨?_, ?_, [], ?_⟩
          · intro h hh
            simpa [setSess, hp] using hh
          · intro h hne
            simp [setSess, hp, hne]
          · simp [setSess, hp]
      · rw [annBody_panic skipU fails ws msg k w hs hf hsend]
        exact ⟨fun _ h => h, fun _ _ => rfl, [], by simp⟩
  · rw [annBody_skip skipU fails ws msg k w hs]
    exact ⟨fun _ h => h, fun _ _ => rfl, [], by simp⟩

theorem rangeFrom_ann_inv (skipU : Int → Bool) (fails : Handle → Bool) (ws : Handle)
    (msg : wsMessage) :
    ∀ (ks : List Handle) (w : World),
      (∀ h ∈ (rangeFrom (annBody skipU fails ws msg) ks w).clients, h ∈ w.clients) ∧
      (∀ h, h ∉ ks → (rangeFrom (annBody skipU fails ws msg) ks w).sess h = w.sess h) ∧
      (∃ X, (rangeFrom (annBody skipU fails ws msg) ks w).closed = w.closed ++ X) := by
  intro ks
  induction ks with
  | nil => intro w; exact ⟨fun _ h => h, fun _ _ => rfl, [], by simp [rangeFrom]⟩
  | cons k ks ih =>
    intro w
    rw [rangeFrom]
    split
    · exact ⟨fun _ h => h, fun _ _ => rfl, [], by simp⟩
    · split
      · obtain ⟨a1, a2, X, a3⟩ := annBody_inv skipU fails ws msg k w
        obtain ⟨b1, b2, Y, b3⟩ := ih (annBody skipU fails ws msg k w)
        refine ⟨fun h hh => a1 h (b1 h hh), ?_, X ++ Y, ?_⟩
        · intro h hh
          have hk : h ≠ k := fun e => hh (e ▸ List.mem_cons_self _ _)
          have hks : h ∉ ks := fun hin => hh (List.mem_cons_of_mem _ hin)
          rw [b2 h hks, a2 h hk]
        · rw [b3, a3, List.append_assoc]
      · obtain ⟨b1, b2, Y, b3⟩ := ih w
        exact ⟨b1, fun h hh => b2 h (fun hin => hh (List.mem_cons_of_mem _ hin)), Y, b3⟩

/-- What the end of the read loop leaves of the own connection, for every
state and all write outcomes: the handle is not registered, the own session
object is as before, and `Close()` was called on the own transport last. -/
theorem readLoopEnds_own (fails : Handle → Bool) (ws : Handle) (username : String)
    (hideOnline : Bool) (w : World) :
    ws ∉ (readLoopEnds fails ws username hideOnline w).clients ∧
    (readLoopEnds fails ws username hideOnline w).sess ws = w.sess ws ∧
    ∃ X, (readLoopEnds fails ws username hideOnline w).closed = w.closed ++ X ++ [ws] := by
  by_cases hother : ∃ h ∈ w.clients, h ≠ ws ∧ (w.sess h).UserID = (w.sess ws).UserID
  · rw [readLoopEnds_other fails ws username hideOnline w hother]
    exact ⟨by simp [connClose, delClient, List.mem_filter], rfl, [],
      by simp [connClose, delClient]⟩
  · have hlast : ∀ h ∈ w.clients, h ≠ ws → (w.sess h).UserID ≠ (w.sess ws).UserID := by
      intro h hh hne hu
      exact hother ⟨h, hh, hne, hu⟩
    rw [readLoopEnds_last fails ws username hideOnline w hlast]
    cases hideOnline
    · simp only [Bool.not_false, if_true, announceWrite_eq_annBody, rangeClients]
      obtain ⟨b1, b2, Y, b3⟩ := rangeFrom_ann_inv (fun _ => false) fails ws
        ⟨"", "offline", username⟩ (w.clients.filter (fun h => h != ws))
        { sess := w.sess, clients := w.clients.filter (fun h => h != ws), closed := w.closed,
          wsCalls := w.wsCalls, frames := w.frames,
          db := w.db ++ [DbWrite.usersSetOnline (w.sess ws).UserID false],
          passes := w.passes ++ [("offline", (w.sess ws).UserID)], panicked := false }
      have hnot : ws ∉ w.clients.filter (fun h => h != ws) := by
        simp [List.mem_filter]
      refine ⟨?_, ?_, Y, ?_⟩
      · intro hin
        exact hnot (b1 ws (by simpa [connClose, dbExec, delClient] using hin))
      · have := b2 ws hnot
        simpa [connClose, dbExec, delClient] using this
      · have h3 : ∀ (r : World), r.closed = w.closed ++ Y →
            (connClose ws r).closed = w.closed ++ Y ++ [ws] := by
          intro r hr
          simp [connClose, hr]
        exact h3 _ (by simpa [dbExec, delClient] using b3)
    · exact ⟨by simp [connClose, dbExec, delClient, List.mem_filter], rfl, [],
        by simp [connClose, dbExec, delClient]⟩

theorem workerTurn_log (fails : Handle → Bool) (ws : Handle) (s : Sys) :
    (workerTurn fails ws s).world.frames = s.world.frames ∧
    (workerTurn fails ws s).world.wsCalls = s.world.wsCalls ∧
    ∃ X, (workerTurn fails ws s).workerFrames = s.workerFrames ++ X ∧
      ∀ f ∈ X, f.1 = ws ∧
        ((∃ rest, s.sendq ws = f.2 :: rest) ∨
          (s.sendq ws = [] ∧ (s.world.sess ws).Send = .shut ∧ f.2 = ⟨"", "", ""⟩)) := by
  unfold workerTurn
  cases hw : s.worker ws
  case waiting =>
    simp only
    cases hsend : (s.world.sess ws).Send <;> cases hq : s.sendq ws <;>
      simp only [recvSend] <;> cases hf : fails ws <;>
      simp [delClient, connClose, setSess]
  all_goals exact ⟨rfl, rfl, [], by simp, by simp⟩

theorem readLoopEnds_db_last (fails : Handle → Bool) (ws : Handle) (username : String)
    (hideOnline : Bool) (w : World)
    (hlast : ∀ h ∈ w.clients, h ≠ ws → (w.sess h).UserID ≠ (w.sess ws).UserID) :
    (readLoopEnds fails ws username hideOnline w).db =
      w.db ++ [DbWrite.usersSetOnline (w.sess ws).UserID false] := by
  rw [readLoopEnds_last fails ws username hideOnline w hlast]
  cases hideOnline
  · simp only [Bool.not_false, if_true, announceWrite_eq_annBody, rangeClients]
    have hfr := rangeFrom_ann_frames (fun _ => false) fails ws ⟨"", "offline", username⟩
      (fun h => (w.sess h).UserID) (w.clients.filter (fun h => h != ws))
      { sess := w.sess, clients := w.clients.filter (fun h => h != ws), closed := w.closed,
        wsCalls := w.wsCalls, frames := w.frames,
        db := w.db ++ [DbWrite.usersSetOnline (w.sess ws).UserID false],
        passes := w.passes ++ [("offline", (w.sess ws).UserID)], panicked := false }
      (fun _ => rfl)
    have := hfr.2.1
    simpa [connClose, dbExec, delClient] using this
  · simp [connClose, dbExec, delClient]

/-! ## Claims on the registry operations and the send worker -/

/-- The error branch of the send worker on an open queue: when the send worker
of a connection, waiting on its open Send queue, fails to write a message it
dequeued, it closes its own transport, deletes its own handle from the registry
and returns; every other registry entry, session and worker is left unchanged. -/
theorem worker_write_failure_removes_own_entry (fails : Handle → Bool) (ws : Handle) (s : Sys)
    (msg : wsMessage) (rest : List wsMessage) (hw : s.worker ws = .waiting)
    (hopen : (s.world.sess ws).Send = .ready) (hq : s.sendq ws = msg :: rest)
    (hfail : fails ws = true) :
    newWorkerFrames s (workerTurn fails ws s) = [(ws, msg)] ∧
    newClosed s.world (workerTurn fails ws s).world = [ws] ∧
    (workerTurn fails ws s).world.clients = s.world.clients.filter (fun h => h != ws) ∧
    ws ∉ (workerTurn fails ws s).world.clients ∧
    (workerTurn fails ws s).worker ws = .returned ∧
    (∀ h, h ≠ ws →
      (h ∈ (workerTurn fails ws s).world.clients ↔ h ∈ s.world.clients) ∧
      (workerTurn fails ws s).world.sess h = s.world.sess h ∧
      (workerTurn fails ws s).worker h = s.worker h ∧
      (workerTurn fails ws s).sendq h = s.sendq h) := by
  have hr : recvSend (s.world.sess ws).Send (s.sendq ws) = some (msg, rest) := by
    rw [hopen, hq]; rfl
  have heq : workerTurn fails ws s =
      { s with
        sendq := fun h => if h = ws then rest else s.sendq h
        workerFrames := s.workerFrames ++ [(ws, msg)]
        world := delClient ws (connClose ws
          (setSess ws { s.world.sess ws with Send := .shut } s.world))
        worker := fun h => if h = ws then .returned else s.worker h } := by
    unfold workerTurn
    rw [hopen] at hr
    simp only [hw, hopen, hr, hfail, if_true]
  rw [heq]
  refine ⟨?_, ?_, ?_, ?_, ?_, ?_⟩
  · simp [newWorkerFrames]
  · simp [newClosed, delClient, connClose, setSess]
  · simp [delClient, connClose, setSess]
  · simp [delClient, connClose, setSess, List.mem_filter]
  · simp
  · intro h hne
    simp [delClient, connClose, setSess, List.mem_filter, hne]

theorem worker_write_failure_removes_own_entry_witness :
    convSys.worker 20 = .waiting ∧ (convSys.world.sess 20).Send = .ready ∧
      convSys.sendq 20 = [⟨"", "notif", "1"⟩] ∧
      newClosed convSys.world (workerTurn (fun h => h == 20) 20 convSys).world = [20] ∧
      (workerTurn (fun h => h == 20) 20 convSys).worker 20 = .returned :=
  ⟨by decide, by decide, by decide,
    (worker_write_failure_removes_own_entry (fun h => h == 20) 20 convSys ⟨"", "notif", "1"⟩ []
      (by decide) (by decide) (by decide) (by decide)).2.1,
    (worker_write_failure_removes_own_entry (fun h => h == 20) 20 convSys ⟨"", "notif", "1"⟩ []
      (by decide) (by decide) (by decide) (by decide)).2.2.2.2.1⟩

/-- C12 (the code departs from the claim): connection 20 is pruned by the
announce pass of a handshake whose write to it fails, and connection 10 by the
loop of adminBanUser; the next "onPage" signal read for the pruned handle
stores it in the registry again, although no handshake registered it anew. -/
theorem onPage_puts_pruned_handle_back :
    20 ∉ (handshake (fun h => h == 20) 12 alice "alice" false convWorld).clients ∧
    20 ∈ (readStep 20 (some onPage7)
      (handshake (fun h => h == 20) 12 alice "alice" false convWorld)).clients ∧
    10 ∉ (adminBanUser_fanout (fun h => h == 10) 1 tabsWorld).clients ∧
    10 ∈ (readStep 10 (some onPage7)
      (adminBanUser_fanout (fun h => h == 10) 1 tabsWorld)).clients := by
  decide

/-- C13: removal of a handle from the registry is idempotent: removing it twice
gives the same state as removing it once (also when the second removal is the
read loop's on its read error), removing an absent handle changes nothing, and
a removal never panics. -/
theorem delete_is_idempotent (h : Handle) (w : World) :
    delClient h (delClient h w) = delClient h w ∧
    readStep h none (delClient h w) = delClient h w ∧
    (h ∉ w.clients → delClient h w = w) ∧
    (delClient h w).panicked = w.panicked := by
  have h1 : delClient h (delClient h w) = delClient h w := by
    cases w
    simp only [delClient, World.mk.injEq, true_and, and_true, List.filter_filter]
    apply List.filter_congr
    intro x _
    simp
  refine ⟨h1, h1, ?_, rfl⟩
  intro hn
  cases w
  simp only [delClient, World.mk.injEq, true_and, and_true, List.filter_eq_self]
  intro a ha
  simp only [bne_iff_ne, ne_eq]
  intro e
  exact hn (e ▸ ha)

theorem delete_is_idempotent_witness :
    (12 : Handle) ∉ tabsWorld.clients ∧ delClient 12 tabsWorld = tabsWorld :=
  ⟨by decide, (delete_is_idempotent 12 tabsWorld).2.2.1 (by decide)⟩

/-- C14 as stated fails: handle 10 is a key of the registry; the store of the
read loop on an "onPage" signal and the store of the registration both go
through without any error, and the registration makes the key point to the new
session (user 3 instead of user 1). -/
theorem store_on_registered_handle_is_silent :
    (10 : Handle) ∈ tabsWorld.clients ∧
    (readStep 10 (some onPage7) tabsWorld).clients = tabsWorld.clients ∧
    (readStep 10 (some onPage7) tabsWorld).panicked = false ∧
    (register 10 bob tabsWorld).clients = tabsWorld.clients ∧
    (tabsWorld.sess 10).UserID = 1 ∧
    ((register 10 bob tabsWorld).sess 10).UserID = 3 ∧
    (register 10 bob tabsWorld).panicked = false := by
  decide

/-- C14 amended: registration is a plain map store without a test for an
existing key: storing under a handle that is already a key raises no error,
keeps the key registered once, and makes it point to the stored session (the
new session at the handshake, the connection's own session at an "onPage"
signal); the entries of other handles are not touched. -/
theorem store_is_plain_map_assignment (ws : Handle) (CurrentUser : user) (msg : wsMessage)
    (w : World) (hin : ws ∈ w.clients) :
    (register ws CurrentUser w).clients = w.clients ∧
    (register ws CurrentUser w).sess ws =
      ⟨true, CurrentUser.ID, CurrentUser.Level, "", .unmade⟩ ∧
    (register ws CurrentUser w).panicked = w.panicked ∧
    (∀ h, h ≠ ws → (register ws CurrentUser w).sess h = w.sess h) ∧
    (readStep ws (some msg) w).clients = w.clients ∧
    (readStep ws (some msg) w).panicked = w.panicked := by
  refine ⟨?_, ?_, ?_, ?_, ?_, ?_⟩
  · simp [register, dbExec, putClient, setSess, hin]
  · simp [register, dbExec, putClient, setSess]
  · simp [register, dbExec, putClient, setSess]
  · intro h hne
    simp [register, dbExec, putClient, setSess, hne]
  · unfold readStep
    by_cases hm : msg.Typ = "onPage" <;> simp [hm, putClient, setSess, hin]
  · unfold readStep
    by_cases hm : msg.Typ = "onPage" <;> simp [hm, putClient, setSess]

theorem store_is_plain_map_assignment_witness :
    (10 : Handle) ∈ tabsWorld.clients ∧
      (register 10 bob tabsWorld).clients = tabsWorld.clients :=
  ⟨by decide, (store_is_plain_map_assignment 10 bob onPage7 tabsWorld (by decide)).1⟩

/-- C16: in the read loop an inbound message of type "onPage" sets the OnPage
of the sending connection to the message's Content and leaves its UserID,
Level, Connected flag and Send queue, the session of every other connection,
and all transports, writeWs calls and database rows as they are (and the
registry too when the connection is registered); a message of any other type
changes nothing at all. -/
theorem onPage_changes_only_own_page (ws : Handle) (msg : wsMessage) (w : World) :
    (msg.Typ = "onPage" →
      ((readStep ws (some msg) w).sess ws).OnPage = msg.Content ∧
      ((readStep ws (some msg) w).sess ws).UserID = (w.sess ws).UserID ∧
      ((readStep ws (some msg) w).sess ws).Level = (w.sess ws).Level ∧
      ((readStep ws (some msg) w).sess ws).Connected = (w.sess ws).Connected ∧
      ((readStep ws (some msg) w).sess ws).Send = (w.sess ws).Send ∧
      (∀ h, h ≠ ws → (readStep ws (some msg) w).sess h = w.sess h) ∧
      (readStep ws (some msg) w).frames = w.frames ∧
      (readStep ws (some msg) w).wsCalls = w.wsCalls ∧
      (readStep ws (some msg) w).closed = w.closed ∧
      (readStep ws (some msg) w).db = w.db ∧
      (ws ∈ w.clients → (readStep ws (some msg) w).clients = w.clients)) ∧
    (msg.Typ ≠ "onPage" → readStep ws (some msg) w = w) := by
  refine ⟨?_, ?_⟩
  · intro hm
    have hr : readStep ws (some msg) w =
        putClient ws (setSess ws { w.sess ws with OnPage := msg.Content } w) := by
      unfold readStep
      simp [hm]
    rw [hr]
    refine ⟨?_, ?_, ?_, ?_, ?_, ?_, rfl, rfl, rfl, rfl, ?_⟩
    · simp [putClient, setSess]
    · simp [putClient, setSess]
    · simp [putClient, setSess]
    · simp [putClient, setSess]
    · simp [putClient, setSess]
    · intro h hne
      simp [putClient, setSess, hne]
    · intro hin
      simp [putClient, setSess, hin]
  · intro hm
    unfold readStep
    simp [hm]

theorem onPage_changes_only_own_page_witness :
    onPage7.Typ = "onPage" ∧
      ((readStep 10 (some onPage7) tabsWorld).sess 10).OnPage = "/posts/7" ∧
      ((readStep 10 (some onPage7) tabsWorld).sess 10).UserID = 1 :=
  ⟨by decide,
    ((onPage_changes_only_own_page 10 onPage7 tabsWorld).1 (by decide)).1,
    ((onPage_changes_only_own_page 10 onPage7 tabsWorld).1 (by decide)).2.1.trans (by decide)⟩

/-- C17: if the websocket upgrade fails, handleConnections returns without any
change to the registry (no entry inserted, replaced or removed, no session
field changed) and without writing a frame or issuing a writeWs call or a
database write. -/
theorem failed_upgrade_changes_nothing (fails fails2 : Handle → Bool) (CurrentUser : user)
    (username : String) (hideOnline : Bool) (inputs : List wsMessage) (w : World) :
    (handleConnections none fails fails2 CurrentUser username hideOnline inputs w).clients =
        w.clients ∧
    (handleConnections none fails fails2 CurrentUser username hideOnline inputs w).sess =
        w.sess ∧
    newFrames w (handleConnections none fails fails2 CurrentUser username hideOnline inputs w) =
        [] ∧
    newCalls w (handleConnections none fails fails2 CurrentUser username hideOnline inputs w) =
        [] ∧
    newPasses w (handleConnections none fails fails2 CurrentUser username hideOnline inputs w) =
        [] ∧
    newDb w (handleConnections none fails fails2 CurrentUser username hideOnline inputs w) =
        [] ∧
    newClosed w (handleConnections none fails fails2 CurrentUser username hideOnline inputs w) =
        [] := by
  simp [handleConnections, newFrames, newCalls, newPasses, newDb, newClosed]

/-- C15 as stated fails: in the loop of sendMessage the connection 20 qualifies
as a live viewer of group conversation "5", and the loop issues the two UPDATE
statements for it. -/
theorem sendMessage_loop_updates_rows :
    newDb convWorld (sendMessage_fanout groupCtx (fun _ => false) convWorld) =
      [DbWrite.messagesMarkRead "5" 1, DbWrite.groupMembersClearUnread "5" 1] := by
  decide

/-- C15 amended: of the fan-out loops over the registry only the loop of
sendMessage writes to persistent storage: for each registered connection that
qualifies as a live viewer and is visited before the loop ends (the loop
returns at the first connection for which the nickname query fails) it issues
`UPDATE messages SET msg_read = 1` and, in a group conversation,
`UPDATE group_members SET unread_messages = 0`, and it issues nothing else.
Every other handler loop issues no SQL write; its only effects are writeWs
calls and the closing and removal of connections. -/
theorem only_sendMessage_loop_writes_rows (fails : Handle → Bool) (w : World)
    (hnd : w.clients.Nodup) :
    (∀ l : HandlerLoop,
      newDb w (l.run fails w) = [] ∧ (l.run fails w).sess = w.sess ∧
      newFrames w (l.run fails w) = [] ∧ newPasses w (l.run fails w) = [] ∧
      ∀ h ∈ (l.run fails w).clients, h ∈ w.clients) ∧
    (∀ c : SendCtx,
      newDb w (sendMessage_fanout c fails w) =
        sendDbLog c w.sess (sendVisited c w.sess w.clients)) ∧
    (∀ (c : SendCtx) (h : Handle), h ∈ sendVisited c w.sess w.clients →
      sendQualifies c (w.sess h) = true →
      DbWrite.messagesMarkRead c.conversation_id c.CurrentUser.ID ∈
        newDb w (sendMessage_fanout c fails w)) ∧
    (∀ c : SendCtx, (c.target = 0 → ∀ h, c.queryFails h = false) →
      sendVisited c w.sess w.clients = w.clients) := by
  refine ⟨?_, ?_, ?_, ?_⟩
  · intro l
    obtain ⟨a, b, c, d, e⟩ := handlerLoop_only fails w l
    exact ⟨by simp [newDb, a], b, by simp [newFrames, c], by simp [newPasses, d], e⟩
  · intro c
    exact sendMessage_fanout_db_visited c fails w hnd
  · intro c h hh hqual
    rw [sendMessage_fanout_db_visited c fails w hnd]
    have : ∀ ks : List Handle, h ∈ ks →
        DbWrite.messagesMarkRead c.conversation_id c.CurrentUser.ID ∈
          sendDbLog c w.sess ks := by
      intro ks
      induction ks with
      | nil => intro hin; cases hin
      | cons k ks ih =>
        intro hin
        rw [sendDbLog]
        rcases List.mem_cons.mp hin with e | hin
        · subst e
          simp [hqual, sendWrites]
        · exact List.mem_append_right _ (ih hin)
    exact this _ hh
  · intro c hq
    have : ∀ ks : List Handle, sendVisited c w.sess ks = ks := by
      intro ks
      induction ks with
      | nil => rfl
      | cons k ks ih =>
        have hs : sendStopsAt c (w.sess k) k = false := by
          by_cases ht : c.target = 0
          · simp [sendStopsAt, hq ht k]
          · simp [sendStopsAt, ht]
        simp [sendVisited, hs, ih]
    exact this w.clients

theorem only_sendMessage_loop_writes_rows_witness :
    convWorld.clients.Nodup ∧
      newDb convWorld ((HandlerLoop.showGroupChat alice).run (fun _ => true) convWorld) = [] ∧
      DbWrite.messagesMarkRead "5" 1 ∈
        newDb convWorld (sendMessage_fanout groupCtx (fun _ => true) convWorld) :=
  ⟨by decide,
    ((only_sendMessage_loop_writes_rows (fun _ => true) convWorld (by decide)).1
      (HandlerLoop.showGroupChat alice)).1,
    (only_sendMessage_loop_writes_rows (fun _ => true) convWorld (by decide)).2.2.1 groupCtx 20
      (by decide) (by decide)⟩

/-- C18 as stated fails: the handshake of connection 12 writes the "online"
frame to the transport of connection 10 directly, while the Send queue of 10 is
empty before and after and no send worker has written anything. -/
theorem presence_frames_bypass_send_queues :
    tabsSys.sendq 10 = [] ∧
    ((10 : Handle), (⟨"", "online", "alice"⟩ : wsMessage)) ∈
      newFrames tabsSys.world
        (sysHandshake (fun _ => false) 12 alice "alice" false tabsSys).world ∧
    (sysHandshake (fun _ => false) 12 alice "alice" false tabsSys).sendq 10 = [] ∧
    (sysHandshake (fun _ => false) 12 alice "alice" false tabsSys).workerFrames = [] := by
  decide

/-- C18 amended: handleConnections writes the presence frames of its announce
passes directly to the transports of the registered connections, without
placing anything on a Send queue and without a send worker writing; a send
worker writes to its own transport only, and only a message received from its
own queue (or the zero value it receives once the queue is closed and empty). -/
theorem presence_frames_are_written_directly (fails : Handle → Bool) (ws : Handle)
    (CurrentUser : user) (username : String) (hideOnline : Bool) (s : Sys) :
    newWorkerFrames s (sysHandshake fails ws CurrentUser username hideOnline s) = [] ∧
    (∀ h, h ≠ ws →
      (sysHandshake fails ws CurrentUser username hideOnline s).sendq h = s.sendq h) ∧
    (∃ L : List Handle,
      newFrames s.world (sysHandshake fails ws CurrentUser username hideOnline s).world =
        L.map (fun h => (h, presenceMsg username hideOnline)) ∧
      ∀ h ∈ L, h = ws ∨ h ∈ s.world.clients) ∧
    newWorkerFrames s (sysReadLoopEnds fails ws username hideOnline s) = [] ∧
    (sysReadLoopEnds fails ws username hideOnline s).sendq = s.sendq ∧
    (∀ ws2 : Handle,
      (workerTurn fails ws2 s).world.frames = s.world.frames ∧
      ∀ f ∈ newWorkerFrames s (workerTurn fails ws2 s), f.1 = ws2 ∧
        ((∃ rest, s.sendq ws2 = f.2 :: rest) ∨
          (s.sendq ws2 = [] ∧ (s.world.sess ws2).Send = .shut ∧ f.2 = ⟨"", "", ""⟩))) ∧
    (s.world.clients.Nodup → hideOnline = false →
      (∀ h ∈ s.world.clients, h ≠ ws → fails h = true → (s.world.sess h).Send = .ready) →
      newFrames s.world (sysHandshake fails ws CurrentUser username hideOnline s).world =
        (register ws CurrentUser s.world).clients.map
          (fun h => (h, ⟨"", "online", username⟩))) := by
  refine ⟨?_, ?_, ?_, ?_, rfl, ?_, ?_⟩
  · simp [newWorkerFrames, sysHandshake]
  · intro h hne
    simp [sysHandshake, hne]
  · obtain ⟨_, _, L, hL, hmem⟩ := handshake_log fails ws CurrentUser username hideOnline s.world
    exact ⟨L, newFrames_of_append _ _ _ hL, fun h hh => (hmem h hh).1⟩
  · simp [newWorkerFrames, sysReadLoopEnds]
  · intro ws2
    obtain ⟨a, _, X, hX, hmem⟩ := workerTurn_log fails ws2 s
    refine ⟨a, ?_⟩
    intro f hf
    have : newWorkerFrames s (workerTurn fails ws2 s) = X := by
      unfold newWorkerFrames
      rw [hX, List.drop_left]
    rw [this] at hf
    exact hmem f hf
  · intro hnd hhide hsend
    subst hhide
    apply newFrames_of_append
    show (handshake fails ws CurrentUser username false s.world).frames = _
    rw [(handshake_ok fails ws CurrentUser username false s.world hnd hsend).2]
    simp [presenceMsg]

theorem presence_frames_are_written_directly_witness :
    tabsSys.world.clients.Nodup ∧
      newFrames tabsSys.world
          (sysHandshake (fun _ => false) 12 alice "alice" false tabsSys).world =
        [(10, ⟨"", "online", "alice"⟩), (11, ⟨"", "online", "alice"⟩),
          (20, ⟨"", "online", "alice"⟩), (12, ⟨"", "online", "alice"⟩)] :=
  ⟨by decide,
    ((presence_frames_are_written_directly (fun _ => false) 12 alice "alice" false
      tabsSys).2.2.2.2.2.2 (by decide) rfl (by decide)).trans (by decide)⟩

/-- C19 (the code departs from the claim): the announce pass of the handshake
of connection 12 fails to write to connection 20 and closes the Send queue of
20.  After an "onPage" signal stored 20 in the registry again, the announce
pass of the handshake of connection 13 fails to write to 20 and closes the same
queue a second time, which panics; and the send worker of 20, receiving from
the closed queue and failing to write, closes it a second time as well. -/
theorem send_queue_closed_twice :
    ((handshake (fun h => h == 20) 12 alice "alice" false convWorld).sess 20).Send = .shut ∧
    (closeSend 20 (readStep 20 (some onPage7)
      (handshake (fun h => h == 20) 12 alice "alice" false convWorld))).panicked = true ∧
    (handshake (fun h => h == 20) 13 bob "bob" false
      (readStep 20 (some onPage7)
        (handshake (fun h => h == 20) 12 alice "alice" false convWorld))).panicked = true ∧
    (workerTurn (fun h => h == 20) 20
      (sysHandshake (fun h => h == 20) 12 alice "alice" false convSys)).worker 20 = .crashed := by
  decide

/-- C20 as stated fails: after the read loop of connection 20 ended and the
handler ran to its end, the send worker of 20 is still in its loop, waiting on
the Send queue, and a further turn of it changes nothing. -/
theorem worker_still_waiting_after_teardown :
    tabsSys.worker 20 = .waiting ∧
    20 ∉ (sysReadLoopEnds (fun _ => false) 20 "carol" false tabsSys).world.clients ∧
    (sysReadLoopEnds (fun _ => false) 20 "carol" false tabsSys).worker 20 = .waiting ∧
    (workerTurn (fun _ => true) 20
      (sysReadLoopEnds (fun _ => false) 20 "carol" false tabsSys)).worker 20 = .waiting := by
  decide

/-- C20 amended: when a connection's read loop ends with a read error,
handleConnections leaves its handle absent from the registry, has re-evaluated
presence (the online flag is cleared exactly when no other registered
connection of the user is left) and has closed the own transport; the send
worker is not stopped: its state and its queue are as before, and a worker
waiting on an open, empty queue keeps waiting. -/
theorem teardown_leaves_worker_waiting (fails fails2 : Handle → Bool) (ws : Handle)
    (username : String) (hideOnline : Bool) (s : Sys) :
    ws ∉ (sysReadLoopEnds fails ws username hideOnline s).world.clients ∧
    (∃ X, newClosed s.world (sysReadLoopEnds fails ws username hideOnline s).world =
      X ++ [ws]) ∧
    ((∃ h ∈ s.world.clients, h ≠ ws ∧ (s.world.sess h).UserID = (s.world.sess ws).UserID) →
      newDb s.world (sysReadLoopEnds fails ws username hideOnline s).world = []) ∧
    ((∀ h ∈ s.world.clients, h ≠ ws → (s.world.sess h).UserID ≠ (s.world.sess ws).UserID) →
      newDb s.world (sysReadLoopEnds fails ws username hideOnline s).world =
        [DbWrite.usersSetOnline (s.world.sess ws).UserID false]) ∧
    (sysReadLoopEnds fails ws username hideOnline s).worker = s.worker ∧
    (sysReadLoopEnds fails ws username hideOnline s).sendq = s.sendq ∧
    (s.worker ws = .waiting → (s.world.sess ws).Send = .ready → s.sendq ws = [] →
      (sysReadLoopEnds fails ws username hideOnline s).worker ws = .waiting ∧
      workerTurn fails2 ws (sysReadLoopEnds fails ws username hideOnline s) =
        sysReadLoopEnds fails ws username hideOnline s) := by
  obtain ⟨hnot, hsess, X, hclosed⟩ := readLoopEnds_own fails ws username hideOnline s.world
  refine ⟨hnot, ⟨X, ?_⟩, ?_, ?_, rfl, rfl, ?_⟩
  · show newClosed s.world (readLoopEnds fails ws username hideOnline s.world) = X ++ [ws]
    unfold newClosed
    rw [hclosed, List.append_assoc, List.drop_left]
  · intro hother
    show newDb s.world (readLoopEnds fails ws username hideOnline s.world) = []
    rw [readLoopEnds_other fails ws username hideOnline s.world hother]
    simp [newDb, connClose, delClient]
  · intro hlast
    exact newDb_of_append _ _ _ (readLoopEnds_db_last fails ws username hideOnline s.world hlast)
  · intro hw hopen hq
    refine ⟨hw, ?_⟩
    have hs2 : ((sysReadLoopEnds fails ws username hideOnline s).world.sess ws).Send = .ready := by
      show ((readLoopEnds fails ws username hideOnline s.world).sess ws).Send = .ready
      rw [hsess, hopen]
    have hw2 : (sysReadLoopEnds fails ws username hideOnline s).worker ws = .waiting := hw
    have hq2 : (sysReadLoopEnds fails ws username hideOnline s).sendq ws = [] := hq
    unfold workerTurn
    rw [hw2]
    simp only [hs2, hq2, recvSend]

theorem teardown_leaves_worker_waiting_witness :
    tabsSys.worker 20 = .waiting ∧ (tabsSys.world.sess 20).Send = .ready ∧
      tabsSys.sendq 20 = [] ∧
      (sysReadLoopEnds (fun _ => false) 20 "carol" false tabsSys).worker 20 = .waiting :=
  ⟨by decide, by decide, by decide,
    ((teardown_leaves_worker_waiting (fun _ => false) (fun _ => true) 20 "carol" false
      tabsSys).2.2.2.2.2.2 (by decide) (by decide) (by decide)).1⟩

/-! ## Lemmas on the owner fields of a session -/

theorem annBody_owner (skipU : Int → Bool) (fails : Handle → Bool) (ws : Handle)
    (msg : wsMessage) (k : Handle) (w : World) (h : Handle) :
    ownerOf ((annBody skipU fails ws msg k w).sess h) = ownerOf (w.sess h) := by
  cases hs : skipU (w.sess k).UserID
  · cases hf : fails k
    · rw [annBody_ok skipU fails ws msg k w hs hf]
    · by_cases hsend : (w.sess k).Send = .ready
      · unfold annBody announceWrite closeSend
        simp only [hs, hf, hsend, if_true, Bool.false_eq_true, if_false]
        cases hp : w.panicked <;> simp only [setSess, delClient, connClose, hp, if_true,
          Bool.false_eq_true, if_false] <;>
        · by_cases hx : h = k
          · subst hx; simp [ownerOf]
          · simp [hx]
      · rw [annBody_panic skipU fails ws msg k w hs hf hsend]
  · rw [annBody_skip skipU fails ws msg k w hs]

theorem rangeFrom_owner (body : Handle → World → World)
    (hb : ∀ k w h, ownerOf ((body k w).sess h) = ownerOf (w.sess h)) :
    ∀ (ks : List Handle) (w : World) (h : Handle),
      ownerOf ((rangeFrom body ks w).sess h) = ownerOf (w.sess h) := by
  intro ks
  induction ks with
  | nil => intro w h; rfl
  | cons k ks ih =>
    intro w h
    rw [rangeFrom]
    split
    · rfl
    · split
      · rw [ih, hb]
      · exact ih w h

theorem handshake_owner (fails : Handle → Bool) (ws : Handle) (CurrentUser : user)
    (username : String) (hideOnline : Bool) (w : World) (h : Handle) :
    ownerOf ((handshake fails ws CurrentUser username hideOnline w).sess h) =
      if h = ws then (CurrentUser.ID, CurrentUser.Level) else ownerOf (w.sess h) := by
  have hr := rangeFrom_owner
    (annBody (fun u => hideOnline && u != CurrentUser.ID) fails ws
      (presenceMsg username hideOnline))
    (annBody_owner _ fails ws _)
    (announceStart ws CurrentUser username hideOnline w).clients
    (announceStart ws CurrentUser username hideOnline w) h
  have hstart : ownerOf ((announceStart ws CurrentUser username hideOnline w).sess h) =
      if h = ws then (CurrentUser.ID, CurrentUser.Level) else ownerOf (w.sess h) := by
    by_cases hx : h = ws
    · simp [announceStart, hx, ownerOf]
    · simp [announceStart, hx]
  rw [handshake_eq]
  split
  · show ownerOf ((rangeFrom _ _ _).sess h) = _
    rw [hr, hstart]
  · rw [hr, hstart]

theorem readLoopEnds_owner (fails : Handle → Bool) (ws : Handle) (username : String)
    (hideOnline : Bool) (w : World) (h : Handle) :
    ownerOf ((readLoopEnds fails ws username hideOnline w).sess h) = ownerOf (w.sess h) := by
  by_cases hother : ∃ h ∈ w.clients, h ≠ ws ∧ (w.sess h).UserID = (w.sess ws).UserID
  · rw [readLoopEnds_other fails ws username hideOnline w hother]
    rfl
  · have hlast : ∀ h ∈ w.clients, h ≠ ws → (w.sess h).UserID ≠ (w.sess ws).UserID := by
      intro h hh hne hu
      exact hother ⟨h, hh, hne, hu⟩
    rw [readLoopEnds_last fails ws username hideOnline w hlast]
    cases hideOnline
    · simp only [Bool.not_false, if_true, announceWrite_eq_annBody, rangeClients]
      have hr := rangeFrom_owner (annBody (fun _ => false) fails ws ⟨"", "offline", username⟩)
        (annBody_owner _ fails ws _) (w.clients.filter (fun h => h != ws))
        { sess := w.sess, clients := w.clients.filter (fun h => h != ws), closed := w.closed,
          wsCalls := w.wsCalls, frames := w.frames,
          db := w.db ++ [DbWrite.usersSetOnline (w.sess ws).UserID false],
          passes := w.passes ++ [("offline", (w.sess ws).UserID)], panicked := false } h
      simpa [connClose, dbExec, delClient] using hr
    · rfl

theorem readStep_owner (ws : Handle) (input : Option wsMessage) (w : World) (h : Handle) :
    ownerOf ((readStep ws input w).sess h) = ownerOf (w.sess h) := by
  unfold readStep
  cases input with
  | none => rfl
  | some msg =>
    by_cases hm : msg.Typ = "onPage"
    · by_cases hx : h = ws
      · subst hx; simp [hm, putClient, setSess, ownerOf]
      · simp [hm, putClient, setSess, hx]
    · simp [hm]

theorem sendMessage_from_sess (c : SendCtx) (fails : Handle → Bool) :
    ∀ (ks : List Handle) (msg : wsMessage) (w : World),
      (sendMessage_from c fails ks msg w).sess = w.sess := by
  intro ks
  induction ks with
  | nil => intro msg w; rfl
  | cons k ks ih =>
    intro msg w
    have hprune : ∀ m m2 : wsMessage,
        (sendMessage_from c fails ks m2 (sendOrPrune fails m k w)).sess = w.sess := by
      intro m m2
      rw [ih, (sendOrPrune_only fails m k w).2.1]
    rw [sendMessage_from_cons]
    split
    · split
      · rw [ih]
        split <;> rfl
      · split
        · split
          · exact ih msg w
          · split
            · split
              · rfl
              · exact hprune _ _
            · exact hprune _ _
        · exact ih msg w
    · exact ih msg w

theorem step_owner (s : Step) (w : World) (h : Handle) (hreg : s.registers h = false) :
    ownerOf ((s.run w).sess h) = ownerOf (w.sess h) := by
  cases s with
  | signal ws input => exact readStep_owner ws input w h
  | loop l fails =>
    show ownerOf ((l.run fails w).sess h) = _
    rw [(handlerLoop_only fails w l).2.1]
  | send c fails =>
    show ownerOf ((sendMessage_from c fails w.clients _ w).sess h) = _
    rw [sendMessage_from_sess]
  | connect ws CurrentUser username hideOnline fails =>
    have hne : h ≠ ws := by
      intro e
      simp [Step.registers, e] at hreg
    show ownerOf ((handshake fails ws CurrentUser username hideOnline w).sess h) = _
    rw [handshake_owner, if_neg hne]
  | disconnect ws username hideOnline fails =>
    exact readLoopEnds_owner fails ws username hideOnline w h

theorem runSteps_owner :
    ∀ (steps : List Step) (w : World) (h : Handle),
      (∀ s ∈ steps, s.registers h = false) →
      ownerOf ((runSteps steps w).sess h) = ownerOf (w.sess h) := by
  intro steps
  induction steps with
  | nil => intro w h _; rfl
  | cons s rest ih =>
    intro w h hreg
    rw [runSteps, ih (s.run w) h (fun t ht => hreg t (List.mem_cons_of_mem _ ht)),
      step_owner s w h (hreg s (List.mem_cons_self _ _))]

/-! ## Lemmas on the calls of the selecting loops -/

theorem sendOrPrune_calls (fails : Handle → Bool) (msg : wsMessage) (k : Handle) (w : World) :
    (sendOrPrune fails msg k w).wsCalls = w.wsCalls ++ [(k, msg)] := by
  unfold sendOrPrune writeWs
  cases hf : fails k <;> rfl

theorem rangeSel_calls {σ : Type} (pick : σ → wsSession → σ × Option wsMessage)
    (fails : Handle → Bool) :
    ∀ (ks : List Handle) (st : σ) (w : World),
      ∃ L : List (Handle × wsMessage),
        (rangeSel pick fails ks st w).wsCalls = w.wsCalls ++ L ∧
        ∀ c ∈ L, c.1 ∈ ks ∧ ∃ st2, (pick st2 (w.sess c.1)).2 = some c.2 := by
  intro ks
  induction ks with
  | nil => intro st w; exact ⟨[], by simp [rangeSel], by simp⟩
  | cons k ks ih =>
    intro st w
    rw [rangeSel]
    split
    · split
      · rename_i st1 msg heq
        obtain ⟨L, hL, hmem⟩ := ih st1 (sendOrPrune fails msg k w)
        refine ⟨(k, msg) :: L, ?_, ?_⟩
        · rw [hL, sendOrPrune_calls]
          simp
        · intro c hc
          rcases List.mem_cons.mp hc with e | hc
          · subst e
            exact ⟨List.mem_cons_self _ _, st, by rw [heq]⟩
          · obtain ⟨a, st2, b⟩ := hmem c hc
            rw [(sendOrPrune_only fails msg k w).2.1] at b
            exact ⟨List.mem_cons_of_mem _ a, st2, b⟩
      · rename_i st1 heq
        obtain ⟨L, hL, hmem⟩ := ih st1 w
        exact ⟨L, hL, fun c hc => ⟨List.mem_cons_of_mem _ (hmem c hc).1, (hmem c hc).2⟩⟩
    · obtain ⟨L, hL, hmem⟩ := ih st w
      exact ⟨L, hL, fun c hc => ⟨List.mem_cons_of_mem _ (hmem c hc).1, (hmem c hc).2⟩⟩

theorem callsTo_rangeSel_zero {σ : Type} (pick : σ → wsSession → σ × Option wsMessage)
    (fails : Handle → Bool) (st : σ) (w : World) (h : Handle)
    (hnone : ∀ st2, (pick st2 (w.sess h)).2 = none) :
    callsTo h w (rangeSel pick fails w.clients st w) = 0 := by
  obtain ⟨L, hL, hmem⟩ := rangeSel_calls pick fails w.clients st w
  unfold callsTo newCalls
  rw [hL, List.drop_left, List.count_eq_zero]
  intro hin
  obtain ⟨c, hc, e⟩ := List.mem_map.mp hin
  obtain ⟨_, st2, hsome⟩ := hmem c hc
  rw [e, hnone st2] at hsome
  exact Option.noConfusion hsome

/-! ## Claims on the single handlers and on the polling fallback -/

/-- C21: the UserID and Level of a registered connection never change after the
handshake sets them: after the handshake of `ws` for `CurrentUser` and any
sequence of inbound signals, read errors, handler fan-out passes, sendMessage
passes, handshakes of other connections and read-loop ends, the session of
`ws` has UserID = CurrentUser.ID and Level = CurrentUser.Level; and the same
two fields of every session are kept by every such sequence. -/
theorem owner_fields_never_change (fails : Handle → Bool) (ws : Handle) (CurrentUser : user)
    (username : String) (hideOnline : Bool) (steps : List Step) (w : World)
    (hreg : ∀ s ∈ steps, s.registers ws = false) :
    ((runSteps steps (handshake fails ws CurrentUser username hideOnline w)).sess ws).UserID =
        CurrentUser.ID ∧
    ((runSteps steps (handshake fails ws CurrentUser username hideOnline w)).sess ws).Level =
        CurrentUser.Level ∧
    (∀ (h : Handle) (w0 : World), (∀ s ∈ steps, s.registers h = false) →
      ((runSteps steps w0).sess h).UserID = (w0.sess h).UserID ∧
      ((runSteps steps w0).sess h).Level = (w0.sess h).Level) := by
  have h1 := runSteps_owner steps (handshake fails ws CurrentUser username hideOnline w) ws hreg
  rw [handshake_owner, if_pos rfl] at h1
  simp only [ownerOf, Prod.mk.injEq] at h1
  refine ⟨h1.1, h1.2, ?_⟩
  intro h w0 hr
  have h2 := runSteps_owner steps w0 h hr
  simp only [ownerOf, Prod.mk.injEq] at h2
  exact h2

theorem owner_fields_never_change_witness :
    (∀ s ∈ [Step.signal 12 (some onPage7), Step.loop (.adminBanUser 1) (fun h => h == 12),
        Step.connect 13 bob "bob" false (fun _ => false),
        Step.disconnect 10 "alice" false (fun _ => false)], s.registers 12 = false) ∧
      ((runSteps [Step.signal 12 (some onPage7), Step.loop (.adminBanUser 1) (fun h => h == 12),
          Step.connect 13 bob "bob" false (fun _ => false),
          Step.disconnect 10 "alice" false (fun _ => false)]
        (handshake (fun _ => false) 12 alice "alice" false tabsWorld)).sess 12).UserID = 1 :=
  ⟨by decide,
    (owner_fields_never_change (fun _ => false) 12 alice "alice" false
      [Step.signal 12 (some onPage7), Step.loop (.adminBanUser 1) (fun h => h == 12),
        Step.connect 13 bob "bob" false (fun _ => false),
        Step.disconnect 10 "alice" false (fun _ => false)] tabsWorld (by decide)).1⟩

/-- C22: in the polling fallback (websockets disabled) a heartbeat at time t
marks the user online with last_seen = t and schedules a re-check for t + 50 s;
a re-check that runs at or after that time, finds last_seen not advanced and
the user still marked online, sets the user offline.  With websockets enabled
the heartbeat changes nothing. -/
theorem heartbeat_recheck_sets_offline (id t T : Int) (db db2 : PollDb)
    (hT : t + 50 * second ≤ T)
    (hseen : db2.last_seen id = (getNotificationCounts_heartbeat false id t db).last_seen id)
    (hon : db2.online id = true) :
    (getNotificationCounts_heartbeat false id t db).online id = true ∧
    (getNotificationCounts_heartbeat false id t db).last_seen id = t ∧
    (getNotificationCounts_heartbeat false id t db).scheduled =
      db.scheduled ++ [(t + 50 * second, id)] ∧
    (recheck id T db2).online id = false ∧
    getNotificationCounts_heartbeat true id t db = db := by
  have hl : (getNotificationCounts_heartbeat false id t db).last_seen id = t := by
    simp [getNotificationCounts_heartbeat]
  refine ⟨by simp [getNotificationCounts_heartbeat], hl,
    by simp [getNotificationCounts_heartbeat], ?_, by simp [getNotificationCounts_heartbeat]⟩
  rw [hl] at hseen
  have hage : T - db2.last_seen id > 45 * second := by
    rw [hseen]
    unfold second at hT ⊢
    omega
  unfold recheck
  rw [if_pos ⟨hon, hage⟩]
  simp

theorem heartbeat_recheck_sets_offline_witness :
    (0 : Int) + 50 * second ≤ 50 * second ∧
      (recheck 1 (50 * second) (getNotificationCounts_heartbeat false 1 0 idleDb)).online 1 =
        false :=
  ⟨by decide,
    (heartbeat_recheck_sets_offline 1 0 (50 * second) idleDb
      (getNotificationCounts_heartbeat false 1 0 idleDb) (by decide) rfl (by decide)).2.2.2.1⟩

/-- C24 (the code departs from the claim): message "77" of group conversation
"5" is deleted; connections 20 and 30 are both on "/conversations/5" and their
users are both members.  The loop scans the member count into `otherUserID`,
so after the first member it takes the direct-message branch: only the
connection visited first receives the "delete" event, 20 in one order and 30
in the other. -/
theorem deleteMessage_reaches_first_member_only :
    ((viewersWorld [20, 30]).sess 30).OnPage = "/conversations/" ++ groupDelete.conversationID ∧
    groupDelete.memberCount ((viewersWorld [20, 30]).sess 30).UserID = 1 ∧
    newCalls (viewersWorld [20, 30])
        (deleteMessage_fanout groupDelete (fun _ => false) (viewersWorld [20, 30])) =
      [(20, ⟨"77", "delete", ""⟩)] ∧
    newCalls (viewersWorld [30, 20])
        (deleteMessage_fanout groupDelete (fun _ => false) (viewersWorld [30, 20])) =
      [(30, ⟨"77", "delete", ""⟩)] := by
  decide

/-- C25 (the code departs from the claim): in group conversation "5" the
connection 30 of member 3 is on another page and is visited first, so `msg`
becomes the "messageNotif" event; connection 20, which qualifies as a live
viewer, is visited next and receives that event instead of the "message" event
with the rendered message. -/
theorem sendMessage_viewer_gets_stale_event :
    sendQualifies chatCtx (mixedWorld.sess 20) = true ∧
    newCalls mixedWorld (sendMessage_fanout chatCtx (fun _ => false) mixedWorld) =
      [(30, ⟨"", "messageNotif", "1"⟩), (20, ⟨"", "messageNotif", "1"⟩)] ∧
    newCalls convWorld (sendMessage_fanout chatCtx (fun _ => false) convWorld) =
      [(20, ⟨"", "message", "<li>hello</li>"⟩)] := by
  decide

/-- C26 (the code departs from the claim): user "bob" is followed; connection
40 is viewing "/users/bobby", the page of a different user, which is neither
"/users/bob" nor under "/users/bob/"; it receives the "follow" event and the
"unfollow" event all the same, because the test is a bare prefix test. -/
theorem follow_event_reaches_other_users_page :
    (profileWorld.sess 40).OnPage ≠ "/users/" ++ "bob" ∧
    hasPrefix (profileWorld.sess 40).OnPage ("/users/" ++ "bob" ++ "/") = false ∧
    newCalls profileWorld (createFollow_fanout (fun _ => false) "bob" profileWorld) =
      [(40, ⟨"", "follow", ""⟩)] ∧
    newCalls profileWorld (deleteFollow_fanout (fun _ => false) "bob" profileWorld) =
      [(40, ⟨"", "unfollow", ""⟩)] := by
  decide

/-- C27: in the fan-out loops of createComment and createPost a connection
whose Level is 0 and whose user is in a block relation with the author receives
no event at all, whatever page it is on, for every registry and all write
outcomes. -/
theorem blocked_viewer_receives_nothing (cc : CommentCtx) (pc : PostCtx)
    (fails : Handle → Bool) (w : World) (h : Handle) (hlevel : (w.sess h).Level = 0)
    (hbc : cc.blocked (w.sess h).UserID = true) (hbp : pc.blocked (w.sess h).UserID = true) :
    callsTo h w (createComment_fanout cc fails w) = 0 ∧
    callsTo h w (createPost_fanout pc fails w) = 0 := by
  refine ⟨?_, ?_⟩
  · apply callsTo_rangeSel_zero
    intro st2
    simp [createComment_pick, hlevel, hbc]
  · apply callsTo_rangeSel_zero
    intro st2
    simp [createPost_pick, hlevel, hbp]

theorem blocked_viewer_receives_nothing_witness :
    (tabsWorld.sess 20).Level = 0 ∧ aliceComment.blocked (tabsWorld.sess 20).UserID = true ∧
      blockedPost.blocked (tabsWorld.sess 20).UserID = true ∧
      callsTo 20 tabsWorld (createPost_fanout blockedPost (fun _ => false) tabsWorld) = 0 :=
  ⟨by decide, by decide, by decide,
    (blocked_viewer_receives_nothing aliceComment blockedPost (fun _ => false) tabsWorld 20
      (by decide) (by decide) (by decide)).2⟩

/-- C28 (the code departs from the claim): alice (user 1) creates a public
post; her own connection 11 is viewing "/users/alice/posts".  The branch for
that page has no test on the owner of the connection, so the author's
connection receives the "post" event. -/
theorem createPost_reaches_authors_profile_tab :
    (profileWorld.sess 11).UserID = alicePost.CreatedBy ∧
    newCalls profileWorld (createPost_fanout alicePost (fun _ => false) profileWorld) =
      [(11, ⟨"", "post", "<div>profile</div>"⟩)] := by
  decide

/-- C29 (the code departs from the claim): for a user with 1 unread direct
message and 2 unread group messages showConversation sends "messageNotif" with
Content "3", while showGroupChat, which reads the same two counts, never
assigns `msg.Content` and sends the empty string. -/
theorem showGroupChat_sends_empty_count :
    newCalls tabsWorld (showConversation_fanout (fun _ => false) alice 1 2 tabsWorld) =
      [(10, ⟨"", "messageNotif", "3"⟩), (11, ⟨"", "messageNotif", "3"⟩)] ∧
    newCalls tabsWorld (showGroupChat_fanout (fun _ => false) alice tabsWorld) =
      [(10, ⟨"", "messageNotif", ""⟩), (11, ⟨"", "messageNotif", ""⟩)] := by
  decide

/-- C30 as stated fails: heartbeats at 0 s and at 2 s; the re-check of the
first heartbeat runs at 50 s, finds last_seen advanced to 2 s, which is 48 s
old, and sets the user offline. -/
theorem recheck_sets_offline_after_later_heartbeat :
    (getNotificationCounts_heartbeat false 1 (2 * second)
      (getNotificationCounts_heartbeat false 1 0 idleDb)).last_seen 1 = 2 * second ∧
    (recheck 1 (0 + 50 * second)
      (getNotificationCounts_heartbeat false 1 (2 * second)
        (getNotificationCounts_heartbeat false 1 0 idleDb))).online 1 = false := by
  decide

/-- C30 amended: a re-check leaves the user marked online exactly when the user
is marked online and last_seen is at most 45 s old when it runs; so a re-check
running 50 s after its own heartbeat leaves the user online if a later
heartbeat came at least 5 s after the scheduling one, and sets the user offline
if the last heartbeat came less than 5 s after it.  A re-check changes no other
row and never last_seen. -/
theorem recheck_uses_age_of_last_seen (id T : Int) (db : PollDb) :
    ((recheck id T db).online id = true ↔
      (db.online id = true ∧ T - db.last_seen id ≤ 45 * second)) ∧
    (∀ u, u ≠ id → (recheck id T db).online u = db.online u) ∧
    (recheck id T db).last_seen = db.last_seen ∧
    (∀ (t t2 : Int) (db0 : PollDb), t + 5 * second ≤ t2 →
      (recheck id (t + 50 * second)
        (getNotificationCounts_heartbeat false id t2
          (getNotificationCounts_heartbeat false id t db0))).online id = true) ∧
    (∀ (t t2 : Int) (db0 : PollDb), t2 < t + 5 * second →
      (recheck id (t + 50 * second)
        (getNotificationCounts_heartbeat false id t2
          (getNotificationCounts_heartbeat false id t db0))).online id = false) := by
  refine ⟨?_, ?_, ?_, ?_, ?_⟩
  · unfold recheck
    by_cases hc : db.online id = true ∧ T - db.last_seen id > 45 * second
    · rw [if_pos hc]
      simp only [if_true, Bool.false_eq_true, false_iff, not_and, not_le]
      intro _
      exact hc.2
    · rw [if_neg hc]
      constructor
      · intro hon
        refine ⟨hon, ?_⟩
        by_contra hgt
        exact hc ⟨hon, not_le.mp hgt⟩
      · intro h; exact h.1
  · intro u hu
    unfold recheck
    split
    · simp [hu]
    · rfl
  · unfold recheck
    split <;> rfl
  · intro t t2 db0 h5
    unfold recheck
    have hage : ¬ (t + 50 * second - (getNotificationCounts_heartbeat false id t2
        (getNotificationCounts_heartbeat false id t db0)).last_seen id > 45 * second) := by
      simp only [getNotificationCounts_heartbeat, Bool.not_false, if_true]
      unfold second at h5 ⊢
      omega
    rw [if_neg (fun hc => hage hc.2)]
    simp [getNotificationCounts_heartbeat]
  · intro t t2 db0 h5
    unfold recheck
    have hage : t + 50 * second - (getNotificationCounts_heartbeat false id t2
        (getNotificationCounts_heartbeat false id t db0)).last_seen id > 45 * second := by
      simp only [getNotificationCounts_heartbeat, Bool.not_false, if_true]
      unfold second at h5 ⊢
      omega
    rw [if_pos ⟨by simp [getNotificationCounts_heartbeat], hage⟩]
    simp

theorem recheck_uses_age_of_last_seen_witness :
    (0 : Int) + 5 * second ≤ 5 * second ∧
      (recheck 1 (0 + 50 * second)
        (getNotificationCounts_heartbeat false 1 (5 * second)
          (getNotificationCounts_heartbeat false 1 0 idleDb))).online 1 = true :=
  ⟨by decide,
    (recheck_uses_age_of_last_seen 1 0 idleDb).2.2.2.1 0 (5 * second) idleDb (by decide)⟩

/-! ## Failure locality of the handler loops -/

theorem selCalls_sublist {σ : Type} (pick : σ → wsSession → σ × Option wsMessage)
    (sess : Handle → wsSession) :
    ∀ (ks : List Handle) (st : σ), ((selCalls pick sess ks st).map Prod.fst).Sublist ks := by
  intro ks
  induction ks with
  | nil => intro st; simp [selCalls]
  | cons k ks ih =>
    intro st
    rw [selCalls]
    cases hp : pick st (sess k) with
    | mk st1 o =>
      cases o with
      | none => exact (ih st1).cons k
      | some m => exact (ih st1).cons₂ k

theorem rangeSel_eq {σ : Type} (pick : σ → wsSession → σ × Option wsMessage)
    (fails : Handle → Bool) :
    ∀ (ks : List Handle) (st : σ) (w : World), ks.Nodup → (∀ k ∈ ks, k ∈ w.clients) →
      rangeSel pick fails ks st w =
        { w with
          clients := w.clients.filter
            (fun h => !(decide (h ∈ (selCalls pick w.sess ks st).map Prod.fst) && fails h))
          closed := w.closed ++ ((selCalls pick w.sess ks st).map Prod.fst).filter
            (fun h => fails h)
          wsCalls := w.wsCalls ++ selCalls pick w.sess ks st } := by
  intro ks
  induction ks with
  | nil =>
    intro st w _ _
    cases w
    simp [rangeSel, selCalls]
  | cons k ks ih =>
    intro st w hnd hmem
    have hk : k ∈ w.clients := hmem k (List.mem_cons_self _ _)
    have hknot : k ∉ ks := (List.nodup_cons.mp hnd).1
    have hnd2 : ks.Nodup := (List.nodup_cons.mp hnd).2
    have hmem2 : ∀ k2 ∈ ks, k2 ∈ w.clients := fun k2 h2 => hmem k2 (List.mem_cons_of_mem _ h2)
    have hne : ∀ k2 ∈ ks, k2 ≠ k := fun k2 h2 e => hknot (e ▸ h2)
    have hout : ∀ st1 : σ, k ∉ (selCalls pick w.sess ks st1).map Prod.fst :=
      fun st1 hin => hknot ((selCalls_sublist pick w.sess ks st1).subset hin)
    rw [rangeSel, if_pos hk, selCalls]
    cases hp : pick st (w.sess k) with
    | mk st1 o =>
      cases o with
      | none =>
        simp only []
        rw [ih st1 w hnd2 hmem2]
      | some m =>
        simp only []
        cases hf : fails k
        · have hb : sendOrPrune fails m k w = { w with wsCalls := w.wsCalls ++ [(k, m)] } := by
            simp [sendOrPrune, writeWs, hf]
          rw [hb, ih st1 _ hnd2 (by simpa using hmem2)]
          cases w
          simp only [World.mk.injEq, true_and, and_true]
          refine ⟨?_, ?_, ?_⟩
          · apply List.filter_congr
            intro x _
            by_cases hx : x = k
            · subst hx; simp [hf]
            · have hxb : (x == k) = false := by simp [hx]
              simp [hx, hxb]
          · simp [List.filter_cons, hf]
          · simp
        · have hb : sendOrPrune fails m k w =
              { w with
                clients := w.clients.filter (fun x => x != k)
                closed := w.closed ++ [k]
                wsCalls := w.wsCalls ++ [(k, m)] } := by
            simp [sendOrPrune, writeWs, hf, delClient, connClose]
          rw [hb, ih st1 _ hnd2 (by
            intro k2 h2
            simp only [List.mem_filter, bne_iff_ne, ne_eq]
            exact ⟨hmem2 k2 h2, hne k2 h2⟩)]
          have hout1 := hout st1
          cases w
          simp only [World.mk.injEq, true_and, and_true, List.filter_filter]
          refine ⟨?_, ?_, ?_⟩
          · apply List.filter_congr
            intro x _
            by_cases hx : x = k
            · subst hx; simp [hf]
            · have hxb : (x == k) = false := by simp [hx]
              simp [hx, hxb]
          · simp [List.filter_cons, hf]
          · simp

theorem localFailures_rangeSel {σ : Type} (pick : σ → wsSession → σ × Option wsMessage)
    (st : σ) (w : World) (hnd : w.clients.Nodup) :
    LocalFailures false w (fun fails => rangeSel pick fails w.clients st w) := by
  have hcalls : ∀ f : Handle → Bool,
      newCalls w (rangeSel pick f w.clients st w) = selCalls pick w.sess w.clients st := by
    intro f
    rw [rangeSel_eq pick f w.clients st w hnd (fun _ h => h)]
    simp [newCalls]
  intro fails
  show (∀ f2 : Handle → Bool, newCalls w (rangeSel pick f2 w.clients st w) =
      newCalls w (rangeSel pick fails w.clients st w)) ∧
    ((newCalls w (rangeSel pick fails w.clients st w)).map Prod.fst).Nodup ∧
    (∀ h ∈ (newCalls w (rangeSel pick fails w.clients st w)).map Prod.fst, h ∈ w.clients) ∧
    (∀ h, h ∈ (rangeSel pick fails w.clients st w).clients ↔
      (h ∈ w.clients ∧ ¬ (h ∈ (newCalls w (rangeSel pick fails w.clients st w)).map Prod.fst ∧
        (fails h = true ∨ false = true)))) ∧
    (∀ h, h ∈ newClosed w (rangeSel pick fails w.clients st w) ↔
      (h ∈ (newCalls w (rangeSel pick fails w.clients st w)).map Prod.fst ∧
        (fails h = true ∨ false = true))) ∧
    (rangeSel pick fails w.clients st w).sess = w.sess ∧
    (w.panicked = false → (rangeSel pick fails w.clients st w).panicked = false)
  refine ⟨fun f2 => by rw [hcalls, hcalls], ?_, ?_, ?_, ?_, ?_, ?_⟩
  · rw [hcalls]
    exact (selCalls_sublist pick w.sess w.clients st).nodup hnd
  · rw [hcalls]
    exact fun h hh => (selCalls_sublist pick w.sess w.clients st).subset hh
  · intro h
    rw [hcalls, rangeSel_eq pick fails w.clients st w hnd (fun _ h => h)]
    simp only [List.mem_filter, Bool.not_eq_true', Bool.and_eq_false_imp, decide_eq_true_eq,
      Bool.false_eq_true, or_false, not_and, Bool.not_eq_true]
  · intro h
    rw [hcalls, rangeSel_eq pick fails w.clients st w hnd (fun _ h => h)]
    simp [newClosed, List.mem_filter]
  · exact (rangeSel_only pick fails w.clients st w).2.1
  · intro hp
    rw [(rangeSel_only pick fails w.clients st w).2.2.2.2.1, hp]

theorem localFailures_visited (cond : wsSession → Bool) (msg : wsMessage) (forces : Bool)
    (w : World) (hnd : w.clients.Nodup) :
    LocalFailures forces w
      (fun fails => visited cond (fun h => fails h || forces) msg w) := by
  intro fails
  have hfst : ∀ l : List Handle, (l.map (fun h => (h, msg))).map Prod.fst = l := by
    intro l
    rw [List.map_map]
    exact List.map_id _
  refine ⟨fun f2 => by rw [newCalls_visited, newCalls_visited], ?_⟩
  simp only [newCalls_visited, hfst, newClosed_visited]
  refine ⟨hnd.filter _, fun h hh => (List.mem_filter.mp hh).1, ?_, ?_, rfl,
    fun _ => rfl⟩
  · intro h
    simp only [visited, List.mem_filter, Bool.not_eq_true', Bool.and_eq_false_imp,
      Bool.or_eq_false_iff, not_and, not_or, Bool.not_eq_true, Bool.or_eq_true]
    constructor
    · rintro ⟨a, b⟩
      exact ⟨a, fun hc => b hc.2⟩
    · rintro ⟨a, b⟩
      exact ⟨a, fun hc => b ⟨a, hc⟩⟩
  · intro h
    simp only [List.mem_filter, Bool.and_eq_true, Bool.or_eq_true]
    constructor
    · rintro ⟨a, b, c⟩
      exact ⟨⟨a, b⟩, c⟩
    · rintro ⟨⟨a, b⟩, c⟩
      exact ⟨a, b, c⟩

theorem localFailures_fanoutIf (cond : wsSession → Bool) (msg : wsMessage) (w : World)
    (hnd : w.clients.Nodup) :
    LocalFailures false w (fun fails => fanoutIf cond fails msg w) := by
  have h := localFailures_visited cond msg false w hnd
  have e : (fun fails : Handle → Bool => fanoutIf cond fails msg w) =
      fun fails => visited cond (fun h => fails h || false) msg w := by
    funext fails
    rw [fanoutIf_eq cond fails msg w hnd]
    simp
  rw [e]
  exact h

theorem localFailures_logout (userID : Option Int) (w : World) (hnd : w.clients.Nodup) :
    LocalFailures true w (fun fails => logout_fanout fails userID w) := by
  have h := localFailures_visited (fun s => some s.UserID == userID) ⟨"", "refresh", ""⟩ true
    w hnd
  have e : (fun fails : Handle → Bool => logout_fanout fails userID w) =
      fun fails => visited (fun s => some s.UserID == userID) (fun h => fails h || true)
        ⟨"", "refresh", ""⟩ w := by
    funext fails
    rw [logout_fanout_eq fails userID w hnd]
    simp
  rw [e]
  exact h

theorem localFailures_resetPassword (userID : Int) (w : World) (hnd : w.clients.Nodup) :
    LocalFailures true w (fun fails => resetPassword_fanout fails userID w) := by
  have h := localFailures_visited (fun s => s.UserID == userID) ⟨"", "refresh", ""⟩ true
    w hnd
  have e : (fun fails : Handle → Bool => resetPassword_fanout fails userID w) =
      fun fails => visited (fun s => s.UserID == userID) (fun h => fails h || true)
        ⟨"", "refresh", ""⟩ w := by
    funext fails
    rw [resetPassword_fanout_eq fails userID w hnd]
    simp
  rw [e]
  exact h

theorem localFailures_handlerLoop (w : World) (hnd : w.clients.Nodup) (l : HandlerLoop) :
    LocalFailures l.forces w (fun fails => l.run fails w) := by
  cases l with
  | logout userID => exact localFailures_logout userID w hnd
  | resetPassword userID => exact localFailures_resetPassword userID w hnd
  | createComment c => exact localFailures_rangeSel _ _ w hnd
  | createPost c => exact localFailures_rangeSel _ _ w hnd
  | deleteComment CurrentUser comment_id commentID => exact localFailures_rangeSel _ _ w hnd
  | deleteMessage c => exact localFailures_rangeSel _ _ w hnd
  | deletePost CurrentUser post_id community_id => exact localFailures_rangeSel _ _ w hnd
  | editPost post_id community_id parsed parsedBreaks => exact localFailures_rangeSel _ _ w hnd
  | _ => exact localFailures_fanoutIf _ _ w hnd

theorem sendOrPrune_keeps (fails : Handle → Bool) (msg : wsMessage) (k h : Handle) (w : World)
    (hh : h ∈ w.clients) (hok : fails h = false) : h ∈ (sendOrPrune fails msg k w).clients := by
  by_cases hk : h = k
  · subst hk
    simp [sendOrPrune, writeWs, hok, hh]
  · exact sendOrPrune_mem fails msg k h w hk hh

theorem sendMessage_from_keeps (c : SendCtx) (fails : Handle → Bool) (h : Handle)
    (hok : fails h = false) :
    ∀ (ks : List Handle) (msg : wsMessage) (w : World), h ∈ w.clients →
      h ∈ (sendMessage_from c fails ks msg w).clients := by
  intro ks
  induction ks with
  | nil => intro msg w hh; simpa [sendMessage_from] using hh
  | cons k ks ih =>
    intro msg w hh
    rw [sendMessage_from_cons]
    split
    · split
      · apply ih
        split <;> simpa [dbExec, writeWs] using hh
      · split
        · split
          · exact ih _ _ hh
          · split
            · split
              · exact hh
              · exact ih _ _ (sendOrPrune_keeps fails _ k h w hh hok)
            · exact ih _ _ (sendOrPrune_keeps fails _ k h w hh hok)
        · exact ih _ _ hh
    · exact ih _ _ hh

theorem sendMessage_from_calls (c : SendCtx) (fails : Handle → Bool) :
    ∀ (ks : List Handle) (msg : wsMessage) (w : World), ks.Nodup →
      (∀ k ∈ ks, k ∈ w.clients) →
      (sendMessage_from c fails ks msg w).wsCalls =
        w.wsCalls ++ sendCallsLog c w.sess ks msg := by
  intro ks
  induction ks with
  | nil => intro msg w _ _; simp [sendMessage_from, sendCallsLog]
  | cons k ks ih =>
    intro msg w hnd hmem
    have hk : k ∈ w.clients := hmem k (List.mem_cons_self _ _)
    have hknot : k ∉ ks := (List.nodup_cons.mp hnd).1
    have hnd2 : ks.Nodup := (List.nodup_cons.mp hnd).2
    have hmem2 : ∀ k2 ∈ ks, k2 ∈ w.clients := fun k2 h2 => hmem k2 (List.mem_cons_of_mem _ h2)
    have hne : ∀ k2 ∈ ks, k2 ≠ k := fun k2 h2 e => hknot (e ▸ h2)
    have hstay : ∀ (m : wsMessage),
        (sendMessage_from c fails ks m (sendOrPrune fails m k w)).wsCalls =
          w.wsCalls ++ (k, m) :: sendCallsLog c w.sess ks m := by
      intro m
      rw [ih m _ hnd2 (fun k2 h2 => sendOrPrune_mem fails m k k2 w (hne k2 h2) (hmem2 k2 h2)),
        (sendOrPrune_only fails m k w).2.1, sendOrPrune_calls]
      simp
    rw [sendMessage_from_cons, if_pos hk, sendCallsLog]
    by_cases hqual : sendQualifies c (w.sess k) = true
    · rw [if_pos hqual, if_pos hqual]
      by_cases ht : c.target = 0
      · rw [if_pos ht, ih msg _ hnd2 (by simpa [dbExec, writeWs] using hmem2)]
        simp [dbExec, writeWs]
      · rw [if_neg ht, ih msg _ hnd2 (by simpa [dbExec, writeWs] using hmem2)]
        simp [dbExec, writeWs]
    · rw [if_neg hqual, if_neg hqual]
      by_cases h2 : ((w.sess k).UserID == c.otherUserID || c.target == 0) = true
      · rw [if_pos h2, if_pos h2]
        by_cases h3 : c.target = 0 ∧ ¬ (w.sess k).UserID ∈ c.members
        · rw [if_pos h3, if_pos h3, ih msg w hnd2 hmem2]
        · rw [if_neg h3, if_neg h3]
          by_cases h4 : (w.sess k).OnPage = "/messages"
          · rw [if_pos h4, if_pos h4]
            by_cases h5 : c.target = 0 ∧ c.queryFails k = true
            · rw [if_pos h5, if_pos h5]
              simp
            · rw [if_neg h5, if_neg h5]
              exact hstay _
          · rw [if_neg h4, if_neg h4]
            exact hstay _
      · rw [if_neg h2, if_neg h2, ih msg w hnd2 hmem2]

theorem callsTo_of_nodup (h : Handle) (w w2 : World)
    (hnd : ((newCalls w w2).map Prod.fst).Nodup) :
    (callsTo h w w2 ≤ 1) ∧ (callsTo h w w2 = 1 ↔ h ∈ (newCalls w w2).map Prod.fst) := by
  unfold callsTo
  rw [List.count_eq_of_nodup hnd]
  by_cases hin : h ∈ (newCalls w w2).map Prod.fst
  · simp [hin]
  · simp [hin]

/-- C9: in every handler fan-out loop (the loops of `HandlerLoop`, the one of
newFriendRequest among them), for every registry and all write outcomes: the
`writeWs` calls made are the same as under any other write outcomes, so a
failed write does not change which connections receive a write attempt; no
connection is called twice, and every connection that is called when no write
fails still gets exactly one call; a connection stays registered unless it was
itself called and its own write failed (or the loop is a force-logout loop,
which removes every connection it calls); the transports closed are those of
the connections removed; no session object changes; and the loop raises no
panic (it has no error result).  In newFriendRequest the connections called are
exactly those of the addressed user.  The loop of sendMessage makes the same
calls under all write outcomes and keeps every connection whose own write did
not fail. -/
theorem handler_loop_write_failure_is_local (fails : Handle → Bool) (w : World)
    (hnd : w.clients.Nodup) :
    (∀ l : HandlerLoop,
      (∀ fails2 : Handle → Bool, newCalls w (l.run fails2 w) = newCalls w (l.run fails w)) ∧
      (∀ h, callsTo h w (l.run fails w) ≤ 1) ∧
      (∀ h, callsTo h w (l.run (fun _ => false) w) = 1 → callsTo h w (l.run fails w) = 1) ∧
      (∀ h, h ∈ (l.run fails w).clients ↔
        (h ∈ w.clients ∧
          ¬ (callsTo h w (l.run fails w) = 1 ∧ (fails h = true ∨ l.forces = true)))) ∧
      (∀ h, h ∈ newClosed w (l.run fails w) ↔
        (callsTo h w (l.run fails w) = 1 ∧ (fails h = true ∨ l.forces = true))) ∧
      (∀ h, 0 < callsTo h w (l.run fails w) → h ∈ w.clients) ∧
      (l.run fails w).sess = w.sess ∧
      (w.panicked = false → (l.run fails w).panicked = false)) ∧
    (∀ (user_id notifCount friendRequests : Int) (h : Handle),
      callsTo h w (newFriendRequest_fanout fails user_id notifCount friendRequests w) =
        if h ∈ w.clients ∧ (w.sess h).UserID = user_id then 1 else 0) ∧
    (∀ c : SendCtx,
      (∀ fails2 : Handle → Bool,
        newCalls w (sendMessage_fanout c fails2 w) =
          newCalls w (sendMessage_fanout c fails w)) ∧
      (∀ h ∈ w.clients, fails h = false → h ∈ (sendMessage_fanout c fails w).clients)) := by
  refine ⟨?_, ?_, ?_⟩
  · intro l
    obtain ⟨a, b, c, d, e, f, g⟩ := localFailures_handlerLoop w hnd l fails
    have hc := fun h => callsTo_of_nodup h w (l.run fails w) b
    refine ⟨a, fun h => (hc h).1, ?_, ?_, ?_, ?_, f, g⟩
    · intro h h1
      unfold callsTo at h1 ⊢
      rw [← a (fun _ => false)]
      exact h1
    · intro h
      rw [(hc h).2]
      exact d h
    · intro h
      rw [(hc h).2]
      exact e h
    · intro h hpos
      apply c h
      unfold callsTo at hpos
      exact List.count_pos_iff.mp hpos
  · intro user_id notifCount friendRequests h
    unfold newFriendRequest_fanout
    rw [fanoutIf_eq _ _ _ w hnd, callsTo_visited _ _ _ w hnd]
    simp
  · intro c
    have hcalls : ∀ f : Handle → Bool,
        newCalls w (sendMessage_fanout c f w) =
          sendCallsLog c w.sess w.clients ⟨"", "message", c.rendered⟩ := by
      intro f
      unfold sendMessage_fanout newCalls
      rw [sendMessage_from_calls c f w.clients _ w hnd (fun _ h => h)]
      simp
    refine ⟨fun f2 => by rw [hcalls, hcalls], ?_⟩
    intro h hh hok
    exact sendMessage_from_keeps c fails h hok w.clients _ w hh

theorem handler_loop_write_failure_is_local_witness :
    tabsWorld.clients.Nodup ∧
      callsTo 20 tabsWorld
        ((HandlerLoop.editPost "42" "3" "body" "body").run (fun h => h == 10) tabsWorld) = 1 ∧
      (20 : Handle) ∈
        ((HandlerLoop.editPost "42" "3" "body" "body").run (fun h => h == 10) tabsWorld).clients ∧
      (10 : Handle) ∉
        ((HandlerLoop.editPost "42" "3" "body" "body").run (fun h => h == 10) tabsWorld).clients :=
  ⟨by decide,
    ((handler_loop_write_failure_is_local (fun h => h == 10) tabsWorld (by decide)).1
      (HandlerLoop.editPost "42" "3" "body" "body")).2.2.1 20 (by decide),
    (((handler_loop_write_failure_is_local (fun h => h == 10) tabsWorld (by decide)).1
      (HandlerLoop.editPost "42" "3" "body" "body")).2.2.2.1 20).mpr ⟨by decide, by decide⟩,
    fun hin =>
      ((((handler_loop_write_failure_is_local (fun h => h == 10) tabsWorld (by decide)).1
        (HandlerLoop.editPost "42" "3" "body" "body")).2.2.2.1 10).mp hin).2
        ⟨by decide, Or.inl (by decide)⟩⟩

/-! ## Presence pass and send worker on a queue that is already closed -/

/-- C11 (the code departs from the claim): the Send queue of connection 20 was
closed by an announce pass whose write to 20 failed, and 20 is registered
again.  The send worker of 20 receives the buffered message from the closed
queue and fails to write it; its `close` of the closed queue panics, so it
neither closes its own transport nor deletes its own handle nor returns. -/
theorem worker_panics_on_closed_queue :
    staleSys.worker 20 = .waiting ∧ (staleSys.world.sess 20).Send = .shut ∧
    staleSys.sendq 20 = [⟨"", "notif", "1"⟩] ∧ 20 ∈ staleSys.world.clients ∧
    newWorkerFrames staleSys (workerTurn (fun h => h == 20) 20 staleSys) =
      [(20, ⟨"", "notif", "1"⟩)] ∧
    (workerTurn (fun h => h == 20) 20 staleSys).worker 20 = .crashed ∧
    20 ∈ (workerTurn (fun h => h == 20) 20 staleSys).world.clients ∧
    newClosed staleSys.world (workerTurn (fun h => h == 20) 20 staleSys).world = [] ∧
    20 ∉ (workerTurn (fun h => h == 20) 20 staleSys).world.closed := by
  decide

end RiiVerse
